import Mathlib

/-!
# Untrusted memory manager (`apps/sandbox/umm.c`)

A shallow embedding of the sandbox's memory-management entry points
(`umm_brk`, `umm_mmap`, `umm_map_big`, `umm_munmap`, `umm_mprotect`,
`umm_alloc_stack`) together with their helpers.

* `size_t`, `uintptr_t` and `unsigned long` are 64-bit: they are natural
  numbers, and every C operation that can wrap is taken modulo `2^64`
  (`add64`, `sub64`).  `int` results are integers.
* The two static counters `brk_len` and `mmap_len` are the fields of `Sys`.
* The host calls (`mmap`, `munmap`, `mprotect`) and the shadow page-table
  calls (`dune_vm_map_phys`, `dune_vm_unmap`, `dune_vm_mprotect`) are
  external.  Every call issued is appended to `Sys.log`; what a call returns
  is read from a `World`, which may depend on the whole history of calls.
* The constants and macros of `sandbox.h` and of libdune are not part of this
  file's source; they are the fields of `Config`.
* `printf` only writes to the standard output and is left out.
-/

namespace Umm

/-! ## Machine arithmetic -/

/-- Number of values of a 64-bit word, `2^64`. -/
def U64 : Nat := 18446744073709551616

/-- 64-bit unsigned addition. -/
def add64 (a b : Nat) : Nat := (a + b) % U64

/-- 64-bit unsigned subtraction. -/
def sub64 (a b : Nat) : Nat := (U64 - b % U64 + a) % U64

/-- Conversion of an `int` to `unsigned long` (sign extension, then the bit
pattern read as unsigned). -/
def to_ulong (i : Int) : Nat := (i % (U64 : Int)).toNat

/-! ## Constants of the system headers (Linux, x86-64) -/

def PROT_READ : Nat := 1

def PROT_WRITE : Nat := 2

def PROT_EXEC : Nat := 4

def MAP_PRIVATE : Nat := 2

def MAP_FIXED : Nat := 16

def MAP_ANONYMOUS : Nat := 32

def MAP_DENYWRITE : Nat := 2048

def MAP_HUGETLB : Nat := 262144

def ENOMEM : Int := 12

def EACCES : Int := 13

def EINVAL : Int := 22

/-- The compile-time switch `#define USE_BIG_MEM 1`. -/
def USE_BIG_MEM : Bool := true

/-! ## Configuration: what `sandbox.h` and libdune provide -/

/-- The names `umm.c` takes from `sandbox.h` and libdune.  Their definitions
are not in the source file, so they are parameters of the model. -/
structure Config where
  /-- `mmap_base`: where the heap begins -/
  mmap_base : Nat
  /-- `APP_MMAP_BASE_OFF`: offset of the top of the general region -/
  APP_MMAP_BASE_OFF : Nat
  /-- `APP_MMAP_LEN`: the region limit -/
  APP_MMAP_LEN : Nat
  /-- `APP_STACK_SIZE` -/
  APP_STACK_SIZE : Nat
  /-- `PGSIZE`: the ordinary page size -/
  PGSIZE : Nat
  /-- `BIG_PGSIZE`: the huge page size -/
  BIG_PGSIZE : Nat
  PERM_R : Nat
  PERM_W : Nat
  PERM_X : Nat
  PERM_U : Nat
  PERM_BIG : Nat
  /-- `mem_ref_is_safe(ptr, len)` -/
  mem_ref_is_safe : Nat → Nat → Bool

/-- Modelled from the spec: the macro `PGADDR` is not in the source file; it
rounds an address down to the ordinary page granularity. -/
def PGADDR (cfg : Config) (la : Nat) : Nat := la - la % cfg.PGSIZE

/-- Modelled from the spec: the macro `PGOFF` is not in the source file; it is
the offset of an address inside its ordinary page. -/
def PGOFF (cfg : Config) (la : Nat) : Nat := la % cfg.PGSIZE

/-- Modelled from the spec: the macro `BIG_PGADDR` is not in the source file;
it rounds an address down to the huge page granularity. -/
def BIG_PGADDR (cfg : Config) (la : Nat) : Nat := la - la % cfg.BIG_PGSIZE

/-- Modelled from the spec: the macro `BIG_PGOFF` is not in the source file;
it is the offset of an address inside its huge page. -/
def BIG_PGOFF (cfg : Config) (la : Nat) : Nat := la % cfg.BIG_PGSIZE

/-! ## External calls -/

/-- A call to the host kernel or to the shadow page table, with its
arguments (the page-table root `pgroot` is the same in every call). -/
inductive Call where
  | mmap (addr len prot flags : Nat) (fd offset : Int)
  | munmap (addr len : Nat)
  | mprotect (addr len prot : Nat)
  | dune_vm_map_phys (va len pa perm : Nat)
  | dune_vm_unmap (va len : Nat)
  | dune_vm_mprotect (va len perm : Nat)
  deriving DecidableEq, Repr

/-- The environment: what each external call answers, given the calls made
before it. -/
structure World where
  /-- value returned by the call (for `mmap`, the address of the mapping) -/
  ret : List Call → Call → Int
  /-- value of `errno` after the call -/
  errno : List Call → Call → Int
  /-- `dune_va_to_pa` -/
  dune_va_to_pa : Nat → Nat

/-- The state: the two static counters of `umm.c` and the external calls made
so far, oldest first. -/
structure Sys where
  brk_len : Nat
  mmap_len : Nat
  log : List Call
  deriving DecidableEq, Repr

/-- The state at program start: `brk_len = 0`, `mmap_len = 0`, no call made. -/
def Sys.init : Sys := ⟨0, 0, []⟩

/-- Record an external call. -/
def Sys.push (s : Sys) (c : Call) : Sys := ⟨s.brk_len, s.mmap_len, s.log ++ [c]⟩

/-! ## The helpers of `umm.c` -/

def umm_space_left (cfg : Config) (s : Sys) (len : Nat) : Bool :=
  decide ((s.brk_len + s.mmap_len + len) % U64 < cfg.APP_MMAP_LEN)

def umm_get_map_pos (cfg : Config) (s : Sys) : Nat :=
  sub64 (add64 cfg.mmap_base cfg.APP_MMAP_BASE_OFF) s.mmap_len

def prot_to_perm (cfg : Config) (prot : Nat) : Nat :=
  let perm := cfg.PERM_U
  let perm := if prot &&& PROT_READ ≠ 0 then perm ||| cfg.PERM_R else perm
  let perm := if prot &&& PROT_WRITE ≠ 0 then perm ||| cfg.PERM_W else perm
  let perm := if prot &&& PROT_EXEC ≠ 0 then perm ||| cfg.PERM_X else perm
  perm

def umm_mmap_anom (cfg : Config) (w : World) (addr len prot : Nat) (big : Bool)
    (s : Sys) : Int × Sys :=
  let flags := MAP_FIXED ||| MAP_PRIVATE ||| MAP_ANONYMOUS
  let perm := prot_to_perm cfg prot
  let flags := if big then flags ||| MAP_HUGETLB else flags
  let perm := if big then perm ||| cfg.PERM_BIG else perm
  let c1 := Call.mmap addr len prot flags (-1) 0
  let s1 := s.push c1
  if w.ret s.log c1 ≠ (addr : Int) then (- w.errno s.log c1, s1)
  else
    let c2 := Call.dune_vm_map_phys addr len (w.dune_va_to_pa addr) perm
    let s2 := s1.push c2
    if w.ret s1.log c2 ≠ 0 then (w.ret s1.log c2, s2.push (Call.munmap addr len))
    else (0, s2)

def umm_mmap_file (cfg : Config) (w : World) (addr len prot : Nat) (fd offset : Int)
    (s : Sys) : Int × Sys :=
  let c1 := Call.mmap addr len prot (MAP_FIXED ||| MAP_PRIVATE ||| MAP_DENYWRITE) fd offset
  let s1 := s.push c1
  if w.ret s.log c1 ≠ (addr : Int) then (- w.errno s.log c1, s1)
  else
    let c2 := Call.dune_vm_map_phys addr len (w.dune_va_to_pa addr) (prot_to_perm cfg prot)
    let s2 := s1.push c2
    if w.ret s1.log c2 ≠ 0 then (w.ret s1.log c2, s2.push (Call.munmap addr len))
    else (0, s2)

/-! ## The entry points -/

def umm_brk (cfg : Config) (w : World) (brk : Nat) (s : Sys) : Nat × Sys :=
  if brk = 0 then (cfg.mmap_base, s)
  else if brk < cfg.mmap_base then (to_ulong (-EINVAL), s)
  else
    let len := brk - cfg.mmap_base
    let len :=
      if USE_BIG_MEM then BIG_PGADDR cfg (sub64 (add64 len cfg.BIG_PGSIZE) 1)
      else PGADDR cfg (sub64 (add64 len cfg.PGSIZE) 1)
    if ¬ umm_space_left cfg s len then (to_ulong (-ENOMEM), s)
    else if len = s.brk_len then (brk, s)
    else if len < s.brk_len then
      let c := Call.munmap (add64 cfg.mmap_base len) (s.brk_len - len)
      let s1 := s.push c
      if w.ret s.log c ≠ 0 then (to_ulong (- w.errno s.log c), s1)
      else
        let s2 := s1.push (Call.dune_vm_unmap (add64 cfg.mmap_base len) (s.brk_len - len))
        (brk, ⟨len, s2.mmap_len, s2.log⟩)
    else
      let r := umm_mmap_anom cfg w (add64 cfg.mmap_base s.brk_len) (len - s.brk_len)
        (PROT_READ ||| PROT_WRITE) USE_BIG_MEM s
      if r.1 ≠ 0 then (to_ulong r.1, r.2)
      else (brk, ⟨len, r.2.mmap_len, r.2.log⟩)

def umm_map_big (cfg : Config) (w : World) (len prot : Nat) (s : Sys) : Nat × Sys :=
  let full_len := add64 (BIG_PGADDR cfg (sub64 (add64 len cfg.BIG_PGSIZE) 1))
    (BIG_PGOFF cfg (umm_get_map_pos cfg s))
  let addr := sub64 (umm_get_map_pos cfg s) full_len
  let r := umm_mmap_anom cfg w addr len prot true s
  if r.1 ≠ 0 then (to_ulong r.1, r.2)
  else (addr, ⟨r.2.brk_len, add64 r.2.mmap_len full_len, r.2.log⟩)

/-- The part of `umm_mmap` that follows the choice of the address: `addr` is
the address the mapping goes to, and `adjust_mmap_len` the local flag of the
same name. -/
def umm_mmap_at (cfg : Config) (w : World) (adjust_mmap_len : Bool)
    (addr len prot flags : Nat) (fd offset : Int) (s : Sys) : Nat × Sys :=
  let r :=
    if flags &&& MAP_ANONYMOUS ≠ 0 then umm_mmap_anom cfg w addr len prot false s
    else if 0 < fd then umm_mmap_file cfg w addr len prot fd offset s
    else (-EINVAL, s)
  if r.1 ≠ 0 then (to_ulong r.1, r.2)
  else if adjust_mmap_len then
    (addr, ⟨r.2.brk_len,
      add64 r.2.mmap_len (PGADDR cfg (sub64 (add64 len cfg.PGSIZE) 1)), r.2.log⟩)
  else (addr, r.2)

def umm_mmap (cfg : Config) (w : World) (addr len prot flags : Nat) (fd offset : Int)
    (s : Sys) : Nat × Sys :=
  if USE_BIG_MEM ∧ cfg.BIG_PGSIZE ≤ len ∧ flags &&& MAP_ANONYMOUS ≠ 0 ∧ addr = 0 then
    umm_map_big cfg w len prot s
  else if addr = 0 then
    if ¬ umm_space_left cfg s len then (to_ulong (-ENOMEM), s)
    else
      umm_mmap_at cfg w true
        (sub64 (umm_get_map_pos cfg s) (PGADDR cfg (sub64 (add64 len cfg.PGSIZE) 1)))
        len prot flags fd offset s
  else if ¬ cfg.mem_ref_is_safe addr len then (to_ulong (-EINVAL), s)
  else umm_mmap_at cfg w false addr len prot flags fd offset s

def umm_munmap (cfg : Config) (w : World) (addr len : Nat) (s : Sys) : Int × Sys :=
  if ¬ cfg.mem_ref_is_safe addr len then (EACCES, s)
  else
    let c := Call.munmap addr len
    let s1 := s.push c
    if w.ret s.log c ≠ 0 then
      let big_len := BIG_PGADDR cfg (sub64 (add64 len cfg.BIG_PGSIZE) 1)
      let c2 := Call.munmap addr big_len
      let s2 := s1.push c2
      if w.ret s1.log c2 ≠ 0 then (- w.errno s1.log c2, s2)
      else (0, s2.push (Call.dune_vm_unmap addr big_len))
    else (0, s1.push (Call.dune_vm_unmap addr len))

/-- The result is `none` when the `assert` fails and the process is aborted;
the state returned is then the state at the abort. -/
def umm_mprotect (cfg : Config) (w : World) (addr len prot : Nat) (s : Sys) :
    Option Int × Sys :=
  if ¬ cfg.mem_ref_is_safe addr len then (some EACCES, s)
  else
    let c := Call.mprotect addr len (prot % 4294967296)
    let s1 := s.push c
    if w.ret s.log c ≠ 0 then (some (- w.errno s.log c), s1)
    else
      let c2 := Call.dune_vm_mprotect addr len (prot_to_perm cfg (prot % 4294967296))
      let s2 := s1.push c2
      if w.ret s1.log c2 ≠ 0 then (none, s2)
      else (some 0, s2)

/-- The pointer argument is modelled by the value stored at `*stack_top`
before the call and the value stored there after it. -/
def umm_alloc_stack (cfg : Config) (w : World) (stack_top : Nat) (s : Sys) :
    Int × Nat × Sys :=
  let base := umm_get_map_pos cfg s
  if ¬ umm_space_left cfg s cfg.APP_STACK_SIZE then (-ENOMEM, stack_top, s)
  else
    let r := umm_mmap_anom cfg w
      (add64 (sub64 (PGADDR cfg base) cfg.APP_STACK_SIZE) cfg.PGSIZE)
      (sub64 cfg.APP_STACK_SIZE cfg.PGSIZE) (PROT_READ ||| PROT_WRITE) false s
    if r.1 ≠ 0 then (r.1, stack_top, r.2)
    else
      (0, PGADDR cfg base,
        ⟨r.2.brk_len, add64 r.2.mmap_len (add64 cfg.APP_STACK_SIZE (PGOFF cfg base)), r.2.log⟩)

/-! ## Sequences of requests -/

/-- A request to one of the entry points, with its arguments. -/
inductive Op where
  | brk (brk : Nat)
  | mmap (addr len prot flags : Nat) (fd offset : Int)
  | map_big (len prot : Nat)
  | munmap (addr len : Nat)
  | mprotect (addr len prot : Nat)
  | alloc_stack (stack_top : Nat)
  deriving DecidableEq, Repr

/-- The state after one request. -/
def Op.exec (cfg : Config) (w : World) : Op → Sys → Sys
  | .brk b, s => (umm_brk cfg w b s).2
  | .mmap addr len prot flags fd offset, s => (umm_mmap cfg w addr len prot flags fd offset s).2
  | .map_big len prot, s => (umm_map_big cfg w len prot s).2
  | .munmap addr len, s => (umm_munmap cfg w addr len s).2
  | .mprotect addr len prot, s => (umm_mprotect cfg w addr len prot s).2
  | .alloc_stack top, s => (umm_alloc_stack cfg w top s).2.2

/-- The state after a sequence of requests, first request first. -/
def run (cfg : Config) (w : World) (ops : List Op) (s : Sys) : Sys :=
  ops.foldl (fun st op => op.exec cfg w st) s

/-! ## Results and environments -/

/-- An `unsigned long` result is an error code when it is negative as a
`long`: the entry points report failure by a negative code. -/
def is_error (r : Nat) : Prop := U64 / 2 ≤ r % U64

instance (r : Nat) : Decidable (is_error r) := by unfold is_error; infer_instance

/-- The host sets `errno` to a positive error number below 4096 when a call
fails. -/
def World.posix (w : World) : Prop :=
  ∀ h c, 0 < w.errno h c ∧ w.errno h c < 4096

/-- The shadow page table answers `dune_vm_map_phys` with zero or with a
negative error number above -4096. -/
def World.shadow_codes (w : World) : Prop :=
  ∀ h va len pa perm,
    -4096 < w.ret h (Call.dune_vm_map_phys va len pa perm) ∧
      w.ret h (Call.dune_vm_map_phys va len pa perm) ≤ 0

/-- An environment in which every host and shadow call succeeds: `mmap`
returns the address asked for, every other call returns zero. -/
def World.accept : World where
  ret := fun _ c =>
    match c with
    | .mmap addr _ _ _ _ _ => addr
    | _ => 0
  errno := fun _ _ => ENOMEM
  dune_va_to_pa := fun va => va

/-- An environment in which every host call fails with `ENOMEM` (`mmap`
returns `MAP_FAILED`, the others -1) and the shadow calls return `-ENOMEM`. -/
def World.refuse : World where
  ret := fun _ c =>
    match c with
    | .mmap _ _ _ _ _ _ => 18446744073709551615
    | .munmap _ _ => -1
    | .mprotect _ _ _ => -1
    | _ => -ENOMEM
  errno := fun _ _ => ENOMEM
  dune_va_to_pa := fun va => va

/-- An environment in which the host calls succeed and the shadow page table
refuses every change with `-ENOMEM`. -/
def World.shadow_full : World where
  ret := fun _ c =>
    match c with
    | .mmap addr _ _ _ _ _ => addr
    | .munmap _ _ => 0
    | .mprotect _ _ _ => 0
    | _ => -ENOMEM
  errno := fun _ _ => ENOMEM
  dune_va_to_pa := fun va => va

/-- An environment that behaves like a host whose mappings are all huge
pages: `munmap` fails with `EINVAL` unless the length is a multiple of 2 MiB;
every other call succeeds. -/
def World.hugetlb : World where
  ret := fun _ c =>
    match c with
    | .mmap addr _ _ _ _ _ => addr
    | .munmap _ len => if len % 2097152 = 0 then 0 else -1
    | _ => 0
  errno := fun _ _ => EINVAL
  dune_va_to_pa := fun va => va

/-- The configuration of the specification's scenario: region limit 1 MiB,
ordinary pages of 4 KiB; huge pages of 2 MiB, the heap at 1 GiB, the top of
the general region 8 MiB above it, a stack of 64 KiB.  The validator accepts
the ranges that lie between the heap base and the top of the general
region. -/
def scenario : Config where
  mmap_base := 1073741824
  APP_MMAP_BASE_OFF := 8388608
  APP_MMAP_LEN := 1048576
  APP_STACK_SIZE := 65536
  PGSIZE := 4096
  BIG_PGSIZE := 2097152
  PERM_R := 1
  PERM_W := 2
  PERM_X := 4
  PERM_U := 8
  PERM_BIG := 256
  mem_ref_is_safe := fun ptr len =>
    decide (1073741824 ≤ ptr ∧ ptr + len ≤ 1073741824 + 8388608)

/-- The scenario's configuration with a region limit of 8 MiB instead. -/
def roomy : Config := { scenario with APP_MMAP_LEN := 8388608 }

/-- The host `mmap` call `umm_mmap_anom` issues. -/
def anom_host_call (addr len prot : Nat) (big : Bool) : Call :=
  Call.mmap addr len prot
    (if big then MAP_FIXED ||| MAP_PRIVATE ||| MAP_ANONYMOUS ||| MAP_HUGETLB
      else MAP_FIXED ||| MAP_PRIVATE ||| MAP_ANONYMOUS) (-1) 0

/-- The shadow call `umm_mmap_anom` issues once the host mapping is in
place. -/
def anom_shadow_call (cfg : Config) (w : World) (addr len prot : Nat) (big : Bool) : Call :=
  Call.dune_vm_map_phys addr len (w.dune_va_to_pa addr)
    (if big then prot_to_perm cfg prot ||| cfg.PERM_BIG else prot_to_perm cfg prot)

/-- The host `mmap` call `umm_mmap_file` issues. -/
def file_host_call (addr len prot : Nat) (fd offset : Int) : Call :=
  Call.mmap addr len prot (MAP_FIXED ||| MAP_PRIVATE ||| MAP_DENYWRITE) fd offset

/-- The shadow call `umm_mmap_file` issues once the host mapping is in
place. -/
def file_shadow_call (cfg : Config) (w : World) (addr len prot : Nat) : Call :=
  Call.dune_vm_map_phys addr len (w.dune_va_to_pa addr) (prot_to_perm cfg prot)

/-! ## Vocabulary for the statements -/

/-- Both counters have the same value in the two states. -/
def same_counters (s t : Sys) : Prop := t.brk_len = s.brk_len ∧ t.mmap_len = s.mmap_len

instance (s t : Sys) : Decidable (same_counters s t) := by unfold same_counters; infer_instance

/-- The call reported success in the environment `w` after the history `h`:
`mmap` returned the address asked for, `dune_vm_unmap` returns nothing, every
other call returned 0. -/
def call_ok (w : World) (h : List Call) : Call → Prop
  | .mmap addr len prot flags fd offset =>
      w.ret h (.mmap addr len prot flags fd offset) = (addr : Int)
  | .dune_vm_unmap _ _ => True
  | c => w.ret h c = 0

/-- Every call of the list reported success, each one after the calls before
it. -/
def calls_ok (w : World) (h : List Call) : List Call → Prop
  | [] => True
  | c :: cs => call_ok w h c ∧ calls_ok w (h ++ [c]) cs

/-- The length `len` rounded the way `umm_mmap` and `umm_alloc_stack` do:
`PGADDR(len + PGSIZE - 1)`. -/
def page_round (cfg : Config) (len : Nat) : Nat :=
  PGADDR cfg (sub64 (add64 len cfg.PGSIZE) 1)

/-- The length `len` rounded the way `umm_brk`, `umm_map_big` and
`umm_munmap` do: `BIG_PGADDR(len + BIG_PGSIZE - 1)`. -/
def big_round (cfg : Config) (len : Nat) : Nat :=
  BIG_PGADDR cfg (sub64 (add64 len cfg.BIG_PGSIZE) 1)

/-- The local `full_len` of `umm_map_big`. -/
def big_full_len (cfg : Config) (s : Sys) (len : Nat) : Nat :=
  add64 (big_round cfg len) (BIG_PGOFF cfg (umm_get_map_pos cfg s))

/-- The address `umm_mmap` maps at and returns on success. -/
def mmap_target (cfg : Config) (s : Sys) (addr len flags : Nat) : Nat :=
  if USE_BIG_MEM ∧ cfg.BIG_PGSIZE ≤ len ∧ flags &&& MAP_ANONYMOUS ≠ 0 ∧ addr = 0 then
    sub64 (umm_get_map_pos cfg s) (big_full_len cfg s len)
  else if addr = 0 then sub64 (umm_get_map_pos cfg s) (page_round cfg len)
  else addr

/-! ## Counters change only after a successful mapping change -/

/-- What every entry point guarantees about one call that starts in `s`,
ends in `t` and returns `r`, where `good` is the value the entry point
returns on its success path: either both counters are unchanged, or the call
returned `good` and every host and shadow call it made reported success. -/
def atomic_step {α : Type} (w : World) (s t : Sys) (r good : α) : Prop :=
  same_counters s t ∨
    (r = good ∧ ∃ new, new ≠ [] ∧ t.log = s.log ++ new ∧ calls_ok w s.log new)

/-! ## The establish step of `umm_mmap` and the stack address -/

/-- The establish step inside `umm_mmap`: anonymous when `MAP_ANONYMOUS` is
set, file-backed when `fd > 0`, `-EINVAL` otherwise. -/
def establish (cfg : Config) (w : World) (addr len prot flags : Nat) (fd offset : Int)
    (s : Sys) : Int × Sys :=
  if flags &&& MAP_ANONYMOUS ≠ 0 then umm_mmap_anom cfg w addr len prot false s
  else if 0 < fd then umm_mmap_file cfg w addr len prot fd offset s
  else (-EINVAL, s)

/-- The two calls of a successful establish step. -/
def establish_calls (cfg : Config) (w : World) (addr len prot flags : Nat) (fd offset : Int) :
    List Call :=
  if flags &&& MAP_ANONYMOUS ≠ 0 then
    [anom_host_call addr len prot false, anom_shadow_call cfg w addr len prot false]
  else [file_host_call addr len prot fd offset, file_shadow_call cfg w addr len prot]

/-- The address of the mapping `umm_alloc_stack` asks for. -/
def stack_addr (cfg : Config) (s : Sys) : Nat :=
  add64 (sub64 (PGADDR cfg (umm_get_map_pos cfg s)) cfg.APP_STACK_SIZE) cfg.PGSIZE

/-- If a counter differs between `s` and `t`, the call that led from `s` to
`t` made at least one host or shadow call, and every call it made reported
success. -/
def changed_only_by_success (w : World) (s t : Sys) : Prop :=
  ¬ same_counters s t →
    ∃ new, new ≠ [] ∧ t.log = s.log ++ new ∧ calls_ok w s.log new

/-! ## Alignment -/

/-- The properties of the configuration constants that alignment relies on:
the ordinary page size divides the huge page size, which divides `2^64`; the
ceiling of the general region and the stack size are page multiples. -/
def Config.page_aligned (cfg : Config) : Prop :=
  cfg.PGSIZE ∣ cfg.BIG_PGSIZE ∧ cfg.BIG_PGSIZE ∣ U64 ∧
    cfg.PGSIZE ∣ add64 cfg.mmap_base cfg.APP_MMAP_BASE_OFF ∧
    cfg.PGSIZE ∣ cfg.APP_STACK_SIZE

/-- The alignment of the layout state: `brk_len` is a multiple of the huge
page size, `mmap_len` of the ordinary page size. -/
def aligned (cfg : Config) (s : Sys) : Prop :=
  cfg.BIG_PGSIZE ∣ s.brk_len ∧ cfg.PGSIZE ∣ s.mmap_len

/-! ## The bytes the logged calls leave mapped -/

/-- The effect of one logged call on whether the byte at `x` is mapped:
`mmap` adds its range, `munmap` removes its range, every other call leaves
it. -/
def cover_step (x : Nat) (acc : Bool) (c : Call) : Bool :=
  match c with
  | .mmap addr len _ _ _ _ => acc || decide (addr ≤ x ∧ x < addr + len)
  | .munmap addr len => acc && !decide (addr ≤ x ∧ x < addr + len)
  | _ => acc

/-- Whether `x` lies in the union of the ranges mapped by the calls of the
list minus the ranges unmapped, taken in order. -/
def covered (calls : List Call) (x : Nat) : Bool :=
  calls.foldl (cover_step x) false

/-- A sequence of `umm_brk` calls, from the state `s`, in which every boundary
is non-zero, fits below `2^64` after rounding, and every call succeeds (its
result is not an error code). -/
def all_brk_ok (cfg : Config) (w : World) : List Nat → Sys → Prop
  | [], _ => True
  | b :: bs, s =>
      b ≠ 0 ∧ b + cfg.BIG_PGSIZE ≤ U64 ∧ ¬ is_error (umm_brk cfg w b s).1 ∧
        all_brk_ok cfg w bs (umm_brk cfg w b s).2

/-- The heap occupies exactly `[mmap_base, mmap_base + brk_len)` according to
the log, and its end does not wrap. -/
def heap_exact (cfg : Config) (s : Sys) : Prop :=
  cfg.mmap_base + s.brk_len ≤ U64 ∧
    ∀ x, covered s.log x = decide (cfg.mmap_base ≤ x ∧ x < cfg.mmap_base + s.brk_len)

/-! ## Facts about the environments -/

theorem World.accept_posix : World.accept.posix := by
  intro h c
  show (0 : Int) < ENOMEM ∧ ENOMEM < 4096
  decide

theorem World.refuse_posix : World.refuse.posix := by
  intro h c
  show (0 : Int) < ENOMEM ∧ ENOMEM < 4096
  decide

theorem World.shadow_full_posix : World.shadow_full.posix := by
  intro h c
  show (0 : Int) < ENOMEM ∧ ENOMEM < 4096
  decide

theorem World.accept_shadow_codes : World.accept.shadow_codes := by
  intro h va len pa perm
  show (-4096 : Int) < 0 ∧ (0 : Int) ≤ 0
  decide

theorem World.refuse_shadow_codes : World.refuse.shadow_codes := by
  intro h va len pa perm
  show (-4096 : Int) < -ENOMEM ∧ -ENOMEM ≤ 0
  decide

theorem World.shadow_full_shadow_codes : World.shadow_full.shadow_codes := by
  intro h va len pa perm
  show (-4096 : Int) < -ENOMEM ∧ -ENOMEM ≤ 0
  decide

/-! ## The two establish operations, case by case -/

theorem umm_mmap_anom_host_fail (cfg : Config) (w : World) (addr len prot : Nat) (big : Bool)
    (s : Sys) (h : w.ret s.log (anom_host_call addr len prot big) ≠ (addr : Int)) :
    umm_mmap_anom cfg w addr len prot big s =
      (- w.errno s.log (anom_host_call addr len prot big),
        s.push (anom_host_call addr len prot big)) := by
  cases big <;> simp_all [umm_mmap_anom, anom_host_call]

theorem umm_mmap_anom_shadow_fail (cfg : Config) (w : World) (addr len prot : Nat) (big : Bool)
    (s : Sys) (h : w.ret s.log (anom_host_call addr len prot big) = (addr : Int))
    (h2 : w.ret (s.log ++ [anom_host_call addr len prot big])
      (anom_shadow_call cfg w addr len prot big) ≠ 0) :
    umm_mmap_anom cfg w addr len prot big s =
      (w.ret (s.log ++ [anom_host_call addr len prot big])
          (anom_shadow_call cfg w addr len prot big),
        ((s.push (anom_host_call addr len prot big)).push
          (anom_shadow_call cfg w addr len prot big)).push (Call.munmap addr len)) := by
  cases big <;> simp_all [umm_mmap_anom, anom_host_call, anom_shadow_call, Sys.push]

theorem umm_mmap_anom_ok (cfg : Config) (w : World) (addr len prot : Nat) (big : Bool)
    (s : Sys) (h : w.ret s.log (anom_host_call addr len prot big) = (addr : Int))
    (h2 : w.ret (s.log ++ [anom_host_call addr len prot big])
      (anom_shadow_call cfg w addr len prot big) = 0) :
    umm_mmap_anom cfg w addr len prot big s =
      (0, (s.push (anom_host_call addr len prot big)).push
          (anom_shadow_call cfg w addr len prot big)) := by
  cases big <;> simp_all [umm_mmap_anom, anom_host_call, anom_shadow_call, Sys.push]

theorem umm_mmap_file_host_fail (cfg : Config) (w : World) (addr len prot : Nat)
    (fd offset : Int) (s : Sys)
    (h : w.ret s.log (file_host_call addr len prot fd offset) ≠ (addr : Int)) :
    umm_mmap_file cfg w addr len prot fd offset s =
      (- w.errno s.log (file_host_call addr len prot fd offset),
        s.push (file_host_call addr len prot fd offset)) := by
  simp_all [umm_mmap_file, file_host_call]

theorem umm_mmap_file_shadow_fail (cfg : Config) (w : World) (addr len prot : Nat)
    (fd offset : Int) (s : Sys)
    (h : w.ret s.log (file_host_call addr len prot fd offset) = (addr : Int))
    (h2 : w.ret (s.log ++ [file_host_call addr len prot fd offset])
      (file_shadow_call cfg w addr len prot) ≠ 0) :
    umm_mmap_file cfg w addr len prot fd offset s =
      (w.ret (s.log ++ [file_host_call addr len prot fd offset])
          (file_shadow_call cfg w addr len prot),
        ((s.push (file_host_call addr len prot fd offset)).push
          (file_shadow_call cfg w addr len prot)).push (Call.munmap addr len)) := by
  simp_all [umm_mmap_file, file_host_call, file_shadow_call, Sys.push]

theorem umm_mmap_file_ok (cfg : Config) (w : World) (addr len prot : Nat)
    (fd offset : Int) (s : Sys)
    (h : w.ret s.log (file_host_call addr len prot fd offset) = (addr : Int))
    (h2 : w.ret (s.log ++ [file_host_call addr len prot fd offset])
      (file_shadow_call cfg w addr len prot) = 0) :
    umm_mmap_file cfg w addr len prot fd offset s =
      (0, (s.push (file_host_call addr len prot fd offset)).push
          (file_shadow_call cfg w addr len prot)) := by
  simp_all [umm_mmap_file, file_host_call, file_shadow_call, Sys.push]

theorem umm_mmap_anom_counters (cfg : Config) (w : World) (addr len prot : Nat) (big : Bool)
    (s : Sys) : same_counters s (umm_mmap_anom cfg w addr len prot big s).2 := by
  unfold umm_mmap_anom same_counters
  simp only [Sys.push]
  split_ifs <;> simp

theorem umm_mmap_file_counters (cfg : Config) (w : World) (addr len prot : Nat)
    (fd offset : Int) (s : Sys) :
    same_counters s (umm_mmap_file cfg w addr len prot fd offset s).2 := by
  unfold umm_mmap_file same_counters
  simp only [Sys.push]
  split_ifs <;> simp

/-- When `umm_mmap_anom` returns 0 in an environment with positive error
numbers, it has made exactly the host and the shadow call, and both
succeeded. -/
theorem umm_mmap_anom_zero (cfg : Config) (w : World) (addr len prot : Nat) (big : Bool)
    (s : Sys) (hw : w.posix) (h0 : (umm_mmap_anom cfg w addr len prot big s).1 = 0) :
    umm_mmap_anom cfg w addr len prot big s =
        (0, ⟨s.brk_len, s.mmap_len, s.log ++ [anom_host_call addr len prot big,
          anom_shadow_call cfg w addr len prot big]⟩) ∧
      calls_ok w s.log [anom_host_call addr len prot big,
        anom_shadow_call cfg w addr len prot big] := by
  by_cases h1 : w.ret s.log (anom_host_call addr len prot big) = (addr : Int)
  · by_cases h2 : w.ret (s.log ++ [anom_host_call addr len prot big])
        (anom_shadow_call cfg w addr len prot big) = 0
    · rw [umm_mmap_anom_ok cfg w addr len prot big s h1 h2]
      refine ⟨by simp [Sys.push], ?_⟩
      simp only [calls_ok, and_true]
      exact ⟨h1, h2⟩
    · rw [umm_mmap_anom_shadow_fail cfg w addr len prot big s h1 h2] at h0
      exact absurd h0 h2
  · rw [umm_mmap_anom_host_fail cfg w addr len prot big s h1] at h0
    have := (hw s.log (anom_host_call addr len prot big)).1
    simp at h0
    omega

/-- The same for `umm_mmap_file`. -/
theorem umm_mmap_file_zero (cfg : Config) (w : World) (addr len prot : Nat)
    (fd offset : Int) (s : Sys) (hw : w.posix)
    (h0 : (umm_mmap_file cfg w addr len prot fd offset s).1 = 0) :
    umm_mmap_file cfg w addr len prot fd offset s =
        (0, ⟨s.brk_len, s.mmap_len, s.log ++ [file_host_call addr len prot fd offset,
          file_shadow_call cfg w addr len prot]⟩) ∧
      calls_ok w s.log [file_host_call addr len prot fd offset,
        file_shadow_call cfg w addr len prot] := by
  by_cases h1 : w.ret s.log (file_host_call addr len prot fd offset) = (addr : Int)
  · by_cases h2 : w.ret (s.log ++ [file_host_call addr len prot fd offset])
        (file_shadow_call cfg w addr len prot) = 0
    · rw [umm_mmap_file_ok cfg w addr len prot fd offset s h1 h2]
      refine ⟨by simp [Sys.push], ?_⟩
      simp only [calls_ok, and_true]
      exact ⟨h1, h2⟩
    · rw [umm_mmap_file_shadow_fail cfg w addr len prot fd offset s h1 h2] at h0
      exact absurd h0 h2
  · rw [umm_mmap_file_host_fail cfg w addr len prot fd offset s h1] at h0
    have := (hw s.log (file_host_call addr len prot fd offset)).1
    simp at h0
    omega

/-! ## `umm_brk`, path by path -/

theorem umm_brk_zero (cfg : Config) (w : World) (s : Sys) :
    umm_brk cfg w 0 s = (cfg.mmap_base, s) := by
  simp [umm_brk]

theorem umm_brk_below (cfg : Config) (w : World) (b : Nat) (s : Sys)
    (hb : b ≠ 0) (hlt : b < cfg.mmap_base) :
    umm_brk cfg w b s = (to_ulong (-EINVAL), s) := by
  simp [umm_brk, hb, hlt]

theorem umm_brk_no_space (cfg : Config) (w : World) (b : Nat) (s : Sys)
    (hb : b ≠ 0) (hge : cfg.mmap_base ≤ b)
    (hsp : umm_space_left cfg s (big_round cfg (b - cfg.mmap_base)) = false) :
    umm_brk cfg w b s = (to_ulong (-ENOMEM), s) := by
  have hsp2 := hsp
  unfold big_round at hsp2
  simp [umm_brk, hb, Nat.not_lt.mpr hge, USE_BIG_MEM, hsp2]

theorem umm_brk_same (cfg : Config) (w : World) (b : Nat) (s : Sys)
    (hb : b ≠ 0) (hge : cfg.mmap_base ≤ b)
    (hsp : umm_space_left cfg s (big_round cfg (b - cfg.mmap_base)) = true)
    (hlen : big_round cfg (b - cfg.mmap_base) = s.brk_len) :
    umm_brk cfg w b s = (b, s) := by
  have hsp2 := hsp
  have hlen2 := hlen
  unfold big_round at hsp2 hlen2
  have hsp3 : umm_space_left cfg s s.brk_len = true := hlen2 ▸ hsp2
  simp [umm_brk, hb, Nat.not_lt.mpr hge, USE_BIG_MEM, hsp3, hlen2]

theorem umm_brk_shrink_fail (cfg : Config) (w : World) (b : Nat) (s : Sys)
    (hb : b ≠ 0) (hge : cfg.mmap_base ≤ b)
    (hsp : umm_space_left cfg s (big_round cfg (b - cfg.mmap_base)) = true)
    (hlen : big_round cfg (b - cfg.mmap_base) < s.brk_len)
    (hret : w.ret s.log (Call.munmap (add64 cfg.mmap_base (big_round cfg (b - cfg.mmap_base)))
      (s.brk_len - big_round cfg (b - cfg.mmap_base))) ≠ 0) :
    umm_brk cfg w b s =
      (to_ulong (- w.errno s.log
          (Call.munmap (add64 cfg.mmap_base (big_round cfg (b - cfg.mmap_base)))
            (s.brk_len - big_round cfg (b - cfg.mmap_base)))),
        s.push (Call.munmap (add64 cfg.mmap_base (big_round cfg (b - cfg.mmap_base)))
            (s.brk_len - big_round cfg (b - cfg.mmap_base)))) := by
  have hsp2 := hsp
  have hlen2 := hlen
  have hret2 := hret
  unfold big_round at hsp2 hlen2 hret2
  simp [umm_brk, hb, Nat.not_lt.mpr hge, USE_BIG_MEM, hsp2, hlen2, Nat.ne_of_lt hlen2, hret2,
    big_round]

theorem umm_brk_shrink_ok (cfg : Config) (w : World) (b : Nat) (s : Sys)
    (hb : b ≠ 0) (hge : cfg.mmap_base ≤ b)
    (hsp : umm_space_left cfg s (big_round cfg (b - cfg.mmap_base)) = true)
    (hlen : big_round cfg (b - cfg.mmap_base) < s.brk_len)
    (hret : w.ret s.log (Call.munmap (add64 cfg.mmap_base (big_round cfg (b - cfg.mmap_base)))
      (s.brk_len - big_round cfg (b - cfg.mmap_base))) = 0) :
    umm_brk cfg w b s =
      (b, ⟨big_round cfg (b - cfg.mmap_base), s.mmap_len,
        s.log ++ [Call.munmap (add64 cfg.mmap_base (big_round cfg (b - cfg.mmap_base)))
            (s.brk_len - big_round cfg (b - cfg.mmap_base)),
          Call.dune_vm_unmap (add64 cfg.mmap_base (big_round cfg (b - cfg.mmap_base)))
            (s.brk_len - big_round cfg (b - cfg.mmap_base))]⟩) := by
  have hsp2 := hsp
  have hlen2 := hlen
  have hret2 := hret
  unfold big_round at hsp2 hlen2 hret2
  simp [umm_brk, hb, Nat.not_lt.mpr hge, USE_BIG_MEM, hsp2, hlen2, Nat.ne_of_lt hlen2, hret2,
    big_round, Sys.push]

theorem umm_brk_grow (cfg : Config) (w : World) (b : Nat) (s : Sys)
    (hb : b ≠ 0) (hge : cfg.mmap_base ≤ b)
    (hsp : umm_space_left cfg s (big_round cfg (b - cfg.mmap_base)) = true)
    (hlen : s.brk_len < big_round cfg (b - cfg.mmap_base)) :
    umm_brk cfg w b s =
      if (umm_mmap_anom cfg w (add64 cfg.mmap_base s.brk_len)
          (big_round cfg (b - cfg.mmap_base) - s.brk_len)
          (PROT_READ ||| PROT_WRITE) true s).1 ≠ 0 then
        (to_ulong (umm_mmap_anom cfg w (add64 cfg.mmap_base s.brk_len)
            (big_round cfg (b - cfg.mmap_base) - s.brk_len)
            (PROT_READ ||| PROT_WRITE) true s).1,
          (umm_mmap_anom cfg w (add64 cfg.mmap_base s.brk_len)
            (big_round cfg (b - cfg.mmap_base) - s.brk_len)
            (PROT_READ ||| PROT_WRITE) true s).2)
      else
        (b, ⟨big_round cfg (b - cfg.mmap_base),
          (umm_mmap_anom cfg w (add64 cfg.mmap_base s.brk_len)
            (big_round cfg (b - cfg.mmap_base) - s.brk_len)
            (PROT_READ ||| PROT_WRITE) true s).2.mmap_len,
          (umm_mmap_anom cfg w (add64 cfg.mmap_base s.brk_len)
            (big_round cfg (b - cfg.mmap_base) - s.brk_len)
            (PROT_READ ||| PROT_WRITE) true s).2.log⟩) := by
  have hsp2 := hsp
  have hlen2 := hlen
  unfold big_round at hsp2 hlen2
  have hne : ¬ (BIG_PGADDR cfg (sub64 (add64 (b - cfg.mmap_base) cfg.BIG_PGSIZE) 1)
      = s.brk_len) := Nat.ne_of_gt hlen2
  have hnl : ¬ (BIG_PGADDR cfg (sub64 (add64 (b - cfg.mmap_base) cfg.BIG_PGSIZE) 1)
      < s.brk_len) := Nat.not_lt.mpr (Nat.le_of_lt hlen2)
  simp only [umm_brk, hb, Nat.not_lt.mpr hge, USE_BIG_MEM, hsp2, hne, hnl, big_round, if_true,
    if_false, not_true_eq_false]

theorem umm_brk_grow_ok (cfg : Config) (w : World) (b : Nat) (s : Sys) (hw : w.posix)
    (hb : b ≠ 0) (hge : cfg.mmap_base ≤ b)
    (hsp : umm_space_left cfg s (big_round cfg (b - cfg.mmap_base)) = true)
    (hlen : s.brk_len < big_round cfg (b - cfg.mmap_base))
    (h0 : (umm_mmap_anom cfg w (add64 cfg.mmap_base s.brk_len)
          (big_round cfg (b - cfg.mmap_base) - s.brk_len)
          (PROT_READ ||| PROT_WRITE) true s).1 = 0) :
    umm_brk cfg w b s =
      (b, ⟨big_round cfg (b - cfg.mmap_base), s.mmap_len,
        s.log ++ [anom_host_call (add64 cfg.mmap_base s.brk_len)
            (big_round cfg (b - cfg.mmap_base) - s.brk_len) (PROT_READ ||| PROT_WRITE) true,
          anom_shadow_call cfg w (add64 cfg.mmap_base s.brk_len)
            (big_round cfg (b - cfg.mmap_base) - s.brk_len) (PROT_READ ||| PROT_WRITE) true]⟩) := by
  rw [umm_brk_grow cfg w b s hb hge hsp hlen]
  have hz := (umm_mmap_anom_zero cfg w _ _ _ true s hw h0).1
  rw [hz]
  simp

theorem umm_brk_grow_fail (cfg : Config) (w : World) (b : Nat) (s : Sys)
    (hb : b ≠ 0) (hge : cfg.mmap_base ≤ b)
    (hsp : umm_space_left cfg s (big_round cfg (b - cfg.mmap_base)) = true)
    (hlen : s.brk_len < big_round cfg (b - cfg.mmap_base))
    (h0 : (umm_mmap_anom cfg w (add64 cfg.mmap_base s.brk_len)
          (big_round cfg (b - cfg.mmap_base) - s.brk_len)
          (PROT_READ ||| PROT_WRITE) true s).1 ≠ 0) :
    umm_brk cfg w b s =
      (to_ulong (umm_mmap_anom cfg w (add64 cfg.mmap_base s.brk_len)
            (big_round cfg (b - cfg.mmap_base) - s.brk_len)
            (PROT_READ ||| PROT_WRITE) true s).1,
          (umm_mmap_anom cfg w (add64 cfg.mmap_base s.brk_len)
            (big_round cfg (b - cfg.mmap_base) - s.brk_len)
            (PROT_READ ||| PROT_WRITE) true s).2) := by
  rw [umm_brk_grow cfg w b s hb hge hsp hlen]
  simp [h0]

theorem same_counters_refl (s : Sys) : same_counters s s := ⟨rfl, rfl⟩

theorem same_counters_push (s : Sys) (c : Call) : same_counters s (s.push c) := ⟨rfl, rfl⟩

theorem umm_brk_atomic (cfg : Config) (w : World) (b : Nat) (s : Sys) (hw : w.posix) :
    atomic_step w s (umm_brk cfg w b s).2 (umm_brk cfg w b s).1 b := by
  by_cases hb : b = 0
  · subst hb
    rw [umm_brk_zero]
    exact Or.inl (same_counters_refl s)
  by_cases hlt : b < cfg.mmap_base
  · rw [umm_brk_below cfg w b s hb hlt]
    exact Or.inl (same_counters_refl s)
  have hge : cfg.mmap_base ≤ b := Nat.le_of_not_lt hlt
  cases hsp : umm_space_left cfg s (big_round cfg (b - cfg.mmap_base)) with
  | false =>
    rw [umm_brk_no_space cfg w b s hb hge hsp]
    exact Or.inl (same_counters_refl s)
  | true =>
    rcases Nat.lt_trichotomy (big_round cfg (b - cfg.mmap_base)) s.brk_len with hl | hl | hl
    · by_cases hret : w.ret s.log
          (Call.munmap (add64 cfg.mmap_base (big_round cfg (b - cfg.mmap_base)))
            (s.brk_len - big_round cfg (b - cfg.mmap_base))) = 0
      · rw [umm_brk_shrink_ok cfg w b s hb hge hsp hl hret]
        refine Or.inr ⟨rfl, _, ?_, rfl, ?_⟩
        · simp
        · simp only [calls_ok, call_ok, and_true]
          exact hret
      · rw [umm_brk_shrink_fail cfg w b s hb hge hsp hl hret]
        exact Or.inl (same_counters_push s _)
    · rw [umm_brk_same cfg w b s hb hge hsp hl]
      exact Or.inl (same_counters_refl s)
    · by_cases h0 : (umm_mmap_anom cfg w (add64 cfg.mmap_base s.brk_len)
          (big_round cfg (b - cfg.mmap_base) - s.brk_len)
          (PROT_READ ||| PROT_WRITE) true s).1 = 0
      · rw [umm_brk_grow_ok cfg w b s hw hb hge hsp hl h0]
        refine Or.inr ⟨rfl, _, ?_, rfl, ?_⟩
        · simp
        · exact (umm_mmap_anom_zero cfg w _ _ _ true s hw h0).2
      · rw [umm_brk_grow_fail cfg w b s hb hge hsp hl h0]
        exact Or.inl (umm_mmap_anom_counters cfg w _ _ _ true s)

theorem umm_map_big_eq (cfg : Config) (w : World) (len prot : Nat) (s : Sys) :
    umm_map_big cfg w len prot s =
      if (umm_mmap_anom cfg w (sub64 (umm_get_map_pos cfg s) (big_full_len cfg s len))
          len prot true s).1 ≠ 0 then
        (to_ulong (umm_mmap_anom cfg w (sub64 (umm_get_map_pos cfg s) (big_full_len cfg s len))
            len prot true s).1,
          (umm_mmap_anom cfg w (sub64 (umm_get_map_pos cfg s) (big_full_len cfg s len))
            len prot true s).2)
      else
        (sub64 (umm_get_map_pos cfg s) (big_full_len cfg s len),
          ⟨(umm_mmap_anom cfg w (sub64 (umm_get_map_pos cfg s) (big_full_len cfg s len))
              len prot true s).2.brk_len,
            add64 (umm_mmap_anom cfg w (sub64 (umm_get_map_pos cfg s) (big_full_len cfg s len))
              len prot true s).2.mmap_len (big_full_len cfg s len),
            (umm_mmap_anom cfg w (sub64 (umm_get_map_pos cfg s) (big_full_len cfg s len))
              len prot true s).2.log⟩) := by
  rfl

theorem umm_map_big_ok (cfg : Config) (w : World) (len prot : Nat) (s : Sys) (hw : w.posix)
    (h0 : (umm_mmap_anom cfg w (sub64 (umm_get_map_pos cfg s) (big_full_len cfg s len))
          len prot true s).1 = 0) :
    umm_map_big cfg w len prot s =
      (sub64 (umm_get_map_pos cfg s) (big_full_len cfg s len),
        ⟨s.brk_len, add64 s.mmap_len (big_full_len cfg s len),
          s.log ++ [anom_host_call (sub64 (umm_get_map_pos cfg s) (big_full_len cfg s len))
              len prot true,
            anom_shadow_call cfg w (sub64 (umm_get_map_pos cfg s) (big_full_len cfg s len))
              len prot true]⟩) := by
  rw [umm_map_big_eq]
  have hz := (umm_mmap_anom_zero cfg w _ _ _ true s hw h0).1
  rw [hz]
  simp

theorem umm_map_big_fail (cfg : Config) (w : World) (len prot : Nat) (s : Sys)
    (h0 : (umm_mmap_anom cfg w (sub64 (umm_get_map_pos cfg s) (big_full_len cfg s len))
          len prot true s).1 ≠ 0) :
    umm_map_big cfg w len prot s =
      (to_ulong (umm_mmap_anom cfg w (sub64 (umm_get_map_pos cfg s) (big_full_len cfg s len))
            len prot true s).1,
          (umm_mmap_anom cfg w (sub64 (umm_get_map_pos cfg s) (big_full_len cfg s len))
            len prot true s).2) := by
  rw [umm_map_big_eq]
  simp [h0]

theorem umm_map_big_atomic (cfg : Config) (w : World) (len prot : Nat) (s : Sys)
    (hw : w.posix) :
    atomic_step w s (umm_map_big cfg w len prot s).2 (umm_map_big cfg w len prot s).1
      (sub64 (umm_get_map_pos cfg s) (big_full_len cfg s len)) := by
  by_cases h0 : (umm_mmap_anom cfg w (sub64 (umm_get_map_pos cfg s) (big_full_len cfg s len))
          len prot true s).1 = 0
  · rw [umm_map_big_ok cfg w len prot s hw h0]
    refine Or.inr ⟨rfl, _, ?_, rfl, ?_⟩
    · simp
    · exact (umm_mmap_anom_zero cfg w _ _ _ true s hw h0).2
  · rw [umm_map_big_fail cfg w len prot s h0]
    exact Or.inl (umm_mmap_anom_counters cfg w _ _ _ true s)

theorem umm_mmap_at_eq (cfg : Config) (w : World) (adj : Bool)
    (addr len prot flags : Nat) (fd offset : Int) (s : Sys) :
    umm_mmap_at cfg w adj addr len prot flags fd offset s =
      if (establish cfg w addr len prot flags fd offset s).1 ≠ 0 then
        (to_ulong (establish cfg w addr len prot flags fd offset s).1,
          (establish cfg w addr len prot flags fd offset s).2)
      else if adj then
        (addr, ⟨(establish cfg w addr len prot flags fd offset s).2.brk_len,
          add64 (establish cfg w addr len prot flags fd offset s).2.mmap_len (page_round cfg len),
          (establish cfg w addr len prot flags fd offset s).2.log⟩)
      else (addr, (establish cfg w addr len prot flags fd offset s).2) := by
  rfl

theorem establish_counters (cfg : Config) (w : World) (addr len prot flags : Nat)
    (fd offset : Int) (s : Sys) :
    same_counters s (establish cfg w addr len prot flags fd offset s).2 := by
  unfold establish
  split_ifs
  · exact umm_mmap_anom_counters cfg w _ _ _ false s
  · exact umm_mmap_file_counters cfg w _ _ _ _ _ s
  · exact same_counters_refl s

theorem establish_zero (cfg : Config) (w : World) (addr len prot flags : Nat)
    (fd offset : Int) (s : Sys) (hw : w.posix)
    (h0 : (establish cfg w addr len prot flags fd offset s).1 = 0) :
    establish cfg w addr len prot flags fd offset s =
        (0, ⟨s.brk_len, s.mmap_len,
          s.log ++ establish_calls cfg w addr len prot flags fd offset⟩) ∧
      calls_ok w s.log (establish_calls cfg w addr len prot flags fd offset) := by
  unfold establish at h0 ⊢
  unfold establish_calls
  by_cases hf : flags &&& MAP_ANONYMOUS ≠ 0
  · rw [if_pos hf] at h0 ⊢
    rw [if_pos hf]
    exact umm_mmap_anom_zero cfg w addr len prot false s hw h0
  · rw [if_neg hf] at h0 ⊢
    rw [if_neg hf]
    by_cases hfd : 0 < fd
    · rw [if_pos hfd] at h0 ⊢
      exact umm_mmap_file_zero cfg w addr len prot fd offset s hw h0
    · rw [if_neg hfd] at h0
      exact absurd h0 (show (-EINVAL : Int) ≠ 0 by decide)

theorem establish_calls_ne_nil (cfg : Config) (w : World) (addr len prot flags : Nat)
    (fd offset : Int) : establish_calls cfg w addr len prot flags fd offset ≠ [] := by
  unfold establish_calls
  split_ifs <;> exact List.cons_ne_nil _ _

theorem umm_mmap_at_ok (cfg : Config) (w : World) (adj : Bool)
    (addr len prot flags : Nat) (fd offset : Int) (s : Sys) (hw : w.posix)
    (h0 : (establish cfg w addr len prot flags fd offset s).1 = 0) :
    umm_mmap_at cfg w adj addr len prot flags fd offset s =
      (addr, ⟨s.brk_len, if adj then add64 s.mmap_len (page_round cfg len) else s.mmap_len,
        s.log ++ establish_calls cfg w addr len prot flags fd offset⟩) := by
  rw [umm_mmap_at_eq, (establish_zero cfg w addr len prot flags fd offset s hw h0).1]
  cases adj <;> simp

theorem umm_mmap_at_fail (cfg : Config) (w : World) (adj : Bool)
    (addr len prot flags : Nat) (fd offset : Int) (s : Sys)
    (h0 : (establish cfg w addr len prot flags fd offset s).1 ≠ 0) :
    umm_mmap_at cfg w adj addr len prot flags fd offset s =
      (to_ulong (establish cfg w addr len prot flags fd offset s).1,
          (establish cfg w addr len prot flags fd offset s).2) := by
  rw [umm_mmap_at_eq, if_pos h0]

theorem umm_mmap_at_atomic (cfg : Config) (w : World) (adj : Bool)
    (addr len prot flags : Nat) (fd offset : Int) (s : Sys) (hw : w.posix) :
    atomic_step w s (umm_mmap_at cfg w adj addr len prot flags fd offset s).2
      (umm_mmap_at cfg w adj addr len prot flags fd offset s).1 addr := by
  by_cases h0 : (establish cfg w addr len prot flags fd offset s).1 = 0
  · rw [umm_mmap_at_ok cfg w adj addr len prot flags fd offset s hw h0]
    exact Or.inr ⟨rfl, _, establish_calls_ne_nil cfg w addr len prot flags fd offset, rfl,
      (establish_zero cfg w addr len prot flags fd offset s hw h0).2⟩
  · rw [umm_mmap_at_fail cfg w adj addr len prot flags fd offset s h0]
    exact Or.inl (establish_counters cfg w addr len prot flags fd offset s)

theorem umm_mmap_atomic (cfg : Config) (w : World) (addr len prot flags : Nat)
    (fd offset : Int) (s : Sys) (hw : w.posix) :
    atomic_step w s (umm_mmap cfg w addr len prot flags fd offset s).2
      (umm_mmap cfg w addr len prot flags fd offset s).1 (mmap_target cfg s addr len flags) := by
  unfold umm_mmap mmap_target
  by_cases hbig : USE_BIG_MEM ∧ cfg.BIG_PGSIZE ≤ len ∧ flags &&& MAP_ANONYMOUS ≠ 0 ∧ addr = 0
  · rw [if_pos hbig, if_pos hbig]
    exact umm_map_big_atomic cfg w len prot s hw
  · rw [if_neg hbig, if_neg hbig]
    by_cases ha : addr = 0
    · rw [if_pos ha, if_pos ha]
      cases hsp : umm_space_left cfg s len with
      | false => exact Or.inl (by simp [same_counters])
      | true =>
        simp only [not_true_eq_false, if_false, Bool.true_eq_false]
        exact umm_mmap_at_atomic cfg w true _ len prot flags fd offset s hw
    · rw [if_neg ha, if_neg ha]
      cases hsafe : cfg.mem_ref_is_safe addr len with
      | false => exact Or.inl (by simp [same_counters])
      | true =>
        simp only [not_true_eq_false, if_false, Bool.true_eq_false]
        exact umm_mmap_at_atomic cfg w false _ len prot flags fd offset s hw

theorem umm_munmap_counters (cfg : Config) (w : World) (addr len : Nat) (s : Sys) :
    same_counters s (umm_munmap cfg w addr len s).2 := by
  unfold umm_munmap same_counters
  simp only [Sys.push]
  split_ifs <;> simp

theorem umm_mprotect_counters (cfg : Config) (w : World) (addr len prot : Nat) (s : Sys) :
    same_counters s (umm_mprotect cfg w addr len prot s).2 := by
  unfold umm_mprotect same_counters
  simp only [Sys.push]
  split_ifs <;> simp

theorem umm_alloc_stack_atomic (cfg : Config) (w : World) (top : Nat) (s : Sys)
    (hw : w.posix) :
    atomic_step w s (umm_alloc_stack cfg w top s).2.2 (umm_alloc_stack cfg w top s).1 0 := by
  unfold umm_alloc_stack
  cases hsp : umm_space_left cfg s cfg.APP_STACK_SIZE with
  | false => exact Or.inl (by simp [same_counters])
  | true =>
    simp only [not_true_eq_false, if_false, Bool.true_eq_false]
    by_cases h0 : (umm_mmap_anom cfg w (stack_addr cfg s)
        (sub64 cfg.APP_STACK_SIZE cfg.PGSIZE) (PROT_READ ||| PROT_WRITE) false s).1 = 0
    · have hz := umm_mmap_anom_zero cfg w _ _ _ false s hw h0
      unfold stack_addr at hz
      rw [hz.1]
      refine Or.inr ⟨by simp, _, ?_, ?_, hz.2⟩
      · exact List.cons_ne_nil _ _
      · simp
    · unfold stack_addr at h0
      simp only [h0, ne_eq, not_false_eq_true, if_true]
      exact Or.inl (umm_mmap_anom_counters cfg w _ _ _ false s)

/-! ## A changed counter means the success value was returned, in any environment -/

theorem umm_brk_ret_or_same (cfg : Config) (w : World) (b : Nat) (s : Sys) :
    same_counters s (umm_brk cfg w b s).2 ∨ (umm_brk cfg w b s).1 = b := by
  by_cases hb : b = 0
  · subst hb
    rw [umm_brk_zero]
    exact Or.inl (same_counters_refl s)
  by_cases hlt : b < cfg.mmap_base
  · rw [umm_brk_below cfg w b s hb hlt]
    exact Or.inl (same_counters_refl s)
  have hge : cfg.mmap_base ≤ b := Nat.le_of_not_lt hlt
  cases hsp : umm_space_left cfg s (big_round cfg (b - cfg.mmap_base)) with
  | false =>
    rw [umm_brk_no_space cfg w b s hb hge hsp]
    exact Or.inl (same_counters_refl s)
  | true =>
    rcases Nat.lt_trichotomy (big_round cfg (b - cfg.mmap_base)) s.brk_len with hl | hl | hl
    · by_cases hret : w.ret s.log
          (Call.munmap (add64 cfg.mmap_base (big_round cfg (b - cfg.mmap_base)))
            (s.brk_len - big_round cfg (b - cfg.mmap_base))) = 0
      · rw [umm_brk_shrink_ok cfg w b s hb hge hsp hl hret]
        exact Or.inr rfl
      · rw [umm_brk_shrink_fail cfg w b s hb hge hsp hl hret]
        exact Or.inl (same_counters_push s _)
    · rw [umm_brk_same cfg w b s hb hge hsp hl]
      exact Or.inl (same_counters_refl s)
    · rw [umm_brk_grow cfg w b s hb hge hsp hl]
      split_ifs
      · exact Or.inl (umm_mmap_anom_counters cfg w _ _ _ true s)
      · exact Or.inr rfl

theorem umm_map_big_ret_or_same (cfg : Config) (w : World) (len prot : Nat) (s : Sys) :
    same_counters s (umm_map_big cfg w len prot s).2 ∨
      (umm_map_big cfg w len prot s).1
        = sub64 (umm_get_map_pos cfg s) (big_full_len cfg s len) := by
  rw [umm_map_big_eq]
  split_ifs
  · exact Or.inl (umm_mmap_anom_counters cfg w _ _ _ true s)
  · exact Or.inr rfl

theorem umm_mmap_at_ret_or_same (cfg : Config) (w : World) (adj : Bool)
    (addr len prot flags : Nat) (fd offset : Int) (s : Sys) :
    same_counters s (umm_mmap_at cfg w adj addr len prot flags fd offset s).2 ∨
      (umm_mmap_at cfg w adj addr len prot flags fd offset s).1 = addr := by
  rw [umm_mmap_at_eq]
  split_ifs
  · exact Or.inl (establish_counters cfg w addr len prot flags fd offset s)
  · exact Or.inr rfl
  · exact Or.inr rfl

theorem umm_mmap_ret_or_same (cfg : Config) (w : World) (addr len prot flags : Nat)
    (fd offset : Int) (s : Sys) :
    same_counters s (umm_mmap cfg w addr len prot flags fd offset s).2 ∨
      (umm_mmap cfg w addr len prot flags fd offset s).1 = mmap_target cfg s addr len flags := by
  unfold umm_mmap mmap_target
  by_cases hbig : USE_BIG_MEM ∧ cfg.BIG_PGSIZE ≤ len ∧ flags &&& MAP_ANONYMOUS ≠ 0 ∧ addr = 0
  · rw [if_pos hbig, if_pos hbig]
    exact umm_map_big_ret_or_same cfg w len prot s
  · rw [if_neg hbig, if_neg hbig]
    by_cases ha : addr = 0
    · rw [if_pos ha, if_pos ha]
      cases hsp : umm_space_left cfg s len with
      | false => exact Or.inl (by simp [same_counters])
      | true =>
        simp only [not_true_eq_false, if_false, Bool.true_eq_false]
        exact umm_mmap_at_ret_or_same cfg w true _ len prot flags fd offset s
    · rw [if_neg ha, if_neg ha]
      cases hsafe : cfg.mem_ref_is_safe addr len with
      | false => exact Or.inl (by simp [same_counters])
      | true =>
        simp only [not_true_eq_false, if_false, Bool.true_eq_false]
        exact umm_mmap_at_ret_or_same cfg w false _ len prot flags fd offset s

theorem umm_alloc_stack_eq (cfg : Config) (w : World) (top : Nat) (s : Sys) :
    umm_alloc_stack cfg w top s =
      if umm_space_left cfg s cfg.APP_STACK_SIZE = false then (-ENOMEM, top, s)
      else if (umm_mmap_anom cfg w (stack_addr cfg s) (sub64 cfg.APP_STACK_SIZE cfg.PGSIZE)
          (PROT_READ ||| PROT_WRITE) false s).1 ≠ 0 then
        ((umm_mmap_anom cfg w (stack_addr cfg s) (sub64 cfg.APP_STACK_SIZE cfg.PGSIZE)
            (PROT_READ ||| PROT_WRITE) false s).1, top,
          (umm_mmap_anom cfg w (stack_addr cfg s) (sub64 cfg.APP_STACK_SIZE cfg.PGSIZE)
            (PROT_READ ||| PROT_WRITE) false s).2)
      else
        (0, PGADDR cfg (umm_get_map_pos cfg s),
          ⟨(umm_mmap_anom cfg w (stack_addr cfg s) (sub64 cfg.APP_STACK_SIZE cfg.PGSIZE)
              (PROT_READ ||| PROT_WRITE) false s).2.brk_len,
            add64 (umm_mmap_anom cfg w (stack_addr cfg s) (sub64 cfg.APP_STACK_SIZE cfg.PGSIZE)
              (PROT_READ ||| PROT_WRITE) false s).2.mmap_len
              (add64 cfg.APP_STACK_SIZE (PGOFF cfg (umm_get_map_pos cfg s))),
            (umm_mmap_anom cfg w (stack_addr cfg s) (sub64 cfg.APP_STACK_SIZE cfg.PGSIZE)
              (PROT_READ ||| PROT_WRITE) false s).2.log⟩) := by
  unfold umm_alloc_stack stack_addr
  cases umm_space_left cfg s cfg.APP_STACK_SIZE <;> simp

theorem umm_alloc_stack_ret_or_same (cfg : Config) (w : World) (top : Nat) (s : Sys) :
    same_counters s (umm_alloc_stack cfg w top s).2.2 ∨ (umm_alloc_stack cfg w top s).1 = 0 := by
  rw [umm_alloc_stack_eq]
  split_ifs
  · exact Or.inl (same_counters_refl s)
  · exact Or.inl (umm_mmap_anom_counters cfg w _ _ _ false s)
  · exact Or.inr rfl

theorem changed_of_atomic {α : Type} (w : World) (s t : Sys) (r good : α)
    (h : atomic_step w s t r good) : changed_only_by_success w s t := by
  intro hne
  rcases h with h | ⟨_, h⟩
  · exact absurd h hne
  · exact h

/-! ## Error codes -/

theorem to_ulong_neg_is_error (i : Int) (h1 : -4096 < i) (h2 : i < 0) :
    is_error (to_ulong i) := by
  unfold is_error to_ulong U64
  have h3 : i % (18446744073709551616 : Int) = i + 18446744073709551616 := by omega
  simp only [Nat.cast_ofNat]
  rw [h3]
  omega

theorem to_ulong_neg_errno_is_error (w : World) (hw : w.posix) (h : List Call) (c : Call) :
    is_error (to_ulong (- w.errno h c)) := by
  have := hw h c
  exact to_ulong_neg_is_error _ (by omega) (by omega)

/-- With a conforming host and shadow page table, a non-zero result of
`umm_mmap_anom` is a negative error number. -/
theorem umm_mmap_anom_nonzero_neg (cfg : Config) (w : World) (addr len prot : Nat)
    (big : Bool) (s : Sys) (hw : w.posix) (hsh : w.shadow_codes)
    (h : (umm_mmap_anom cfg w addr len prot big s).1 ≠ 0) :
    -4096 < (umm_mmap_anom cfg w addr len prot big s).1 ∧
      (umm_mmap_anom cfg w addr len prot big s).1 < 0 := by
  by_cases h1 : w.ret s.log (anom_host_call addr len prot big) = (addr : Int)
  · by_cases h2 : w.ret (s.log ++ [anom_host_call addr len prot big])
        (anom_shadow_call cfg w addr len prot big) = 0
    · rw [umm_mmap_anom_ok cfg w addr len prot big s h1 h2] at h
      exact absurd rfl h
    · rw [umm_mmap_anom_shadow_fail cfg w addr len prot big s h1 h2]
      have := hsh (s.log ++ [anom_host_call addr len prot big]) addr len (w.dune_va_to_pa addr)
        (if big then prot_to_perm cfg prot ||| cfg.PERM_BIG else prot_to_perm cfg prot)
      unfold anom_shadow_call at h2 ⊢
      simp only
      omega
  · rw [umm_mmap_anom_host_fail cfg w addr len prot big s h1]
    have := hw s.log (anom_host_call addr len prot big)
    simp only
    omega

/-- The same for `umm_mmap_file`. -/
theorem umm_mmap_file_nonzero_neg (cfg : Config) (w : World) (addr len prot : Nat)
    (fd offset : Int) (s : Sys) (hw : w.posix) (hsh : w.shadow_codes)
    (h : (umm_mmap_file cfg w addr len prot fd offset s).1 ≠ 0) :
    -4096 < (umm_mmap_file cfg w addr len prot fd offset s).1 ∧
      (umm_mmap_file cfg w addr len prot fd offset s).1 < 0 := by
  by_cases h1 : w.ret s.log (file_host_call addr len prot fd offset) = (addr : Int)
  · by_cases h2 : w.ret (s.log ++ [file_host_call addr len prot fd offset])
        (file_shadow_call cfg w addr len prot) = 0
    · rw [umm_mmap_file_ok cfg w addr len prot fd offset s h1 h2] at h
      exact absurd rfl h
    · rw [umm_mmap_file_shadow_fail cfg w addr len prot fd offset s h1 h2]
      have := hsh (s.log ++ [file_host_call addr len prot fd offset]) addr len
        (w.dune_va_to_pa addr) (prot_to_perm cfg prot)
      unfold file_shadow_call at h2 ⊢
      simp only
      omega
  · rw [umm_mmap_file_host_fail cfg w addr len prot fd offset s h1]
    have := hw s.log (file_host_call addr len prot fd offset)
    simp only
    omega

theorem establish_nonzero_neg (cfg : Config) (w : World) (addr len prot flags : Nat)
    (fd offset : Int) (s : Sys) (hw : w.posix) (hsh : w.shadow_codes)
    (h : (establish cfg w addr len prot flags fd offset s).1 ≠ 0) :
    -4096 < (establish cfg w addr len prot flags fd offset s).1 ∧
      (establish cfg w addr len prot flags fd offset s).1 < 0 := by
  unfold establish at h ⊢
  split_ifs at h ⊢
  · exact umm_mmap_anom_nonzero_neg cfg w addr len prot false s hw hsh h
  · exact umm_mmap_file_nonzero_neg cfg w addr len prot fd offset s hw hsh h
  · exact (show -4096 < -EINVAL ∧ -EINVAL < 0 by decide)

/-! ## What a successful `umm_brk` has done -/

/-- With a conforming host and shadow page table, a call `umm_brk(b)`, `b`
non-zero, whose result is not an error code has passed the checks, returns
`b`, and leaves `brk_len` at the rounded length. -/
theorem umm_brk_success (cfg : Config) (w : World) (b : Nat) (s : Sys)
    (hw : w.posix) (hsh : w.shadow_codes) (hb : b ≠ 0)
    (hok : ¬ is_error (umm_brk cfg w b s).1) :
    cfg.mmap_base ≤ b ∧
      umm_space_left cfg s (big_round cfg (b - cfg.mmap_base)) = true ∧
      (umm_brk cfg w b s).1 = b ∧
      (umm_brk cfg w b s).2.brk_len = big_round cfg (b - cfg.mmap_base) ∧
      (umm_brk cfg w b s).2.mmap_len = s.mmap_len := by
  by_cases hlt : b < cfg.mmap_base
  · rw [umm_brk_below cfg w b s hb hlt] at hok
    exact absurd (show is_error (to_ulong (-EINVAL)) by decide) hok
  have hge : cfg.mmap_base ≤ b := Nat.le_of_not_lt hlt
  cases hsp : umm_space_left cfg s (big_round cfg (b - cfg.mmap_base)) with
  | false =>
    rw [umm_brk_no_space cfg w b s hb hge hsp] at hok
    exact absurd (show is_error (to_ulong (-ENOMEM)) by decide) hok
  | true =>
    refine ⟨hge, rfl, ?_⟩
    rcases Nat.lt_trichotomy (big_round cfg (b - cfg.mmap_base)) s.brk_len with hl | hl | hl
    · by_cases hret : w.ret s.log
          (Call.munmap (add64 cfg.mmap_base (big_round cfg (b - cfg.mmap_base)))
            (s.brk_len - big_round cfg (b - cfg.mmap_base))) = 0
      · rw [umm_brk_shrink_ok cfg w b s hb hge hsp hl hret]
        simp
      · rw [umm_brk_shrink_fail cfg w b s hb hge hsp hl hret] at hok
        exact absurd (to_ulong_neg_errno_is_error w hw _ _) hok
    · rw [umm_brk_same cfg w b s hb hge hsp hl]
      exact ⟨rfl, hl.symm, rfl⟩
    · by_cases h0 : (umm_mmap_anom cfg w (add64 cfg.mmap_base s.brk_len)
          (big_round cfg (b - cfg.mmap_base) - s.brk_len)
          (PROT_READ ||| PROT_WRITE) true s).1 = 0
      · rw [umm_brk_grow_ok cfg w b s hw hb hge hsp hl h0]
        simp
      · rw [umm_brk_grow_fail cfg w b s hb hge hsp hl h0] at hok
        have := umm_mmap_anom_nonzero_neg cfg w _ _ _ true s hw hsh h0
        exact absurd (to_ulong_neg_is_error _ this.1 this.2) hok

/-! ## Rounding -/

/-- Without wrap-around, `big_round` is the least multiple of `BIG_PGSIZE`
that is not below its argument. -/
theorem big_round_spec (cfg : Config) (x : Nat) (hpos : 0 < cfg.BIG_PGSIZE)
    (hx : x + cfg.BIG_PGSIZE ≤ U64) :
    cfg.BIG_PGSIZE ∣ big_round cfg x ∧ x ≤ big_round cfg x ∧
      big_round cfg x < x + cfg.BIG_PGSIZE := by
  have h1 : sub64 (add64 x cfg.BIG_PGSIZE) 1 = x + cfg.BIG_PGSIZE - 1 := by
    unfold sub64 add64 U64 at *
    omega
  unfold big_round BIG_PGADDR
  rw [h1]
  have hmod := Nat.mod_lt (x + cfg.BIG_PGSIZE - 1) hpos
  have hdm := Nat.div_add_mod (x + cfg.BIG_PGSIZE - 1) cfg.BIG_PGSIZE
  refine ⟨?_, ?_, ?_⟩
  · exact Nat.dvd_sub_mod _
  · omega
  · omega

/-- Without wrap-around, `page_round` is the least multiple of `PGSIZE` that
is not below its argument. -/
theorem page_round_spec (cfg : Config) (x : Nat) (hpos : 0 < cfg.PGSIZE)
    (hx : x + cfg.PGSIZE ≤ U64) :
    cfg.PGSIZE ∣ page_round cfg x ∧ x ≤ page_round cfg x ∧
      page_round cfg x < x + cfg.PGSIZE := by
  have h1 : sub64 (add64 x cfg.PGSIZE) 1 = x + cfg.PGSIZE - 1 := by
    unfold sub64 add64 U64 at *
    omega
  unfold page_round PGADDR
  rw [h1]
  have hmod := Nat.mod_lt (x + cfg.PGSIZE - 1) hpos
  have hdm := Nat.div_add_mod (x + cfg.PGSIZE - 1) cfg.PGSIZE
  refine ⟨?_, ?_, ?_⟩
  · exact Nat.dvd_sub_mod _
  · omega
  · omega

/-! ## What a successful address-less `umm_mmap` on the ordinary path has done -/

theorem umm_mmap_small_eq (cfg : Config) (w : World) (len prot flags : Nat)
    (fd offset : Int) (s : Sys)
    (hsmall : ¬ (cfg.BIG_PGSIZE ≤ len ∧ flags &&& MAP_ANONYMOUS ≠ 0)) :
    umm_mmap cfg w 0 len prot flags fd offset s =
      if umm_space_left cfg s len = false then (to_ulong (-ENOMEM), s)
      else umm_mmap_at cfg w true (sub64 (umm_get_map_pos cfg s) (page_round cfg len))
        len prot flags fd offset s := by
  have hbig : ¬ (USE_BIG_MEM ∧ cfg.BIG_PGSIZE ≤ len ∧ flags &&& MAP_ANONYMOUS ≠ 0 ∧ 0 = 0) :=
    fun h => hsmall ⟨h.2.1, h.2.2.1⟩
  unfold umm_mmap
  rw [if_neg hbig, if_pos rfl]
  cases umm_space_left cfg s len <;> simp [page_round]

/-- With a conforming host and shadow page table, an address-less `umm_mmap`
on the ordinary path whose result is not an error code has passed the space
check, made the two establish calls at `pos - PGADDR(len + PGSIZE - 1)`,
returned that address and added the rounded length to `mmap_len`. -/
theorem umm_mmap_small_success (cfg : Config) (w : World) (len prot flags : Nat)
    (fd offset : Int) (s : Sys) (hw : w.posix) (hsh : w.shadow_codes)
    (hsmall : ¬ (cfg.BIG_PGSIZE ≤ len ∧ flags &&& MAP_ANONYMOUS ≠ 0))
    (hok : ¬ is_error (umm_mmap cfg w 0 len prot flags fd offset s).1) :
    umm_space_left cfg s len = true ∧
      umm_mmap cfg w 0 len prot flags fd offset s =
        (sub64 (umm_get_map_pos cfg s) (page_round cfg len),
          ⟨s.brk_len, add64 s.mmap_len (page_round cfg len),
            s.log ++ establish_calls cfg w (sub64 (umm_get_map_pos cfg s) (page_round cfg len))
              len prot flags fd offset⟩) := by
  rw [umm_mmap_small_eq cfg w len prot flags fd offset s hsmall] at hok ⊢
  cases hsp : umm_space_left cfg s len with
  | false =>
    rw [hsp] at hok
    exact absurd (show is_error (to_ulong (-ENOMEM)) by decide) hok
  | true =>
    rw [hsp] at hok
    simp only [Bool.true_eq_false, if_false] at hok ⊢
    by_cases h0 : (establish cfg w (sub64 (umm_get_map_pos cfg s) (page_round cfg len))
        len prot flags fd offset s).1 = 0
    · rw [umm_mmap_at_ok cfg w true _ len prot flags fd offset s hw h0]
      simp
    · rw [umm_mmap_at_fail cfg w true _ len prot flags fd offset s h0] at hok
      have := establish_nonzero_neg cfg w _ len prot flags fd offset s hw hsh h0
      exact absurd (to_ulong_neg_is_error _ this.1 this.2) hok

theorem sub64_eq_sub (a b : Nat) (ha : a < U64) (hb : b ≤ a) : sub64 a b = a - b := by
  unfold sub64
  unfold U64 at *
  omega

theorem add64_eq_add (a b : Nat) (h : a + b < U64) : add64 a b = a + b := by
  unfold add64
  exact Nat.mod_eq_of_lt h

theorem half_U64_le : U64 / 2 ≤ U64 := by
  unfold U64
  omega

/-- Arithmetic of one downward placement: when the top of the general region
`B - m` has not wrapped, the rounded length is at most `2^63` and the address
is not an error code, nothing wraps. -/
theorem placement_arith (B m R : Nat) (hB : B < U64) (hm : m ≤ B) (hR : R ≤ U64 / 2)
    (hok : ¬ is_error (sub64 (sub64 B m) R)) :
    R ≤ B - m ∧ sub64 (sub64 B m) R = B - m - R ∧ add64 m R = m + R ∧ m + R ≤ B ∧
      sub64 B (m + R) = B - m - R := by
  unfold is_error at hok
  unfold sub64 add64 U64 at *
  omega

/-! ## What a successful `umm_map_big` has done -/

theorem sub64_add64 (B m X : Nat) : sub64 B (add64 m X) = sub64 (sub64 B m) X := by
  unfold sub64 add64 U64
  omega

theorem sub64_lt (a b : Nat) : sub64 a b < U64 := Nat.mod_lt _ (by decide)

theorem umm_get_map_pos_lt (cfg : Config) (s : Sys) : umm_get_map_pos cfg s < U64 :=
  sub64_lt _ _

/-- With a conforming host and shadow page table, a call of `umm_map_big`
whose result is not an error code has made the two establish calls at
`pos - full_len`, returned that address and added `full_len` to `mmap_len`. -/
theorem umm_map_big_success (cfg : Config) (w : World) (len prot : Nat) (s : Sys)
    (hw : w.posix) (hsh : w.shadow_codes)
    (hok : ¬ is_error (umm_map_big cfg w len prot s).1) :
    umm_map_big cfg w len prot s =
      (sub64 (umm_get_map_pos cfg s) (big_full_len cfg s len),
        ⟨s.brk_len, add64 s.mmap_len (big_full_len cfg s len),
          s.log ++ [anom_host_call (sub64 (umm_get_map_pos cfg s) (big_full_len cfg s len))
              len prot true,
            anom_shadow_call cfg w (sub64 (umm_get_map_pos cfg s) (big_full_len cfg s len))
              len prot true]⟩) := by
  by_cases h0 : (umm_mmap_anom cfg w (sub64 (umm_get_map_pos cfg s) (big_full_len cfg s len))
          len prot true s).1 = 0
  · exact umm_map_big_ok cfg w len prot s hw h0
  · rw [umm_map_big_fail cfg w len prot s h0] at hok
    have := umm_mmap_anom_nonzero_neg cfg w _ _ _ true s hw hsh h0
    exact absurd (to_ulong_neg_is_error _ this.1 this.2) hok

theorem umm_mmap_big_eq (cfg : Config) (w : World) (len prot flags : Nat)
    (fd offset : Int) (s : Sys)
    (hlen : cfg.BIG_PGSIZE ≤ len) (hanon : flags &&& MAP_ANONYMOUS ≠ 0) :
    umm_mmap cfg w 0 len prot flags fd offset s = umm_map_big cfg w len prot s := by
  have hbig : USE_BIG_MEM ∧ cfg.BIG_PGSIZE ≤ len ∧ flags &&& MAP_ANONYMOUS ≠ 0 ∧ 0 = 0 :=
    ⟨rfl, hlen, hanon, rfl⟩
  unfold umm_mmap
  rw [if_pos hbig]

/-! ## What a successful `umm_alloc_stack` has done -/

/-- With a host that leaves a positive error number, a call of
`umm_alloc_stack` that returns 0 has passed the space check, made the two
establish calls, stored `PGADDR(pos)` and added `APP_STACK_SIZE + PGOFF(pos)`
to `mmap_len`. -/
theorem umm_alloc_stack_success (cfg : Config) (w : World) (top : Nat) (s : Sys)
    (hw : w.posix) (hok : (umm_alloc_stack cfg w top s).1 = 0) :
    umm_space_left cfg s cfg.APP_STACK_SIZE = true ∧
      umm_alloc_stack cfg w top s =
        (0, PGADDR cfg (umm_get_map_pos cfg s),
          ⟨s.brk_len,
            add64 s.mmap_len (add64 cfg.APP_STACK_SIZE (PGOFF cfg (umm_get_map_pos cfg s))),
            s.log ++ [anom_host_call (stack_addr cfg s) (sub64 cfg.APP_STACK_SIZE cfg.PGSIZE)
                (PROT_READ ||| PROT_WRITE) false,
              anom_shadow_call cfg w (stack_addr cfg s) (sub64 cfg.APP_STACK_SIZE cfg.PGSIZE)
                (PROT_READ ||| PROT_WRITE) false]⟩) := by
  rw [umm_alloc_stack_eq] at hok ⊢
  cases hsp : umm_space_left cfg s cfg.APP_STACK_SIZE with
  | false =>
    rw [hsp] at hok
    exact absurd hok (show (-ENOMEM : Int) ≠ 0 by decide)
  | true =>
    rw [hsp] at hok
    simp only [Bool.true_eq_false, if_false] at hok ⊢
    by_cases h0 : (umm_mmap_anom cfg w (stack_addr cfg s) (sub64 cfg.APP_STACK_SIZE cfg.PGSIZE)
          (PROT_READ ||| PROT_WRITE) false s).1 = 0
    · have hz := (umm_mmap_anom_zero cfg w _ _ _ false s hw h0).1
      rw [hz]
      simp
    · rw [if_pos h0] at hok
      exact absurd hok h0

/-! ## The values the counters can take after one call -/

theorem umm_brk_counters (cfg : Config) (w : World) (b : Nat) (s : Sys) :
    ((umm_brk cfg w b s).2.brk_len = s.brk_len ∨
        (umm_brk cfg w b s).2.brk_len = big_round cfg (b - cfg.mmap_base)) ∧
      (umm_brk cfg w b s).2.mmap_len = s.mmap_len := by
  by_cases hb : b = 0
  · subst hb
    rw [umm_brk_zero]
    exact ⟨Or.inl rfl, rfl⟩
  by_cases hlt : b < cfg.mmap_base
  · rw [umm_brk_below cfg w b s hb hlt]
    exact ⟨Or.inl rfl, rfl⟩
  have hge : cfg.mmap_base ≤ b := Nat.le_of_not_lt hlt
  cases hsp : umm_space_left cfg s (big_round cfg (b - cfg.mmap_base)) with
  | false =>
    rw [umm_brk_no_space cfg w b s hb hge hsp]
    exact ⟨Or.inl rfl, rfl⟩
  | true =>
    rcases Nat.lt_trichotomy (big_round cfg (b - cfg.mmap_base)) s.brk_len with hl | hl | hl
    · by_cases hret : w.ret s.log
          (Call.munmap (add64 cfg.mmap_base (big_round cfg (b - cfg.mmap_base)))
            (s.brk_len - big_round cfg (b - cfg.mmap_base))) = 0
      · rw [umm_brk_shrink_ok cfg w b s hb hge hsp hl hret]
        exact ⟨Or.inr (by simp only), by simp only⟩
      · rw [umm_brk_shrink_fail cfg w b s hb hge hsp hl hret]
        exact ⟨Or.inl (by simp only [Sys.push]), by simp only [Sys.push]⟩
    · rw [umm_brk_same cfg w b s hb hge hsp hl]
      exact ⟨Or.inl rfl, rfl⟩
    · have hc := umm_mmap_anom_counters cfg w (add64 cfg.mmap_base s.brk_len)
        (big_round cfg (b - cfg.mmap_base) - s.brk_len) (PROT_READ ||| PROT_WRITE) true s
      rw [umm_brk_grow cfg w b s hb hge hsp hl]
      split_ifs
      · exact ⟨Or.inl hc.1, hc.2⟩
      · exact ⟨Or.inr (by simp only), hc.2⟩

theorem umm_map_big_counters (cfg : Config) (w : World) (len prot : Nat) (s : Sys) :
    (umm_map_big cfg w len prot s).2.brk_len = s.brk_len ∧
      ((umm_map_big cfg w len prot s).2.mmap_len = s.mmap_len ∨
        (umm_map_big cfg w len prot s).2.mmap_len
          = add64 s.mmap_len (big_full_len cfg s len)) := by
  have hc := umm_mmap_anom_counters cfg w
    (sub64 (umm_get_map_pos cfg s) (big_full_len cfg s len)) len prot true s
  rw [umm_map_big_eq]
  split_ifs
  · exact ⟨hc.1, Or.inl hc.2⟩
  · refine ⟨hc.1, Or.inr ?_⟩
    simp only
    rw [hc.2]

theorem umm_mmap_at_counters (cfg : Config) (w : World) (adj : Bool)
    (addr len prot flags : Nat) (fd offset : Int) (s : Sys) :
    (umm_mmap_at cfg w adj addr len prot flags fd offset s).2.brk_len = s.brk_len ∧
      ((umm_mmap_at cfg w adj addr len prot flags fd offset s).2.mmap_len = s.mmap_len ∨
        (adj = true ∧ (umm_mmap_at cfg w adj addr len prot flags fd offset s).2.mmap_len
          = add64 s.mmap_len (page_round cfg len))) := by
  have hc := establish_counters cfg w addr len prot flags fd offset s
  rw [umm_mmap_at_eq]
  split_ifs with h1 h2
  · exact ⟨hc.1, Or.inl hc.2⟩
  · refine ⟨hc.1, Or.inr ⟨h2, ?_⟩⟩
    simp only
    rw [hc.2]
  · exact ⟨hc.1, Or.inl hc.2⟩

theorem umm_mmap_counters (cfg : Config) (w : World) (addr len prot flags : Nat)
    (fd offset : Int) (s : Sys) :
    (umm_mmap cfg w addr len prot flags fd offset s).2.brk_len = s.brk_len ∧
      ((umm_mmap cfg w addr len prot flags fd offset s).2.mmap_len = s.mmap_len ∨
        (addr = 0 ∧ ((umm_mmap cfg w addr len prot flags fd offset s).2.mmap_len
            = add64 s.mmap_len (big_full_len cfg s len) ∨
          (umm_mmap cfg w addr len prot flags fd offset s).2.mmap_len
            = add64 s.mmap_len (page_round cfg len)))) := by
  unfold umm_mmap
  by_cases hbig : USE_BIG_MEM ∧ cfg.BIG_PGSIZE ≤ len ∧ flags &&& MAP_ANONYMOUS ≠ 0 ∧ addr = 0
  · rw [if_pos hbig]
    have h := umm_map_big_counters cfg w len prot s
    rcases h.2 with h2 | h2
    · exact ⟨h.1, Or.inl h2⟩
    · exact ⟨h.1, Or.inr ⟨hbig.2.2.2, Or.inl h2⟩⟩
  · rw [if_neg hbig]
    by_cases ha : addr = 0
    · rw [if_pos ha]
      cases hsp : umm_space_left cfg s len with
      | false => exact ⟨by simp, Or.inl (by simp)⟩
      | true =>
        simp only [not_true_eq_false, if_false, Bool.true_eq_false]
        have h := umm_mmap_at_counters cfg w true
          (sub64 (umm_get_map_pos cfg s) (PGADDR cfg (sub64 (add64 len cfg.PGSIZE) 1)))
          len prot flags fd offset s
        rcases h.2 with h2 | h2
        · exact ⟨h.1, Or.inl h2⟩
        · exact ⟨h.1, Or.inr ⟨ha, Or.inr h2.2⟩⟩
    · rw [if_neg ha]
      cases hsafe : cfg.mem_ref_is_safe addr len with
      | false => exact ⟨by simp, Or.inl (by simp)⟩
      | true =>
        simp only [not_true_eq_false, if_false, Bool.true_eq_false]
        have h := umm_mmap_at_counters cfg w false addr len prot flags fd offset s
        rcases h.2 with h2 | h2
        · exact ⟨h.1, Or.inl h2⟩
        · exact absurd h2.1 (by decide)

theorem umm_alloc_stack_counters (cfg : Config) (w : World) (top : Nat) (s : Sys) :
    (umm_alloc_stack cfg w top s).2.2.brk_len = s.brk_len ∧
      ((umm_alloc_stack cfg w top s).2.2.mmap_len = s.mmap_len ∨
        (umm_alloc_stack cfg w top s).2.2.mmap_len
          = add64 s.mmap_len
              (add64 cfg.APP_STACK_SIZE (PGOFF cfg (umm_get_map_pos cfg s)))) := by
  have hc := umm_mmap_anom_counters cfg w (stack_addr cfg s)
    (sub64 cfg.APP_STACK_SIZE cfg.PGSIZE) (PROT_READ ||| PROT_WRITE) false s
  rw [umm_alloc_stack_eq]
  split_ifs
  · exact ⟨rfl, Or.inl rfl⟩
  · exact ⟨hc.1, Or.inl hc.2⟩
  · refine ⟨hc.1, Or.inr ?_⟩
    simp only
    rw [hc.2]

theorem dvd_add64 (k a b : Nat) (hk : k ∣ U64) (ha : k ∣ a) (hb : k ∣ b) : k ∣ add64 a b := by
  unfold add64
  exact (Nat.dvd_mod_iff hk).2 (Nat.dvd_add ha hb)

/-- A 64-bit difference of two numbers with the same remainder modulo `k` is a
multiple of `k`, when `k` divides `2^64`. -/
theorem dvd_sub64 (k a b : Nat) (hk : k ∣ U64) (h : a % k = b % k) : k ∣ sub64 a b := by
  unfold sub64
  apply (Nat.dvd_mod_iff hk).2
  have hle : b % U64 ≤ U64 := Nat.le_of_lt (Nat.mod_lt _ (by decide))
  have hb : (b % U64) % k = b % k := Nat.mod_mod_of_dvd b hk
  have h1 : (U64 - b % U64 + a) % k = (U64 - b % U64 + b % U64) % k := by
    rw [Nat.add_mod, h, ← hb, ← Nat.add_mod]
  have h2 : U64 - b % U64 + b % U64 = U64 := Nat.sub_add_cancel hle
  rw [h2] at h1
  apply Nat.dvd_of_mod_eq_zero
  rw [h1]
  exact Nat.mod_eq_zero_of_dvd hk

theorem dvd_sub64_of_dvd (k a b : Nat) (hk : k ∣ U64) (ha : k ∣ a) (hb : k ∣ b) :
    k ∣ sub64 a b := by
  apply dvd_sub64 k a b hk
  rw [Nat.mod_eq_zero_of_dvd ha, Nat.mod_eq_zero_of_dvd hb]

theorem dvd_big_round (cfg : Config) (x : Nat) : cfg.BIG_PGSIZE ∣ big_round cfg x :=
  Nat.dvd_sub_mod _

theorem dvd_page_round (cfg : Config) (x : Nat) : cfg.PGSIZE ∣ page_round cfg x :=
  Nat.dvd_sub_mod _

theorem dvd_map_pos (cfg : Config) (s : Sys) (hc : cfg.page_aligned)
    (hs : cfg.PGSIZE ∣ s.mmap_len) : cfg.PGSIZE ∣ umm_get_map_pos cfg s :=
  dvd_sub64_of_dvd _ _ _ (Nat.dvd_trans hc.1 hc.2.1) hc.2.2.1 hs

theorem dvd_big_full_len (cfg : Config) (s : Sys) (len : Nat) (hc : cfg.page_aligned)
    (hs : cfg.PGSIZE ∣ s.mmap_len) : cfg.PGSIZE ∣ big_full_len cfg s len := by
  unfold big_full_len
  apply dvd_add64 _ _ _ (Nat.dvd_trans hc.1 hc.2.1) (Nat.dvd_trans hc.1 (dvd_big_round cfg len))
  unfold BIG_PGOFF
  exact (Nat.dvd_mod_iff hc.1).2 (dvd_map_pos cfg s hc hs)

theorem big_full_len_mod (cfg : Config) (s : Sys) (len : Nat) (hc : cfg.page_aligned) :
    umm_get_map_pos cfg s % cfg.BIG_PGSIZE = big_full_len cfg s len % cfg.BIG_PGSIZE := by
  unfold big_full_len add64 BIG_PGOFF
  rw [Nat.mod_mod_of_dvd _ hc.2.1, Nat.add_mod,
    Nat.mod_eq_zero_of_dvd (dvd_big_round cfg len)]
  simp

theorem aligned_exec (cfg : Config) (w : World) (hc : cfg.page_aligned) (op : Op) (s : Sys)
    (hs : aligned cfg s) : aligned cfg (op.exec cfg w s) := by
  have hpu : cfg.PGSIZE ∣ U64 := Nat.dvd_trans hc.1 hc.2.1
  cases op with
  | brk b =>
    have h := umm_brk_counters cfg w b s
    refine ⟨?_, ?_⟩
    · show cfg.BIG_PGSIZE ∣ (umm_brk cfg w b s).2.brk_len
      rcases h.1 with h1 | h1
      · rw [h1]
        exact hs.1
      · rw [h1]
        exact dvd_big_round cfg _
    · show cfg.PGSIZE ∣ (umm_brk cfg w b s).2.mmap_len
      rw [h.2]
      exact hs.2
  | mmap addr len prot flags fd offset =>
    have h := umm_mmap_counters cfg w addr len prot flags fd offset s
    refine ⟨?_, ?_⟩
    · show cfg.BIG_PGSIZE ∣ (umm_mmap cfg w addr len prot flags fd offset s).2.brk_len
      rw [h.1]
      exact hs.1
    · show cfg.PGSIZE ∣ (umm_mmap cfg w addr len prot flags fd offset s).2.mmap_len
      rcases h.2 with h2 | ⟨_, h2 | h2⟩
      · rw [h2]
        exact hs.2
      · rw [h2]
        exact dvd_add64 _ _ _ hpu hs.2 (dvd_big_full_len cfg s len hc hs.2)
      · rw [h2]
        exact dvd_add64 _ _ _ hpu hs.2 (dvd_page_round cfg len)
  | map_big len prot =>
    have h := umm_map_big_counters cfg w len prot s
    refine ⟨?_, ?_⟩
    · show cfg.BIG_PGSIZE ∣ (umm_map_big cfg w len prot s).2.brk_len
      rw [h.1]
      exact hs.1
    · show cfg.PGSIZE ∣ (umm_map_big cfg w len prot s).2.mmap_len
      rcases h.2 with h2 | h2
      · rw [h2]
        exact hs.2
      · rw [h2]
        exact dvd_add64 _ _ _ hpu hs.2 (dvd_big_full_len cfg s len hc hs.2)
  | munmap addr len =>
    have h := umm_munmap_counters cfg w addr len s
    refine ⟨?_, ?_⟩
    · show cfg.BIG_PGSIZE ∣ (umm_munmap cfg w addr len s).2.brk_len
      rw [h.1]
      exact hs.1
    · show cfg.PGSIZE ∣ (umm_munmap cfg w addr len s).2.mmap_len
      rw [h.2]
      exact hs.2
  | mprotect addr len prot =>
    have h := umm_mprotect_counters cfg w addr len prot s
    refine ⟨?_, ?_⟩
    · show cfg.BIG_PGSIZE ∣ (umm_mprotect cfg w addr len prot s).2.brk_len
      rw [h.1]
      exact hs.1
    · show cfg.PGSIZE ∣ (umm_mprotect cfg w addr len prot s).2.mmap_len
      rw [h.2]
      exact hs.2
  | alloc_stack top =>
    have h := umm_alloc_stack_counters cfg w top s
    refine ⟨?_, ?_⟩
    · show cfg.BIG_PGSIZE ∣ (umm_alloc_stack cfg w top s).2.2.brk_len
      rw [h.1]
      exact hs.1
    · show cfg.PGSIZE ∣ (umm_alloc_stack cfg w top s).2.2.mmap_len
      rcases h.2 with h2 | h2
      · rw [h2]
        exact hs.2
      · rw [h2]
        apply dvd_add64 _ _ _ hpu hs.2
        apply dvd_add64 _ _ _ hpu hc.2.2.2
        unfold PGOFF
        rw [Nat.mod_eq_zero_of_dvd (dvd_map_pos cfg s hc hs.2)]
        exact Nat.dvd_zero _

theorem aligned_run (cfg : Config) (w : World) (hc : cfg.page_aligned) (ops : List Op) :
    ∀ s, aligned cfg s → aligned cfg (run cfg w ops s) := by
  induction ops with
  | nil => exact fun s hs => hs
  | cons op ops ih =>
    intro s hs
    exact ih _ (aligned_exec cfg w hc op s hs)

theorem aligned_init (cfg : Config) : aligned cfg Sys.init :=
  ⟨Nat.dvd_zero _, Nat.dvd_zero _⟩

theorem roomy_page_aligned : roomy.page_aligned := by
  unfold Config.page_aligned
  decide

/-! ## The permission translator, bit by bit -/

theorem and_two_pow_ne_zero (n i : Nat) : n &&& 2 ^ i ≠ 0 ↔ n.testBit i = true := by
  rw [Nat.and_two_pow]
  cases n.testBit i <;> simp

theorem prot_read_iff (prot : Nat) : prot &&& PROT_READ ≠ 0 ↔ prot.testBit 0 = true :=
  and_two_pow_ne_zero prot 0

theorem prot_write_iff (prot : Nat) : prot &&& PROT_WRITE ≠ 0 ↔ prot.testBit 1 = true :=
  and_two_pow_ne_zero prot 1

theorem prot_exec_iff (prot : Nat) : prot &&& PROT_EXEC ≠ 0 ↔ prot.testBit 2 = true :=
  and_two_pow_ne_zero prot 2

/-- When the four permission constants are single bits, bit `i` of
`prot_to_perm(prot)` is set exactly when `i` is the bit of `PERM_U`, or the
bit of `PERM_R` and bit 0 of `prot` is set, or the bit of `PERM_W` and bit 1,
or the bit of `PERM_X` and bit 2. -/
theorem prot_to_perm_testBit (cfg : Config) (u r wb x : Nat)
    (hU : cfg.PERM_U = 2 ^ u) (hR : cfg.PERM_R = 2 ^ r) (hW : cfg.PERM_W = 2 ^ wb)
    (hX : cfg.PERM_X = 2 ^ x) (prot i : Nat) :
    (prot_to_perm cfg prot).testBit i =
      (decide (u = i) || (decide (r = i) && prot.testBit 0) ||
        (decide (wb = i) && prot.testBit 1) || (decide (x = i) && prot.testBit 2)) := by
  unfold prot_to_perm
  simp only [prot_read_iff, prot_write_iff, prot_exec_iff, hU, hR, hW, hX]
  cases prot.testBit 0 <;> cases prot.testBit 1 <;> cases prot.testBit 2 <;>
    simp [Nat.testBit_or, Nat.testBit_two_pow]

theorem prot_to_perm_low_bits (cfg : Config) (prot : Nat) :
    prot_to_perm cfg (prot &&& (PROT_READ ||| PROT_WRITE ||| PROT_EXEC))
      = prot_to_perm cfg prot := by
  have h1 : (prot &&& (PROT_READ ||| PROT_WRITE ||| PROT_EXEC)) &&& PROT_READ
      = prot &&& PROT_READ := by
    rw [Nat.and_assoc]
    rfl
  have h2 : (prot &&& (PROT_READ ||| PROT_WRITE ||| PROT_EXEC)) &&& PROT_WRITE
      = prot &&& PROT_WRITE := by
    rw [Nat.and_assoc]
    rfl
  have h3 : (prot &&& (PROT_READ ||| PROT_WRITE ||| PROT_EXEC)) &&& PROT_EXEC
      = prot &&& PROT_EXEC := by
    rw [Nat.and_assoc]
    rfl
  unfold prot_to_perm
  rw [h1, h2, h3]

/-- The conversion of `unsigned long prot` to `int` in `umm_mprotect` does not
change the permission. -/
theorem prot_to_perm_int (cfg : Config) (prot : Nat) :
    prot_to_perm cfg (prot % 4294967296) = prot_to_perm cfg prot := by
  have hm : prot % 4294967296 = prot &&& (2 ^ 32 - 1) :=
    (Nat.and_pow_two_sub_one_eq_mod prot 32).symm
  have h1 : (prot % 4294967296) &&& PROT_READ = prot &&& PROT_READ := by
    rw [hm, Nat.and_assoc]
    rfl
  have h2 : (prot % 4294967296) &&& PROT_WRITE = prot &&& PROT_WRITE := by
    rw [hm, Nat.and_assoc]
    rfl
  have h3 : (prot % 4294967296) &&& PROT_EXEC = prot &&& PROT_EXEC := by
    rw [hm, Nat.and_assoc]
    rfl
  unfold prot_to_perm
  rw [h1, h2, h3]

/-! ## `umm_munmap`, path by path -/

theorem umm_munmap_first_ok (cfg : Config) (w : World) (addr len : Nat) (s : Sys)
    (hsafe : cfg.mem_ref_is_safe addr len = true)
    (h1 : w.ret s.log (Call.munmap addr len) = 0) :
    umm_munmap cfg w addr len s =
      (0, ⟨s.brk_len, s.mmap_len,
        s.log ++ [Call.munmap addr len, Call.dune_vm_unmap addr len]⟩) := by
  simp [umm_munmap, hsafe, h1, Sys.push]

theorem umm_munmap_retry_ok (cfg : Config) (w : World) (addr len : Nat) (s : Sys)
    (hsafe : cfg.mem_ref_is_safe addr len = true)
    (h1 : w.ret s.log (Call.munmap addr len) ≠ 0)
    (h2 : w.ret (s.log ++ [Call.munmap addr len])
      (Call.munmap addr (big_round cfg len)) = 0) :
    umm_munmap cfg w addr len s =
      (0, ⟨s.brk_len, s.mmap_len,
        s.log ++ [Call.munmap addr len, Call.munmap addr (big_round cfg len),
          Call.dune_vm_unmap addr (big_round cfg len)]⟩) := by
  unfold big_round at h2 ⊢
  simp [umm_munmap, hsafe, h1, h2, Sys.push]

theorem umm_munmap_retry_fail (cfg : Config) (w : World) (addr len : Nat) (s : Sys)
    (hsafe : cfg.mem_ref_is_safe addr len = true)
    (h1 : w.ret s.log (Call.munmap addr len) ≠ 0)
    (h2 : w.ret (s.log ++ [Call.munmap addr len])
      (Call.munmap addr (big_round cfg len)) ≠ 0) :
    umm_munmap cfg w addr len s =
      (- w.errno (s.log ++ [Call.munmap addr len]) (Call.munmap addr (big_round cfg len)),
        ⟨s.brk_len, s.mmap_len,
          s.log ++ [Call.munmap addr len, Call.munmap addr (big_round cfg len)]⟩) := by
  unfold big_round at h2 ⊢
  simp [umm_munmap, hsafe, h1, h2, Sys.push]

theorem umm_munmap_rejected (cfg : Config) (w : World) (addr len : Nat) (s : Sys)
    (hsafe : cfg.mem_ref_is_safe addr len = false) :
    umm_munmap cfg w addr len s = (EACCES, s) := by
  simp [umm_munmap, hsafe]

/-! ## The ranges a successful `umm_brk` maps and unmaps -/

/-- With a conforming host and shadow page table, what a successful
`umm_brk(b)` has logged and set, in each of its three cases. -/
theorem umm_brk_success_cases (cfg : Config) (w : World) (b : Nat) (s : Sys)
    (hw : w.posix) (hsh : w.shadow_codes) (hb : b ≠ 0)
    (hok : ¬ is_error (umm_brk cfg w b s).1) :
    (s.brk_len < big_round cfg (b - cfg.mmap_base) →
        umm_brk cfg w b s =
          (b, ⟨big_round cfg (b - cfg.mmap_base), s.mmap_len,
            s.log ++ [anom_host_call (add64 cfg.mmap_base s.brk_len)
                (big_round cfg (b - cfg.mmap_base) - s.brk_len) (PROT_READ ||| PROT_WRITE) true,
              anom_shadow_call cfg w (add64 cfg.mmap_base s.brk_len)
                (big_round cfg (b - cfg.mmap_base) - s.brk_len)
                (PROT_READ ||| PROT_WRITE) true]⟩)) ∧
      (big_round cfg (b - cfg.mmap_base) < s.brk_len →
        umm_brk cfg w b s =
          (b, ⟨big_round cfg (b - cfg.mmap_base), s.mmap_len,
            s.log ++ [Call.munmap (add64 cfg.mmap_base (big_round cfg (b - cfg.mmap_base)))
                (s.brk_len - big_round cfg (b - cfg.mmap_base)),
              Call.dune_vm_unmap (add64 cfg.mmap_base (big_round cfg (b - cfg.mmap_base)))
                (s.brk_len - big_round cfg (b - cfg.mmap_base))]⟩)) ∧
      (big_round cfg (b - cfg.mmap_base) = s.brk_len → umm_brk cfg w b s = (b, s)) := by
  have h := umm_brk_success cfg w b s hw hsh hb hok
  obtain ⟨hge, hsp, -, -, -⟩ := h
  refine ⟨fun hl => ?_, fun hl => ?_, fun hl => umm_brk_same cfg w b s hb hge hsp hl⟩
  · by_cases h0 : (umm_mmap_anom cfg w (add64 cfg.mmap_base s.brk_len)
          (big_round cfg (b - cfg.mmap_base) - s.brk_len)
          (PROT_READ ||| PROT_WRITE) true s).1 = 0
    · exact umm_brk_grow_ok cfg w b s hw hb hge hsp hl h0
    · rw [umm_brk_grow_fail cfg w b s hb hge hsp hl h0] at hok
      have := umm_mmap_anom_nonzero_neg cfg w _ _ _ true s hw hsh h0
      exact absurd (to_ulong_neg_is_error _ this.1 this.2) hok
  · by_cases hret : w.ret s.log
          (Call.munmap (add64 cfg.mmap_base (big_round cfg (b - cfg.mmap_base)))
            (s.brk_len - big_round cfg (b - cfg.mmap_base))) = 0
    · exact umm_brk_shrink_ok cfg w b s hb hge hsp hl hret
    · rw [umm_brk_shrink_fail cfg w b s hb hge hsp hl hret] at hok
      exact absurd (to_ulong_neg_errno_is_error w hw _ _) hok

theorem covered_append (l new : List Call) (x : Nat) :
    covered (l ++ new) x = new.foldl (cover_step x) (covered l x) := by
  unfold covered
  rw [List.foldl_append]

theorem heap_exact_step (cfg : Config) (w : World) (b : Nat) (s : Sys)
    (hw : w.posix) (hsh : w.shadow_codes) (hbig : 0 < cfg.BIG_PGSIZE)
    (hb : b ≠ 0) (hfit : b + cfg.BIG_PGSIZE ≤ U64)
    (hok : ¬ is_error (umm_brk cfg w b s).1) (hs : heap_exact cfg s) :
    heap_exact cfg (umm_brk cfg w b s).2 := by
  have hsucc := umm_brk_success cfg w b s hw hsh hb hok
  have hge := hsucc.1
  have hr := big_round_spec cfg (b - cfg.mmap_base) hbig (by omega)
  have hcases := umm_brk_success_cases cfg w b s hw hsh hb hok
  obtain ⟨hwrap, hcov⟩ := hs
  rcases Nat.lt_trichotomy (big_round cfg (b - cfg.mmap_base)) s.brk_len with hl | hl | hl
  · rw [hcases.2.1 hl]
    have ha : add64 cfg.mmap_base (big_round cfg (b - cfg.mmap_base))
        = cfg.mmap_base + big_round cfg (b - cfg.mmap_base) :=
      add64_eq_add _ _ (by omega)
    refine ⟨by simp only; omega, fun x => ?_⟩
    simp only [covered_append, List.foldl_cons, List.foldl_nil, cover_step, hcov x, ha]
    rw [Bool.eq_iff_iff]
    simp only [Bool.and_eq_true, decide_eq_true_eq, Bool.not_eq_true', decide_eq_false_iff_not]
    omega
  · rw [hcases.2.2 hl]
    exact ⟨hwrap, hcov⟩
  · rw [hcases.1 hl]
    have ha : add64 cfg.mmap_base s.brk_len = cfg.mmap_base + s.brk_len :=
      add64_eq_add _ _ (by omega)
    refine ⟨by simp only; omega, fun x => ?_⟩
    simp only [covered_append, List.foldl_cons, List.foldl_nil, cover_step, hcov x, ha,
      anom_host_call, anom_shadow_call]
    rw [Bool.eq_iff_iff]
    simp only [Bool.or_eq_true, decide_eq_true_eq]
    omega

theorem heap_exact_run (cfg : Config) (w : World)
    (hw : w.posix) (hsh : w.shadow_codes) (hbig : 0 < cfg.BIG_PGSIZE) (bs : List Nat) :
    ∀ s, heap_exact cfg s → all_brk_ok cfg w bs s →
      heap_exact cfg (run cfg w (bs.map Op.brk) s) := by
  induction bs with
  | nil => exact fun s hs _ => hs
  | cons b bs ih =>
    intro s hs hall
    obtain ⟨hb, hfit, hok, hrest⟩ := hall
    exact ih _ (heap_exact_step cfg w b s hw hsh hbig hb hfit hok hs) hrest

/-- A sequence of three successful heap requests in the 8 MiB configuration:
grow to 2 MiB, grow to 4 MiB, shrink to 2 MiB. -/
theorem all_brk_ok_example :
    all_brk_ok roomy World.accept [1073751824, 1076887552, 1073741924] Sys.init ∧
      (run roomy World.accept ([1073751824, 1076887552, 1073741924].map Op.brk)
        Sys.init).brk_len = 2097152 := by
  simp only [all_brk_ok, and_true]
  decide

/-! ## Claims -/

/-- C1 (space invariant), evaluated on the code.  With a region limit of
8 MiB, five successive anonymous 2 MiB requests without an address all go to
`umm_map_big`, which never consults `umm_space_left`: each one succeeds,
`mmap_len` reaches 8 MiB after the fourth and 10 MiB after the fifth, so
`brk_len + mmap_len < APP_MMAP_LEN` is false, and the fifth mapping lies
below `mmap_base`.  On the ordinary path a single file-backed request of
8 MiB - 1 bytes passes the check on the unrounded length and then adds the
rounded length, which also reaches the limit. -/
theorem space_invariant_violated :
    (run roomy World.accept
        (List.replicate 4 (Op.mmap 0 2097152 (PROT_READ ||| PROT_WRITE)
          (MAP_PRIVATE ||| MAP_ANONYMOUS) (-1) 0)) Sys.init).mmap_len = 8388608 ∧
      ¬ ((run roomy World.accept
        (List.replicate 4 (Op.mmap 0 2097152 (PROT_READ ||| PROT_WRITE)
          (MAP_PRIVATE ||| MAP_ANONYMOUS) (-1) 0)) Sys.init).brk_len +
        (run roomy World.accept
        (List.replicate 4 (Op.mmap 0 2097152 (PROT_READ ||| PROT_WRITE)
          (MAP_PRIVATE ||| MAP_ANONYMOUS) (-1) 0)) Sys.init).mmap_len < roomy.APP_MMAP_LEN) ∧
      (umm_mmap roomy World.accept 0 2097152 (PROT_READ ||| PROT_WRITE)
        (MAP_PRIVATE ||| MAP_ANONYMOUS) (-1) 0
        (run roomy World.accept
          (List.replicate 4 (Op.mmap 0 2097152 (PROT_READ ||| PROT_WRITE)
            (MAP_PRIVATE ||| MAP_ANONYMOUS) (-1) 0)) Sys.init)).1
        = roomy.mmap_base - 2097152 ∧
      (umm_mmap roomy World.accept 0 2097152 (PROT_READ ||| PROT_WRITE)
        (MAP_PRIVATE ||| MAP_ANONYMOUS) (-1) 0
        (run roomy World.accept
          (List.replicate 4 (Op.mmap 0 2097152 (PROT_READ ||| PROT_WRITE)
            (MAP_PRIVATE ||| MAP_ANONYMOUS) (-1) 0)) Sys.init)).2.mmap_len = 10485760 ∧
      (umm_mmap roomy World.accept 0 8388607 PROT_READ MAP_PRIVATE 3 0 Sys.init).1
        = roomy.mmap_base ∧
      (umm_mmap roomy World.accept 0 8388607 PROT_READ MAP_PRIVATE 3 0 Sys.init).2.mmap_len
        = roomy.APP_MMAP_LEN := by
  decide

/-- C2 (escape prevention, no mutation): when `mem_ref_is_safe` rejects
`(addr, len)`, `umm_munmap`, `umm_mprotect` and `umm_mmap` with that non-null
address return the state they were given: no host or shadow call is logged
and both counters keep their values. -/
theorem rejected_range_leaves_state (cfg : Config) (w : World) (addr len : Nat) (s : Sys)
    (hrej : cfg.mem_ref_is_safe addr len = false) :
    (umm_munmap cfg w addr len s).2 = s ∧
      (∀ prot, (umm_mprotect cfg w addr len prot s).2 = s) ∧
      (addr ≠ 0 → ∀ prot flags fd offset,
        (umm_mmap cfg w addr len prot flags fd offset s).2 = s) := by
  refine ⟨?_, ?_, ?_⟩
  · simp [umm_munmap, hrej]
  · intro prot
    simp [umm_mprotect, hrej]
  · intro ha prot flags fd offset
    simp [umm_mmap, hrej, ha]

/-- Witness for C2: the scenario's validator rejects the page at address
4096, and the three entry points leave the initial state as it is. -/
theorem rejected_range_leaves_state_witness :
    scenario.mem_ref_is_safe 4096 4096 = false ∧
      ((umm_munmap scenario World.accept 4096 4096 Sys.init).2 = Sys.init ∧
        (∀ prot, (umm_mprotect scenario World.accept 4096 4096 prot Sys.init).2 = Sys.init) ∧
        ((4096 : Nat) ≠ 0 → ∀ prot flags fd offset,
          (umm_mmap scenario World.accept 4096 4096 prot flags fd offset Sys.init).2
            = Sys.init)) :=
  ⟨by decide, rejected_range_leaves_state scenario World.accept 4096 4096 Sys.init (by decide)⟩

/-- C3 as stated fails: for the rejected range `(4096, 4096)` none of the three
entry points returns `-EACCES`; `umm_munmap` and `umm_mprotect` return
`EACCES` (13) and `umm_mmap` returns `-EINVAL`. -/
theorem rejected_range_not_minus_eacces :
    (umm_munmap scenario World.accept 4096 4096 Sys.init).1 ≠ -EACCES ∧
      (umm_mprotect scenario World.accept 4096 4096 PROT_READ Sys.init).1 ≠ some (-EACCES) ∧
      (umm_mmap scenario World.accept 4096 4096 PROT_READ
        (MAP_PRIVATE ||| MAP_ANONYMOUS ||| MAP_FIXED) (-1) 0 Sys.init).1
        ≠ to_ulong (-EACCES) ∧
      (umm_munmap scenario World.accept 4096 4096 Sys.init).1 = 13 ∧
      (umm_mprotect scenario World.accept 4096 4096 PROT_READ Sys.init).1 = some 13 ∧
      (umm_mmap scenario World.accept 4096 4096 PROT_READ
        (MAP_PRIVATE ||| MAP_ANONYMOUS ||| MAP_FIXED) (-1) 0 Sys.init).1
        = to_ulong (-22) := by
  decide

/-- C3, amended: when `mem_ref_is_safe` rejects `(addr, len)`, `umm_mmap`
with that non-null address returns `-EINVAL`, which is an error code (negative
as a `long`); `umm_munmap` and `umm_mprotect` return a non-zero value whose
magnitude is `EACCES`. -/
theorem rejected_range_result (cfg : Config) (w : World) (addr len : Nat) (s : Sys)
    (hrej : cfg.mem_ref_is_safe addr len = false) :
    (addr ≠ 0 → ∀ prot flags fd offset,
        (umm_mmap cfg w addr len prot flags fd offset s).1 = to_ulong (-EINVAL) ∧
          is_error (umm_mmap cfg w addr len prot flags fd offset s).1) ∧
      (umm_munmap cfg w addr len s).1 ≠ 0 ∧
      ((umm_munmap cfg w addr len s).1).natAbs = EACCES ∧
      (∀ prot, ∃ r : Int, (umm_mprotect cfg w addr len prot s).1 = some r ∧ r ≠ 0 ∧
        r.natAbs = EACCES) := by
  refine ⟨?_, ?_, ?_, ?_⟩
  · intro ha prot flags fd offset
    have h : (umm_mmap cfg w addr len prot flags fd offset s).1 = to_ulong (-EINVAL) := by
      simp [umm_mmap, hrej, ha]
    rw [h]
    exact ⟨rfl, by decide⟩
  · simp [umm_munmap, hrej, EACCES]
  · simp [umm_munmap, hrej, EACCES]
  · intro prot
    exact ⟨EACCES, by simp [umm_mprotect, hrej], by decide, by decide⟩

/-- Witness for the amended C3, at the rejected range `(4096, 4096)` of the
scenario. -/
theorem rejected_range_result_witness :
    scenario.mem_ref_is_safe 4096 4096 = false ∧
      (((4096 : Nat) ≠ 0 → ∀ prot flags fd offset,
        (umm_mmap scenario World.refuse 4096 4096 prot flags fd offset Sys.init).1
            = to_ulong (-EINVAL) ∧
          is_error (umm_mmap scenario World.refuse 4096 4096 prot flags fd offset Sys.init).1) ∧
      (umm_munmap scenario World.refuse 4096 4096 Sys.init).1 ≠ 0 ∧
      ((umm_munmap scenario World.refuse 4096 4096 Sys.init).1).natAbs = EACCES ∧
      (∀ prot, ∃ r : Int,
        (umm_mprotect scenario World.refuse 4096 4096 prot Sys.init).1 = some r ∧ r ≠ 0 ∧
        r.natAbs = EACCES)) :=
  ⟨by decide, rejected_range_result scenario World.refuse 4096 4096 Sys.init (by decide)⟩

/-- C4 (establish is all-or-nothing), for an environment whose failed host
calls leave a positive error number.  For `umm_mmap_anom` and for
`umm_mmap_file`: the result is 0 only if the host `mmap` returned `addr` and
`dune_vm_map_phys` returned 0; if the host `mmap` did not return `addr`, the
only call made is that `mmap` and the result is `-errno`, a negative number;
if the host `mmap` returned `addr` and `dune_vm_map_phys` a non-zero code,
the calls made are `mmap`, `dune_vm_map_phys` and then `munmap(addr, len)`,
and the result is that code.  The counters are never touched. -/
theorem establish_all_or_nothing (cfg : Config) (w : World) (addr len prot : Nat)
    (big : Bool) (fd offset : Int) (s : Sys) (hw : w.posix) :
    ((umm_mmap_anom cfg w addr len prot big s).1 = 0 →
        w.ret s.log (anom_host_call addr len prot big) = (addr : Int) ∧
        w.ret (s.log ++ [anom_host_call addr len prot big])
          (anom_shadow_call cfg w addr len prot big) = 0) ∧
      (w.ret s.log (anom_host_call addr len prot big) ≠ (addr : Int) →
        (umm_mmap_anom cfg w addr len prot big s).2.log
            = s.log ++ [anom_host_call addr len prot big] ∧
          (umm_mmap_anom cfg w addr len prot big s).1
            = - w.errno s.log (anom_host_call addr len prot big) ∧
          (umm_mmap_anom cfg w addr len prot big s).1 < 0) ∧
      (w.ret s.log (anom_host_call addr len prot big) = (addr : Int) →
        w.ret (s.log ++ [anom_host_call addr len prot big])
          (anom_shadow_call cfg w addr len prot big) ≠ 0 →
        (umm_mmap_anom cfg w addr len prot big s).2.log
            = s.log ++ [anom_host_call addr len prot big,
                anom_shadow_call cfg w addr len prot big, Call.munmap addr len] ∧
          (umm_mmap_anom cfg w addr len prot big s).1
            = w.ret (s.log ++ [anom_host_call addr len prot big])
                (anom_shadow_call cfg w addr len prot big)) ∧
      ((umm_mmap_anom cfg w addr len prot big s).2.brk_len = s.brk_len ∧
        (umm_mmap_anom cfg w addr len prot big s).2.mmap_len = s.mmap_len) ∧
      ((umm_mmap_file cfg w addr len prot fd offset s).1 = 0 →
        w.ret s.log (file_host_call addr len prot fd offset) = (addr : Int) ∧
        w.ret (s.log ++ [file_host_call addr len prot fd offset])
          (file_shadow_call cfg w addr len prot) = 0) ∧
      (w.ret s.log (file_host_call addr len prot fd offset) ≠ (addr : Int) →
        (umm_mmap_file cfg w addr len prot fd offset s).2.log
            = s.log ++ [file_host_call addr len prot fd offset] ∧
          (umm_mmap_file cfg w addr len prot fd offset s).1
            = - w.errno s.log (file_host_call addr len prot fd offset) ∧
          (umm_mmap_file cfg w addr len prot fd offset s).1 < 0) ∧
      (w.ret s.log (file_host_call addr len prot fd offset) = (addr : Int) →
        w.ret (s.log ++ [file_host_call addr len prot fd offset])
          (file_shadow_call cfg w addr len prot) ≠ 0 →
        (umm_mmap_file cfg w addr len prot fd offset s).2.log
            = s.log ++ [file_host_call addr len prot fd offset,
                file_shadow_call cfg w addr len prot, Call.munmap addr len] ∧
          (umm_mmap_file cfg w addr len prot fd offset s).1
            = w.ret (s.log ++ [file_host_call addr len prot fd offset])
                (file_shadow_call cfg w addr len prot)) ∧
      ((umm_mmap_file cfg w addr len prot fd offset s).2.brk_len = s.brk_len ∧
        (umm_mmap_file cfg w addr len prot fd offset s).2.mmap_len = s.mmap_len) := by
  have hpos := fun h c => (hw h c).1
  refine ⟨?_, ?_, ?_, ?_, ?_, ?_, ?_, ?_⟩
  · intro h0
    by_cases h1 : w.ret s.log (anom_host_call addr len prot big) = (addr : Int)
    · refine ⟨h1, ?_⟩
      by_contra h2
      rw [umm_mmap_anom_shadow_fail cfg w addr len prot big s h1 h2] at h0
      exact h2 h0
    · rw [umm_mmap_anom_host_fail cfg w addr len prot big s h1] at h0
      have := hpos s.log (anom_host_call addr len prot big)
      simp at h0
      omega
  · intro h1
    rw [umm_mmap_anom_host_fail cfg w addr len prot big s h1]
    have := hpos s.log (anom_host_call addr len prot big)
    refine ⟨rfl, rfl, ?_⟩
    simp only
    omega
  · intro h1 h2
    rw [umm_mmap_anom_shadow_fail cfg w addr len prot big s h1 h2]
    simp [Sys.push]
  · by_cases h1 : w.ret s.log (anom_host_call addr len prot big) = (addr : Int)
    · by_cases h2 : w.ret (s.log ++ [anom_host_call addr len prot big])
          (anom_shadow_call cfg w addr len prot big) = 0
      · rw [umm_mmap_anom_ok cfg w addr len prot big s h1 h2]
        simp [Sys.push]
      · rw [umm_mmap_anom_shadow_fail cfg w addr len prot big s h1 h2]
        simp [Sys.push]
    · rw [umm_mmap_anom_host_fail cfg w addr len prot big s h1]
      simp [Sys.push]
  · intro h0
    by_cases h1 : w.ret s.log (file_host_call addr len prot fd offset) = (addr : Int)
    · refine ⟨h1, ?_⟩
      by_contra h2
      rw [umm_mmap_file_shadow_fail cfg w addr len prot fd offset s h1 h2] at h0
      exact h2 h0
    · rw [umm_mmap_file_host_fail cfg w addr len prot fd offset s h1] at h0
      have := hpos s.log (file_host_call addr len prot fd offset)
      simp at h0
      omega
  · intro h1
    rw [umm_mmap_file_host_fail cfg w addr len prot fd offset s h1]
    have := hpos s.log (file_host_call addr len prot fd offset)
    refine ⟨rfl, rfl, ?_⟩
    simp only
    omega
  · intro h1 h2
    rw [umm_mmap_file_shadow_fail cfg w addr len prot fd offset s h1 h2]
    simp [Sys.push]
  · by_cases h1 : w.ret s.log (file_host_call addr len prot fd offset) = (addr : Int)
    · by_cases h2 : w.ret (s.log ++ [file_host_call addr len prot fd offset])
          (file_shadow_call cfg w addr len prot) = 0
      · rw [umm_mmap_file_ok cfg w addr len prot fd offset s h1 h2]
        simp [Sys.push]
      · rw [umm_mmap_file_shadow_fail cfg w addr len prot fd offset s h1 h2]
        simp [Sys.push]
    · rw [umm_mmap_file_host_fail cfg w addr len prot fd offset s h1]
      simp [Sys.push]

/-- Witness for C4: in the scenario, with a shadow page table that refuses
every change, at the page above the heap base. -/
theorem establish_all_or_nothing_witness :
    World.shadow_full.posix ∧
    (((umm_mmap_anom scenario World.shadow_full 1073745920 4096 3 false Sys.init).1 = 0 →
          World.shadow_full.ret Sys.init.log (anom_host_call 1073745920 4096 3 false) = ((1073745920 : Nat) : Int) ∧
          World.shadow_full.ret (Sys.init.log ++ [anom_host_call 1073745920 4096 3 false])
            (anom_shadow_call scenario World.shadow_full 1073745920 4096 3 false) = 0) ∧
        (World.shadow_full.ret Sys.init.log (anom_host_call 1073745920 4096 3 false) ≠ ((1073745920 : Nat) : Int) →
          (umm_mmap_anom scenario World.shadow_full 1073745920 4096 3 false Sys.init).2.log
              = Sys.init.log ++ [anom_host_call 1073745920 4096 3 false] ∧
            (umm_mmap_anom scenario World.shadow_full 1073745920 4096 3 false Sys.init).1
              = - World.shadow_full.errno Sys.init.log (anom_host_call 1073745920 4096 3 false) ∧
            (umm_mmap_anom scenario World.shadow_full 1073745920 4096 3 false Sys.init).1 < 0) ∧
        (World.shadow_full.ret Sys.init.log (anom_host_call 1073745920 4096 3 false) = ((1073745920 : Nat) : Int) →
          World.shadow_full.ret (Sys.init.log ++ [anom_host_call 1073745920 4096 3 false])
            (anom_shadow_call scenario World.shadow_full 1073745920 4096 3 false) ≠ 0 →
          (umm_mmap_anom scenario World.shadow_full 1073745920 4096 3 false Sys.init).2.log
              = Sys.init.log ++ [anom_host_call 1073745920 4096 3 false,
                  anom_shadow_call scenario World.shadow_full 1073745920 4096 3 false, Call.munmap 1073745920 4096] ∧
            (umm_mmap_anom scenario World.shadow_full 1073745920 4096 3 false Sys.init).1
              = World.shadow_full.ret (Sys.init.log ++ [anom_host_call 1073745920 4096 3 false])
                  (anom_shadow_call scenario World.shadow_full 1073745920 4096 3 false)) ∧
        ((umm_mmap_anom scenario World.shadow_full 1073745920 4096 3 false Sys.init).2.brk_len = Sys.init.brk_len ∧
          (umm_mmap_anom scenario World.shadow_full 1073745920 4096 3 false Sys.init).2.mmap_len = Sys.init.mmap_len) ∧
        ((umm_mmap_file scenario World.shadow_full 1073745920 4096 3 3 0 Sys.init).1 = 0 →
          World.shadow_full.ret Sys.init.log (file_host_call 1073745920 4096 3 3 0) = ((1073745920 : Nat) : Int) ∧
          World.shadow_full.ret (Sys.init.log ++ [file_host_call 1073745920 4096 3 3 0])
            (file_shadow_call scenario World.shadow_full 1073745920 4096 3) = 0) ∧
        (World.shadow_full.ret Sys.init.log (file_host_call 1073745920 4096 3 3 0) ≠ ((1073745920 : Nat) : Int) →
          (umm_mmap_file scenario World.shadow_full 1073745920 4096 3 3 0 Sys.init).2.log
              = Sys.init.log ++ [file_host_call 1073745920 4096 3 3 0] ∧
            (umm_mmap_file scenario World.shadow_full 1073745920 4096 3 3 0 Sys.init).1
              = - World.shadow_full.errno Sys.init.log (file_host_call 1073745920 4096 3 3 0) ∧
            (umm_mmap_file scenario World.shadow_full 1073745920 4096 3 3 0 Sys.init).1 < 0) ∧
        (World.shadow_full.ret Sys.init.log (file_host_call 1073745920 4096 3 3 0) = ((1073745920 : Nat) : Int) →
          World.shadow_full.ret (Sys.init.log ++ [file_host_call 1073745920 4096 3 3 0])
            (file_shadow_call scenario World.shadow_full 1073745920 4096 3) ≠ 0 →
          (umm_mmap_file scenario World.shadow_full 1073745920 4096 3 3 0 Sys.init).2.log
              = Sys.init.log ++ [file_host_call 1073745920 4096 3 3 0,
                  file_shadow_call scenario World.shadow_full 1073745920 4096 3, Call.munmap 1073745920 4096] ∧
            (umm_mmap_file scenario World.shadow_full 1073745920 4096 3 3 0 Sys.init).1
              = World.shadow_full.ret (Sys.init.log ++ [file_host_call 1073745920 4096 3 3 0])
                  (file_shadow_call scenario World.shadow_full 1073745920 4096 3)) ∧
        ((umm_mmap_file scenario World.shadow_full 1073745920 4096 3 3 0 Sys.init).2.brk_len = Sys.init.brk_len ∧
          (umm_mmap_file scenario World.shadow_full 1073745920 4096 3 3 0 Sys.init).2.mmap_len = Sys.init.mmap_len)) :=
  ⟨World.shadow_full_posix,
    establish_all_or_nothing scenario World.shadow_full 1073745920 4096 3 false 3 0 Sys.init
      World.shadow_full_posix⟩

/-- C5 (failure atomicity of the layout state).  For every state, every input
and every environment: a call of `umm_brk`, `umm_mmap`, `umm_map_big` or
`umm_alloc_stack` that returns anything but its success value (the boundary
asked for; the address the mapping is placed at; 0) leaves `brk_len` and
`mmap_len` as they were, and `umm_munmap` and `umm_mprotect` never change
them.  When failed host calls leave a positive error number, a counter
changes only in a call all of whose host and shadow calls reported success. -/
theorem failure_atomicity (cfg : Config) (w : World) (s : Sys) :
    (∀ b, ((umm_brk cfg w b s).1 ≠ b → same_counters s (umm_brk cfg w b s).2) ∧
        (w.posix → changed_only_by_success w s (umm_brk cfg w b s).2)) ∧
      (∀ addr len prot flags fd offset,
        ((umm_mmap cfg w addr len prot flags fd offset s).1 ≠ mmap_target cfg s addr len flags →
          same_counters s (umm_mmap cfg w addr len prot flags fd offset s).2) ∧
        (w.posix →
          changed_only_by_success w s (umm_mmap cfg w addr len prot flags fd offset s).2)) ∧
      (∀ len prot,
        ((umm_map_big cfg w len prot s).1
            ≠ sub64 (umm_get_map_pos cfg s) (big_full_len cfg s len) →
          same_counters s (umm_map_big cfg w len prot s).2) ∧
        (w.posix → changed_only_by_success w s (umm_map_big cfg w len prot s).2)) ∧
      (∀ addr len, same_counters s (umm_munmap cfg w addr len s).2) ∧
      (∀ addr len prot, same_counters s (umm_mprotect cfg w addr len prot s).2) ∧
      (∀ top, ((umm_alloc_stack cfg w top s).1 ≠ 0 →
          same_counters s (umm_alloc_stack cfg w top s).2.2) ∧
        (w.posix → changed_only_by_success w s (umm_alloc_stack cfg w top s).2.2)) := by
  refine ⟨?_, ?_, ?_, ?_, ?_, ?_⟩
  · intro b
    refine ⟨fun hne => ?_, fun hw => changed_of_atomic _ _ _ _ _ (umm_brk_atomic cfg w b s hw)⟩
    exact (umm_brk_ret_or_same cfg w b s).resolve_right hne
  · intro addr len prot flags fd offset
    refine ⟨fun hne => ?_, fun hw =>
      changed_of_atomic _ _ _ _ _ (umm_mmap_atomic cfg w addr len prot flags fd offset s hw)⟩
    exact (umm_mmap_ret_or_same cfg w addr len prot flags fd offset s).resolve_right hne
  · intro len prot
    refine ⟨fun hne => ?_, fun hw =>
      changed_of_atomic _ _ _ _ _ (umm_map_big_atomic cfg w len prot s hw)⟩
    exact (umm_map_big_ret_or_same cfg w len prot s).resolve_right hne
  · exact fun addr len => umm_munmap_counters cfg w addr len s
  · exact fun addr len prot => umm_mprotect_counters cfg w addr len prot s
  · intro top
    refine ⟨fun hne => ?_, fun hw =>
      changed_of_atomic _ _ _ _ _ (umm_alloc_stack_atomic cfg w top s hw)⟩
    exact (umm_alloc_stack_ret_or_same cfg w top s).resolve_right hne

/-- C6 as stated fails: after `umm_brk(base + 10000)` has grown the heap to
2 MiB (region limit 8 MiB), `umm_brk(0)` returns `mmap_base`, which is not
`mmap_base + brk_len`. -/
theorem brk_zero_not_current_boundary :
    (umm_brk roomy World.accept 1073751824 Sys.init).1 = 1073751824 ∧
      (umm_brk roomy World.accept 1073751824 Sys.init).2.brk_len = 2097152 ∧
      (umm_brk roomy World.accept 0 (umm_brk roomy World.accept 1073751824 Sys.init).2).1
        = roomy.mmap_base ∧
      (umm_brk roomy World.accept 0 (umm_brk roomy World.accept 1073751824 Sys.init).2).1
        ≠ roomy.mmap_base + (umm_brk roomy World.accept 1073751824 Sys.init).2.brk_len := by
  decide

/-- C6, amended: in every state `umm_brk(0)` returns `mmap_base`, the base of
the heap, makes no host or shadow call and leaves the state unchanged; the
value is `mmap_base + brk_len` in the states where `brk_len = 0`. -/
theorem brk_zero_reports_base (cfg : Config) (w : World) (s : Sys) :
    (umm_brk cfg w 0 s).1 = cfg.mmap_base ∧ (umm_brk cfg w 0 s).2 = s ∧
      (s.brk_len = 0 → (umm_brk cfg w 0 s).1 = cfg.mmap_base + s.brk_len) := by
  rw [umm_brk_zero]
  refine ⟨rfl, rfl, fun h => ?_⟩
  rw [h]
  rfl

/-- C7 as stated fails.  With a region limit of 8 MiB, `umm_brk(base + 10000)`
on the empty heap succeeds and leaves `brk_len = 2097152`, not 12288, the
multiple of the ordinary page size.  In the scenario itself (region limit
1 MiB) `umm_brk(base)` returns `base` with `brk_len = 0`, and
`umm_brk(base + 10000)` then returns `-ENOMEM` and leaves `brk_len = 0`. -/
theorem brk_rounds_not_to_small_page :
    (umm_brk roomy World.accept 1073751824 Sys.init).1 = 1073751824 ∧
      (umm_brk roomy World.accept 1073751824 Sys.init).2.brk_len = 2097152 ∧
      (umm_brk roomy World.accept 1073751824 Sys.init).2.brk_len
        ≠ page_round roomy (1073751824 - roomy.mmap_base) ∧
      page_round roomy (1073751824 - roomy.mmap_base) = 12288 ∧
      umm_brk scenario World.accept 1073741824 Sys.init = (1073741824, Sys.init) ∧
      (umm_brk scenario World.accept 1073751824
        (umm_brk scenario World.accept 1073741824 Sys.init).2).1 = to_ulong (-ENOMEM) ∧
      (umm_brk scenario World.accept 1073751824
        (umm_brk scenario World.accept 1073741824 Sys.init).2).2.brk_len = 0 := by
  decide

/-- C7, amended: with a conforming host and shadow page table, for every
non-zero boundary `b` on which `umm_brk` succeeds (its result is not an error
code), `b ≥ mmap_base` and the resulting `brk_len` is
`BIG_PGADDR(b - mmap_base + BIG_PGSIZE - 1)`, which, when the sum does not
wrap, is `b - mmap_base` rounded up to the next multiple of the huge page
size.  In the scenario `umm_brk(base)` returns `base` with `brk_len = 0`;
`umm_brk(base + 10000)` then returns `-ENOMEM` because 2 MiB exceeds the
region limit, and succeeds with `brk_len = 2097152` when the limit is
8 MiB. -/
theorem brk_rounds_to_big_page (cfg : Config) (w : World) (b : Nat) (s : Sys)
    (hw : w.posix) (hsh : w.shadow_codes) (hb : b ≠ 0)
    (hok : ¬ is_error (umm_brk cfg w b s).1) :
    (cfg.mmap_base ≤ b ∧
        (umm_brk cfg w b s).2.brk_len = big_round cfg (b - cfg.mmap_base) ∧
        (0 < cfg.BIG_PGSIZE → b - cfg.mmap_base + cfg.BIG_PGSIZE ≤ U64 →
          cfg.BIG_PGSIZE ∣ (umm_brk cfg w b s).2.brk_len ∧
          b - cfg.mmap_base ≤ (umm_brk cfg w b s).2.brk_len ∧
          (umm_brk cfg w b s).2.brk_len < b - cfg.mmap_base + cfg.BIG_PGSIZE)) ∧
      umm_brk scenario World.accept 1073741824 Sys.init = (1073741824, Sys.init) ∧
      umm_brk scenario World.accept 1073751824 Sys.init = (to_ulong (-ENOMEM), Sys.init) ∧
      (umm_brk roomy World.accept 1073751824 Sys.init).1 = 1073751824 ∧
      (umm_brk roomy World.accept 1073751824 Sys.init).2.brk_len = 2097152 := by
  have h := umm_brk_success cfg w b s hw hsh hb hok
  refine ⟨⟨h.1, h.2.2.2.1, fun hpos hx => ?_⟩, by decide, by decide, by decide, by decide⟩
  rw [h.2.2.2.1]
  exact big_round_spec cfg _ hpos hx

/-- Witness for the amended C7: `umm_brk(base + 10000)` on the empty heap, region limit
8 MiB, every host and shadow call succeeding. -/
theorem brk_rounds_to_big_page_witness :
    (World.accept.posix) ∧
    (World.accept.shadow_codes) ∧
    ((1073751824 : Nat) ≠ 0) ∧
    (¬ is_error (umm_brk roomy World.accept 1073751824 Sys.init).1) ∧
    ((roomy.mmap_base ≤ 1073751824 ∧
          (umm_brk roomy World.accept 1073751824 Sys.init).2.brk_len = big_round roomy (1073751824 - roomy.mmap_base) ∧
          (0 < roomy.BIG_PGSIZE → 1073751824 - roomy.mmap_base + roomy.BIG_PGSIZE ≤ U64 →
            roomy.BIG_PGSIZE ∣ (umm_brk roomy World.accept 1073751824 Sys.init).2.brk_len ∧
            1073751824 - roomy.mmap_base ≤ (umm_brk roomy World.accept 1073751824 Sys.init).2.brk_len ∧
            (umm_brk roomy World.accept 1073751824 Sys.init).2.brk_len < 1073751824 - roomy.mmap_base + roomy.BIG_PGSIZE)) ∧
        umm_brk scenario World.accept 1073741824 Sys.init = (1073741824, Sys.init) ∧
        umm_brk scenario World.accept 1073751824 Sys.init = (to_ulong (-ENOMEM), Sys.init) ∧
        (umm_brk roomy World.accept 1073751824 Sys.init).1 = 1073751824 ∧
        (umm_brk roomy World.accept 1073751824 Sys.init).2.brk_len = 2097152) :=
  ⟨World.accept_posix, World.accept_shadow_codes, by decide, by decide,
    brk_rounds_to_big_page roomy World.accept 1073751824 Sys.init
      World.accept_posix World.accept_shadow_codes (by decide) (by decide)⟩

/-- C8, evaluated on the code.  With a region limit of 8 MiB,
`umm_brk(base + 6 MiB)` succeeds on the empty heap and leaves `brk_len` at
6 MiB, so the space invariant holds.  The request `umm_brk(base + 2 MiB)`
that follows would shrink the heap, and its rounded length plus `mmap_len`
is 2 MiB, below the limit; yet it returns `-ENOMEM` without any call,
because `umm_space_left` adds the new length to the old `brk_len`
(6 MiB + 2 MiB).  Repeating `umm_brk(base + 4 MiB)` is refused the same
way. -/
theorem brk_shrink_refused :
    (umm_brk roomy World.accept (1073741824 + 6291456) Sys.init).1 = 1073741824 + 6291456 ∧
      (umm_brk roomy World.accept (1073741824 + 6291456) Sys.init).2.brk_len = 6291456 ∧
      (umm_brk roomy World.accept (1073741824 + 6291456) Sys.init).2.mmap_len = 0 ∧
      big_round roomy (1073741824 + 2097152 - roomy.mmap_base) = 2097152 ∧
      2097152 + 0 < roomy.APP_MMAP_LEN ∧
      umm_brk roomy World.accept (1073741824 + 2097152)
          (umm_brk roomy World.accept (1073741824 + 6291456) Sys.init).2
        = (to_ulong (-ENOMEM), (umm_brk roomy World.accept (1073741824 + 6291456) Sys.init).2) ∧
      (umm_brk roomy World.accept (1073741824 + 4194304) Sys.init).1 = 1073741824 + 4194304 ∧
      (umm_brk roomy World.accept (1073741824 + 4194304)
          (umm_brk roomy World.accept (1073741824 + 4194304) Sys.init).2).1
        = to_ulong (-ENOMEM) := by
  decide

/-- C9 (idempotence of brk): with a conforming host and shadow page table,
if `umm_brk(b)`, `b` non-zero, has just succeeded (its result is not an
error code), a second `umm_brk(b)` returns the state it was given: no host or
shadow call is logged and both counters keep their values. -/
theorem brk_idempotent (cfg : Config) (w : World) (b : Nat) (s : Sys)
    (hw : w.posix) (hsh : w.shadow_codes) (hb : b ≠ 0)
    (hok : ¬ is_error (umm_brk cfg w b s).1) :
    (umm_brk cfg w b (umm_brk cfg w b s).2).2 = (umm_brk cfg w b s).2 := by
  have h := umm_brk_success cfg w b s hw hsh hb hok
  cases hsp : umm_space_left cfg (umm_brk cfg w b s).2 (big_round cfg (b - cfg.mmap_base)) with
  | false => rw [umm_brk_no_space cfg w b _ hb h.1 hsp]
  | true => rw [umm_brk_same cfg w b _ hb h.1 hsp h.2.2.2.1.symm]

/-- Witness for C9: `umm_brk(base + 10000)` twice on the empty heap, region limit 8 MiB,
every host and shadow call succeeding. -/
theorem brk_idempotent_witness :
    (World.accept.posix) ∧
    (World.accept.shadow_codes) ∧
    ((1073751824 : Nat) ≠ 0) ∧
    (¬ is_error (umm_brk roomy World.accept 1073751824 Sys.init).1) ∧
    ((umm_brk roomy World.accept 1073751824 (umm_brk roomy World.accept 1073751824 Sys.init).2).2 = (umm_brk roomy World.accept 1073751824 Sys.init).2) :=
  ⟨World.accept_posix, World.accept_shadow_codes, by decide, by decide,
    brk_idempotent roomy World.accept 1073751824 Sys.init
      World.accept_posix World.accept_shadow_codes (by decide) (by decide)⟩

/-- C10 (general-region placement).  Take a conforming host and shadow page
table, a positive page size, a state whose general region has not passed
address 0, and two consecutive calls of `umm_mmap` with a null address that
both take the ordinary path, with lengths `l1, l2 > 0` whose rounding stays
below `2^63`.  If both succeed (neither result is an error code), then the
first returns `a1 = top - R(l1)` and the second `a2 = a1 - R(l2)`, where
`top = umm_get_map_pos` before the first call and `R = page_round` is the
length rounded up to a multiple of `PGSIZE`; `a2 < a1`, the range
`[a2, a2 + R(l2))` ends where `[a1, a1 + R(l1))` begins, so they do not
overlap, and `mmap_len` has grown by exactly `R(l1) + R(l2)`. -/
theorem mmap_placement (cfg : Config) (w : World) (l1 p1 f1 : Nat) (fd1 o1 : Int)
    (l2 p2 f2 : Nat) (fd2 o2 : Int) (s : Sys)
    (hw : w.posix) (hsh : w.shadow_codes) (hpg : 0 < cfg.PGSIZE)
    (hm : s.mmap_len ≤ add64 cfg.mmap_base cfg.APP_MMAP_BASE_OFF)
    (_hl1 : 0 < l1) (hl2 : 0 < l2)
    (hb1 : l1 + cfg.PGSIZE ≤ U64 / 2) (hb2 : l2 + cfg.PGSIZE ≤ U64 / 2)
    (hs1 : ¬ (cfg.BIG_PGSIZE ≤ l1 ∧ f1 &&& MAP_ANONYMOUS ≠ 0))
    (hs2 : ¬ (cfg.BIG_PGSIZE ≤ l2 ∧ f2 &&& MAP_ANONYMOUS ≠ 0))
    (hok1 : ¬ is_error (umm_mmap cfg w 0 l1 p1 f1 fd1 o1 s).1)
    (hok2 : ¬ is_error (umm_mmap cfg w 0 l2 p2 f2 fd2 o2
      (umm_mmap cfg w 0 l1 p1 f1 fd1 o1 s).2).1) :
    (cfg.PGSIZE ∣ page_round cfg l1 ∧ l1 ≤ page_round cfg l1 ∧
        page_round cfg l1 < l1 + cfg.PGSIZE) ∧
      (cfg.PGSIZE ∣ page_round cfg l2 ∧ l2 ≤ page_round cfg l2 ∧
        page_round cfg l2 < l2 + cfg.PGSIZE) ∧
      page_round cfg l1 + page_round cfg l2 ≤ umm_get_map_pos cfg s ∧
      (umm_mmap cfg w 0 l1 p1 f1 fd1 o1 s).1 = umm_get_map_pos cfg s - page_round cfg l1 ∧
      umm_get_map_pos cfg (umm_mmap cfg w 0 l1 p1 f1 fd1 o1 s).2
        = (umm_mmap cfg w 0 l1 p1 f1 fd1 o1 s).1 ∧
      (umm_mmap cfg w 0 l2 p2 f2 fd2 o2 (umm_mmap cfg w 0 l1 p1 f1 fd1 o1 s).2).1
        = (umm_mmap cfg w 0 l1 p1 f1 fd1 o1 s).1 - page_round cfg l2 ∧
      (umm_mmap cfg w 0 l2 p2 f2 fd2 o2 (umm_mmap cfg w 0 l1 p1 f1 fd1 o1 s).2).1
        < (umm_mmap cfg w 0 l1 p1 f1 fd1 o1 s).1 ∧
      (umm_mmap cfg w 0 l2 p2 f2 fd2 o2 (umm_mmap cfg w 0 l1 p1 f1 fd1 o1 s).2).1
          + page_round cfg l2 = (umm_mmap cfg w 0 l1 p1 f1 fd1 o1 s).1 ∧
      (umm_mmap cfg w 0 l2 p2 f2 fd2 o2 (umm_mmap cfg w 0 l1 p1 f1 fd1 o1 s).2).2.mmap_len
        = s.mmap_len + (page_round cfg l1 + page_round cfg l2) ∧
      (umm_mmap cfg w 0 l2 p2 f2 fd2 o2 (umm_mmap cfg w 0 l1 p1 f1 fd1 o1 s).2).2.brk_len
        = s.brk_len := by
  have hU : U64 / 2 ≤ U64 := half_U64_le
  have hr1 := page_round_spec cfg l1 hpg (by omega)
  have hr2 := page_round_spec cfg l2 hpg (by omega)
  have hB : add64 cfg.mmap_base cfg.APP_MMAP_BASE_OFF < U64 := Nat.mod_lt _ (by decide)
  have e1 := (umm_mmap_small_success cfg w l1 p1 f1 fd1 o1 s hw hsh hs1 hok1).2
  rw [e1] at hok1 hok2 ⊢
  have e2 := (umm_mmap_small_success cfg w l2 p2 f2 fd2 o2 _ hw hsh hs2 hok2).2
  rw [e2] at hok2 ⊢
  dsimp only [umm_get_map_pos] at hok1 hok2 ⊢
  have a1 := placement_arith _ _ _ hB hm (by omega) hok1
  obtain ⟨a11, a12, a13, a14, a15⟩ := a1
  rw [a13] at hok2 ⊢
  have a2 := placement_arith _ _ _ hB a14 (by omega) hok2
  obtain ⟨a21, a22, a23, a24, a25⟩ := a2
  have hsub : sub64 (add64 cfg.mmap_base cfg.APP_MMAP_BASE_OFF) s.mmap_len
      = add64 cfg.mmap_base cfg.APP_MMAP_BASE_OFF - s.mmap_len := sub64_eq_sub _ _ hB hm
  rw [a22, a23, a12, a15, hsub]
  refine ⟨hr1, hr2, ?_, ?_, ?_, ?_, ?_, ?_, ?_, ?_⟩ <;> omega

/-- Witness for C10: two anonymous requests of 4 KiB and 8 KiB without an address, from the
initial state, every host and shadow call succeeding. -/
theorem mmap_placement_witness :
    (World.accept.posix) ∧
    (World.accept.shadow_codes) ∧
    (0 < roomy.PGSIZE) ∧
    (Sys.init.mmap_len ≤ add64 roomy.mmap_base roomy.APP_MMAP_BASE_OFF) ∧
    (0 < 4096) ∧
    (0 < 8192) ∧
    (4096 + roomy.PGSIZE ≤ U64 / 2) ∧
    (8192 + roomy.PGSIZE ≤ U64 / 2) ∧
    (¬ (roomy.BIG_PGSIZE ≤ 4096 ∧ 34 &&& MAP_ANONYMOUS ≠ 0)) ∧
    (¬ (roomy.BIG_PGSIZE ≤ 8192 ∧ 34 &&& MAP_ANONYMOUS ≠ 0)) ∧
    (¬ is_error (umm_mmap roomy World.accept 0 4096 3 34 (-1) 0 Sys.init).1) ∧
    (¬ is_error (umm_mmap roomy World.accept 0 8192 3 34 (-1) 0
      (umm_mmap roomy World.accept 0 4096 3 34 (-1) 0 Sys.init).2).1) ∧
    ((roomy.PGSIZE ∣ page_round roomy 4096 ∧ 4096 ≤ page_round roomy 4096 ∧
          page_round roomy 4096 < 4096 + roomy.PGSIZE) ∧
        (roomy.PGSIZE ∣ page_round roomy 8192 ∧ 8192 ≤ page_round roomy 8192 ∧
          page_round roomy 8192 < 8192 + roomy.PGSIZE) ∧
        page_round roomy 4096 + page_round roomy 8192 ≤ umm_get_map_pos roomy Sys.init ∧
        (umm_mmap roomy World.accept 0 4096 3 34 (-1) 0 Sys.init).1 = umm_get_map_pos roomy Sys.init - page_round roomy 4096 ∧
        umm_get_map_pos roomy (umm_mmap roomy World.accept 0 4096 3 34 (-1) 0 Sys.init).2
          = (umm_mmap roomy World.accept 0 4096 3 34 (-1) 0 Sys.init).1 ∧
        (umm_mmap roomy World.accept 0 8192 3 34 (-1) 0 (umm_mmap roomy World.accept 0 4096 3 34 (-1) 0 Sys.init).2).1
          = (umm_mmap roomy World.accept 0 4096 3 34 (-1) 0 Sys.init).1 - page_round roomy 8192 ∧
        (umm_mmap roomy World.accept 0 8192 3 34 (-1) 0 (umm_mmap roomy World.accept 0 4096 3 34 (-1) 0 Sys.init).2).1
          < (umm_mmap roomy World.accept 0 4096 3 34 (-1) 0 Sys.init).1 ∧
        (umm_mmap roomy World.accept 0 8192 3 34 (-1) 0 (umm_mmap roomy World.accept 0 4096 3 34 (-1) 0 Sys.init).2).1
            + page_round roomy 8192 = (umm_mmap roomy World.accept 0 4096 3 34 (-1) 0 Sys.init).1 ∧
        (umm_mmap roomy World.accept 0 8192 3 34 (-1) 0 (umm_mmap roomy World.accept 0 4096 3 34 (-1) 0 Sys.init).2).2.mmap_len
          = Sys.init.mmap_len + (page_round roomy 4096 + page_round roomy 8192) ∧
        (umm_mmap roomy World.accept 0 8192 3 34 (-1) 0 (umm_mmap roomy World.accept 0 4096 3 34 (-1) 0 Sys.init).2).2.brk_len
          = Sys.init.brk_len) :=
  ⟨World.accept_posix, World.accept_shadow_codes, by decide, by decide, by decide, by decide, by decide, by decide, by decide, by decide, by decide, by decide,
    mmap_placement roomy World.accept 4096 3 34 (-1) 0 8192 3 34 (-1) 0 Sys.init
      World.accept_posix World.accept_shadow_codes (by decide) (by decide) (by decide) (by decide)
      (by decide) (by decide) (by decide) (by decide) (by decide) (by decide)⟩

/-- C11 (huge-page placement).  `umm_mmap` with a null address, the
`MAP_ANONYMOUS` flag and `len ≥ BIG_PGSIZE` is `umm_map_big(len, prot)`.  With
a conforming host and shadow page table, a positive huge page size and no
wrap-around in the rounding of `len`, for every successful `umm_map_big`
(its result is not an error code) without address underflow (the rounded
length plus the huge-page offset of the top fits below the top): the address
returned is a multiple of `BIG_PGSIZE`; the range from it of `len` rounded up
to `BIG_PGSIZE` ends at `BIG_PGADDR(top)`, so at or below the top of the
general region before the call; and `umm_get_map_pos` after the call is the
address returned. -/
theorem map_big_placement (cfg : Config) (w : World) (len prot : Nat) (s : Sys)
    (hw : w.posix) (hsh : w.shadow_codes) (hbig : 0 < cfg.BIG_PGSIZE)
    (hlen : len + cfg.BIG_PGSIZE ≤ U64)
    (hno : big_round cfg len + BIG_PGOFF cfg (umm_get_map_pos cfg s) ≤ umm_get_map_pos cfg s)
    (hok : ¬ is_error (umm_map_big cfg w len prot s).1) :
    (∀ flags fd offset, cfg.BIG_PGSIZE ≤ len → flags &&& MAP_ANONYMOUS ≠ 0 →
        umm_mmap cfg w 0 len prot flags fd offset s = umm_map_big cfg w len prot s) ∧
      (cfg.BIG_PGSIZE ∣ big_round cfg len ∧ len ≤ big_round cfg len ∧
        big_round cfg len < len + cfg.BIG_PGSIZE) ∧
      cfg.BIG_PGSIZE ∣ (umm_map_big cfg w len prot s).1 ∧
      (umm_map_big cfg w len prot s).1 + big_round cfg len
        = BIG_PGADDR cfg (umm_get_map_pos cfg s) ∧
      (umm_map_big cfg w len prot s).1 + big_round cfg len ≤ umm_get_map_pos cfg s ∧
      umm_get_map_pos cfg (umm_map_big cfg w len prot s).2 = (umm_map_big cfg w len prot s).1 := by
  have hr := big_round_spec cfg len hbig hlen
  have hp := umm_get_map_pos_lt cfg s
  have e := umm_map_big_success cfg w len prot s hw hsh hok
  have hF : big_full_len cfg s len
      = big_round cfg len + BIG_PGOFF cfg (umm_get_map_pos cfg s) := by
    unfold big_full_len
    exact add64_eq_add _ _ (by omega)
  have ha : sub64 (umm_get_map_pos cfg s) (big_full_len cfg s len)
      = umm_get_map_pos cfg s - big_full_len cfg s len :=
    sub64_eq_sub _ _ hp (by omega)
  have hpos' : umm_get_map_pos cfg
      (⟨s.brk_len, add64 s.mmap_len (big_full_len cfg s len),
          s.log ++ [anom_host_call (sub64 (umm_get_map_pos cfg s) (big_full_len cfg s len))
              len prot true,
            anom_shadow_call cfg w (sub64 (umm_get_map_pos cfg s) (big_full_len cfg s len))
              len prot true]⟩ : Sys)
      = sub64 (umm_get_map_pos cfg s) (big_full_len cfg s len) := by
    unfold umm_get_map_pos
    exact sub64_add64 _ _ _
  have hoff : BIG_PGOFF cfg (umm_get_map_pos cfg s) ≤ umm_get_map_pos cfg s :=
    Nat.mod_le _ _
  have hd1 : cfg.BIG_PGSIZE ∣ BIG_PGADDR cfg (umm_get_map_pos cfg s) := Nat.dvd_sub_mod _
  have hd : cfg.BIG_PGSIZE ∣ BIG_PGADDR cfg (umm_get_map_pos cfg s) - big_round cfg len :=
    Nat.dvd_sub' hd1 hr.1
  have hpg : BIG_PGADDR cfg (umm_get_map_pos cfg s)
      = umm_get_map_pos cfg s - BIG_PGOFF cfg (umm_get_map_pos cfg s) := rfl
  refine ⟨fun flags fd offset h1 h2 => umm_mmap_big_eq cfg w len prot flags fd offset s h1 h2,
    hr, ?_, ?_, ?_, ?_⟩
  · rw [e]
    show cfg.BIG_PGSIZE ∣ sub64 (umm_get_map_pos cfg s) (big_full_len cfg s len)
    rw [ha, hF]
    have : umm_get_map_pos cfg s - (big_round cfg len + BIG_PGOFF cfg (umm_get_map_pos cfg s))
        = BIG_PGADDR cfg (umm_get_map_pos cfg s) - big_round cfg len := by
      rw [hpg]
      omega
    rw [this]
    exact hd
  · rw [e]
    show sub64 (umm_get_map_pos cfg s) (big_full_len cfg s len) + big_round cfg len = _
    rw [ha, hF, hpg]
    omega
  · rw [e]
    show sub64 (umm_get_map_pos cfg s) (big_full_len cfg s len) + big_round cfg len ≤ _
    rw [ha, hF]
    omega
  · rw [e]
    exact hpos'

/-- Witness for C11: a 2 MiB huge-page request in the state reached by one ordinary 4 KiB
request, region limit 8 MiB, every host and shadow call succeeding. -/
theorem map_big_placement_witness :
    (World.accept.posix) ∧
    (World.accept.shadow_codes) ∧
    (0 < roomy.BIG_PGSIZE) ∧
    (2097152 + roomy.BIG_PGSIZE ≤ U64) ∧
    (big_round roomy 2097152 + BIG_PGOFF roomy (umm_get_map_pos roomy (umm_mmap roomy World.accept 0 4096 3 34 (-1) 0 Sys.init).2) ≤ umm_get_map_pos roomy (umm_mmap roomy World.accept 0 4096 3 34 (-1) 0 Sys.init).2) ∧
    (¬ is_error (umm_map_big roomy World.accept 2097152 3 (umm_mmap roomy World.accept 0 4096 3 34 (-1) 0 Sys.init).2).1) ∧
    ((∀ flags fd offset, roomy.BIG_PGSIZE ≤ 2097152 → flags &&& MAP_ANONYMOUS ≠ 0 →
          umm_mmap roomy World.accept 0 2097152 3 flags fd offset (umm_mmap roomy World.accept 0 4096 3 34 (-1) 0 Sys.init).2 = umm_map_big roomy World.accept 2097152 3 (umm_mmap roomy World.accept 0 4096 3 34 (-1) 0 Sys.init).2) ∧
        (roomy.BIG_PGSIZE ∣ big_round roomy 2097152 ∧ 2097152 ≤ big_round roomy 2097152 ∧
          big_round roomy 2097152 < 2097152 + roomy.BIG_PGSIZE) ∧
        roomy.BIG_PGSIZE ∣ (umm_map_big roomy World.accept 2097152 3 (umm_mmap roomy World.accept 0 4096 3 34 (-1) 0 Sys.init).2).1 ∧
        (umm_map_big roomy World.accept 2097152 3 (umm_mmap roomy World.accept 0 4096 3 34 (-1) 0 Sys.init).2).1 + big_round roomy 2097152
          = BIG_PGADDR roomy (umm_get_map_pos roomy (umm_mmap roomy World.accept 0 4096 3 34 (-1) 0 Sys.init).2) ∧
        (umm_map_big roomy World.accept 2097152 3 (umm_mmap roomy World.accept 0 4096 3 34 (-1) 0 Sys.init).2).1 + big_round roomy 2097152 ≤ umm_get_map_pos roomy (umm_mmap roomy World.accept 0 4096 3 34 (-1) 0 Sys.init).2 ∧
        umm_get_map_pos roomy (umm_map_big roomy World.accept 2097152 3 (umm_mmap roomy World.accept 0 4096 3 34 (-1) 0 Sys.init).2).2 = (umm_map_big roomy World.accept 2097152 3 (umm_mmap roomy World.accept 0 4096 3 34 (-1) 0 Sys.init).2).1) :=
  ⟨World.accept_posix, World.accept_shadow_codes, by decide, by decide, by decide, by decide,
    map_big_placement roomy World.accept 2097152 3
      (umm_mmap roomy World.accept 0 4096 3 34 (-1) 0 Sys.init).2
      World.accept_posix World.accept_shadow_codes (by decide) (by decide) (by decide) (by decide)⟩

/-- C12 (guarded stack).  With a host that leaves a positive error number, a
stack at least one page large and no address underflow
(`APP_STACK_SIZE ≤ PGADDR(pos)`), every `umm_alloc_stack` that returns 0 from
a state whose top of the general region is `pos` has made exactly one
establish: the host `mmap` and the shadow `dune_vm_map_phys` on the address
`PGADDR(pos) - APP_STACK_SIZE + PGSIZE` with length
`APP_STACK_SIZE - PGSIZE`, read+write, without `MAP_HUGETLB` and without
`PERM_BIG`, a range that ends at `PGADDR(pos)`.  It stores `PGADDR(pos)` in
`*stack_top`, and the new top of the general region is
`PGADDR(pos) - APP_STACK_SIZE`: the reserved region below `stack_top` has
size `APP_STACK_SIZE`, and its lowest page ends where the mapped range
begins. -/
theorem alloc_stack_guarded (cfg : Config) (w : World) (top : Nat) (s : Sys)
    (hw : w.posix) (hpg : cfg.PGSIZE ≤ cfg.APP_STACK_SIZE)
    (hno : cfg.APP_STACK_SIZE ≤ PGADDR cfg (umm_get_map_pos cfg s))
    (hok : (umm_alloc_stack cfg w top s).1 = 0) :
    (umm_alloc_stack cfg w top s).2.2.log =
        s.log ++
          [Call.mmap (PGADDR cfg (umm_get_map_pos cfg s) - cfg.APP_STACK_SIZE + cfg.PGSIZE)
              (cfg.APP_STACK_SIZE - cfg.PGSIZE) (PROT_READ ||| PROT_WRITE)
              (MAP_FIXED ||| MAP_PRIVATE ||| MAP_ANONYMOUS) (-1) 0,
            Call.dune_vm_map_phys
              (PGADDR cfg (umm_get_map_pos cfg s) - cfg.APP_STACK_SIZE + cfg.PGSIZE)
              (cfg.APP_STACK_SIZE - cfg.PGSIZE)
              (w.dune_va_to_pa
                (PGADDR cfg (umm_get_map_pos cfg s) - cfg.APP_STACK_SIZE + cfg.PGSIZE))
              (prot_to_perm cfg (PROT_READ ||| PROT_WRITE))] ∧
      (MAP_FIXED ||| MAP_PRIVATE ||| MAP_ANONYMOUS) &&& MAP_HUGETLB = 0 ∧
      PGADDR cfg (umm_get_map_pos cfg s) - cfg.APP_STACK_SIZE + cfg.PGSIZE
          + (cfg.APP_STACK_SIZE - cfg.PGSIZE) = PGADDR cfg (umm_get_map_pos cfg s) ∧
      (umm_alloc_stack cfg w top s).2.1 = PGADDR cfg (umm_get_map_pos cfg s) ∧
      umm_get_map_pos cfg (umm_alloc_stack cfg w top s).2.2
        = PGADDR cfg (umm_get_map_pos cfg s) - cfg.APP_STACK_SIZE ∧
      (umm_alloc_stack cfg w top s).2.1 - umm_get_map_pos cfg (umm_alloc_stack cfg w top s).2.2
        = cfg.APP_STACK_SIZE ∧
      umm_get_map_pos cfg (umm_alloc_stack cfg w top s).2.2 + cfg.PGSIZE
        = PGADDR cfg (umm_get_map_pos cfg s) - cfg.APP_STACK_SIZE + cfg.PGSIZE := by
  have hp := umm_get_map_pos_lt cfg s
  have hpa : PGADDR cfg (umm_get_map_pos cfg s) ≤ umm_get_map_pos cfg s := Nat.sub_le _ _
  have hpo : PGADDR cfg (umm_get_map_pos cfg s) + PGOFF cfg (umm_get_map_pos cfg s)
      = umm_get_map_pos cfg s := by
    unfold PGADDR PGOFF
    have := Nat.mod_le (umm_get_map_pos cfg s) cfg.PGSIZE
    omega
  have e := (umm_alloc_stack_success cfg w top s hw hok).2
  have h1 : sub64 (PGADDR cfg (umm_get_map_pos cfg s)) cfg.APP_STACK_SIZE
      = PGADDR cfg (umm_get_map_pos cfg s) - cfg.APP_STACK_SIZE :=
    sub64_eq_sub _ _ (by omega) hno
  have hA : stack_addr cfg s
      = PGADDR cfg (umm_get_map_pos cfg s) - cfg.APP_STACK_SIZE + cfg.PGSIZE := by
    unfold stack_addr
    rw [h1]
    exact add64_eq_add _ _ (by omega)
  have hL : sub64 cfg.APP_STACK_SIZE cfg.PGSIZE = cfg.APP_STACK_SIZE - cfg.PGSIZE :=
    sub64_eq_sub _ _ (by omega) hpg
  have hadd : add64 cfg.APP_STACK_SIZE (PGOFF cfg (umm_get_map_pos cfg s))
      = cfg.APP_STACK_SIZE + PGOFF cfg (umm_get_map_pos cfg s) :=
    add64_eq_add _ _ (by omega)
  have hpos' : umm_get_map_pos cfg
      (⟨s.brk_len,
          add64 s.mmap_len (add64 cfg.APP_STACK_SIZE (PGOFF cfg (umm_get_map_pos cfg s))),
          s.log ++ [anom_host_call (stack_addr cfg s) (sub64 cfg.APP_STACK_SIZE cfg.PGSIZE)
              (PROT_READ ||| PROT_WRITE) false,
            anom_shadow_call cfg w (stack_addr cfg s) (sub64 cfg.APP_STACK_SIZE cfg.PGSIZE)
              (PROT_READ ||| PROT_WRITE) false]⟩ : Sys)
      = PGADDR cfg (umm_get_map_pos cfg s) - cfg.APP_STACK_SIZE := by
    have h2 : umm_get_map_pos cfg
        (⟨s.brk_len,
          add64 s.mmap_len (add64 cfg.APP_STACK_SIZE (PGOFF cfg (umm_get_map_pos cfg s))),
          s.log ++ [anom_host_call (stack_addr cfg s) (sub64 cfg.APP_STACK_SIZE cfg.PGSIZE)
              (PROT_READ ||| PROT_WRITE) false,
            anom_shadow_call cfg w (stack_addr cfg s) (sub64 cfg.APP_STACK_SIZE cfg.PGSIZE)
              (PROT_READ ||| PROT_WRITE) false]⟩ : Sys)
        = sub64 (umm_get_map_pos cfg s)
            (add64 cfg.APP_STACK_SIZE (PGOFF cfg (umm_get_map_pos cfg s))) := by
      unfold umm_get_map_pos
      exact sub64_add64 _ _ _
    rw [h2, hadd, sub64_eq_sub _ _ hp (by omega)]
    omega
  rw [e]
  refine ⟨?_, by decide, by omega, rfl, hpos', ?_, ?_⟩
  · show s.log ++ [anom_host_call (stack_addr cfg s) (sub64 cfg.APP_STACK_SIZE cfg.PGSIZE)
          (PROT_READ ||| PROT_WRITE) false,
        anom_shadow_call cfg w (stack_addr cfg s) (sub64 cfg.APP_STACK_SIZE cfg.PGSIZE)
          (PROT_READ ||| PROT_WRITE) false] = _
    rw [hA, hL]
    simp [anom_host_call, anom_shadow_call]
  · rw [hpos']
    show PGADDR cfg (umm_get_map_pos cfg s)
      - (PGADDR cfg (umm_get_map_pos cfg s) - cfg.APP_STACK_SIZE) = cfg.APP_STACK_SIZE
    omega
  · rw [hpos']

/-- Witness for C12: the stack allocated in the initial state, region limit 8 MiB, every
host and shadow call succeeding. -/
theorem alloc_stack_guarded_witness :
    (World.accept.posix) ∧
    (roomy.PGSIZE ≤ roomy.APP_STACK_SIZE) ∧
    (roomy.APP_STACK_SIZE ≤ PGADDR roomy (umm_get_map_pos roomy Sys.init)) ∧
    ((umm_alloc_stack roomy World.accept 0 Sys.init).1 = 0) ∧
    ((umm_alloc_stack roomy World.accept 0 Sys.init).2.2.log =
          Sys.init.log ++
            [Call.mmap (PGADDR roomy (umm_get_map_pos roomy Sys.init) - roomy.APP_STACK_SIZE + roomy.PGSIZE)
                (roomy.APP_STACK_SIZE - roomy.PGSIZE) (PROT_READ ||| PROT_WRITE)
                (MAP_FIXED ||| MAP_PRIVATE ||| MAP_ANONYMOUS) (-1) 0,
              Call.dune_vm_map_phys
                (PGADDR roomy (umm_get_map_pos roomy Sys.init) - roomy.APP_STACK_SIZE + roomy.PGSIZE)
                (roomy.APP_STACK_SIZE - roomy.PGSIZE)
                (World.accept.dune_va_to_pa
                  (PGADDR roomy (umm_get_map_pos roomy Sys.init) - roomy.APP_STACK_SIZE + roomy.PGSIZE))
                (prot_to_perm roomy (PROT_READ ||| PROT_WRITE))] ∧
        (MAP_FIXED ||| MAP_PRIVATE ||| MAP_ANONYMOUS) &&& MAP_HUGETLB = 0 ∧
        PGADDR roomy (umm_get_map_pos roomy Sys.init) - roomy.APP_STACK_SIZE + roomy.PGSIZE
            + (roomy.APP_STACK_SIZE - roomy.PGSIZE) = PGADDR roomy (umm_get_map_pos roomy Sys.init) ∧
        (umm_alloc_stack roomy World.accept 0 Sys.init).2.1 = PGADDR roomy (umm_get_map_pos roomy Sys.init) ∧
        umm_get_map_pos roomy (umm_alloc_stack roomy World.accept 0 Sys.init).2.2
          = PGADDR roomy (umm_get_map_pos roomy Sys.init) - roomy.APP_STACK_SIZE ∧
        (umm_alloc_stack roomy World.accept 0 Sys.init).2.1 - umm_get_map_pos roomy (umm_alloc_stack roomy World.accept 0 Sys.init).2.2
          = roomy.APP_STACK_SIZE ∧
        umm_get_map_pos roomy (umm_alloc_stack roomy World.accept 0 Sys.init).2.2 + roomy.PGSIZE
          = PGADDR roomy (umm_get_map_pos roomy Sys.init) - roomy.APP_STACK_SIZE + roomy.PGSIZE) :=
  ⟨World.accept_posix, by decide, by decide, by decide,
    alloc_stack_guarded roomy World.accept 0 Sys.init
      World.accept_posix (by decide) (by decide) (by decide)⟩

/-- C13 (alignment of the layout state), for configuration constants with
`PGSIZE ∣ BIG_PGSIZE ∣ 2^64` and a page-aligned ceiling and stack size.
After every sequence of requests from the initial state, in every
environment, `brk_len` is a multiple of `BIG_PGSIZE` (the granularity of the
heap, `USE_BIG_MEM` being 1) and `mmap_len` a multiple of `PGSIZE`.  In the
state so reached, with a conforming host and shadow page table, the address
returned by a successful `umm_mmap` without an address is a multiple of
`PGSIZE`, the address returned by a successful `umm_map_big` is a multiple of
`BIG_PGSIZE`, and the value a successful `umm_alloc_stack` stores in
`*stack_top` is a multiple of `PGSIZE`. -/
theorem alignment_invariant (cfg : Config) (w : World) (ops : List Op)
    (hc : cfg.page_aligned) :
    aligned cfg (run cfg w ops Sys.init) ∧
      (w.posix → w.shadow_codes → ∀ len prot flags fd offset,
        ¬ is_error (umm_mmap cfg w 0 len prot flags fd offset (run cfg w ops Sys.init)).1 →
        cfg.PGSIZE ∣ (umm_mmap cfg w 0 len prot flags fd offset (run cfg w ops Sys.init)).1) ∧
      (w.posix → w.shadow_codes → ∀ len prot,
        ¬ is_error (umm_map_big cfg w len prot (run cfg w ops Sys.init)).1 →
        cfg.BIG_PGSIZE ∣ (umm_map_big cfg w len prot (run cfg w ops Sys.init)).1) ∧
      (∀ top, (umm_alloc_stack cfg w top (run cfg w ops Sys.init)).1 = 0 →
        cfg.PGSIZE ∣ (umm_alloc_stack cfg w top (run cfg w ops Sys.init)).2.1) := by
  have hs := aligned_run cfg w hc ops Sys.init (aligned_init cfg)
  have hpu : cfg.PGSIZE ∣ U64 := Nat.dvd_trans hc.1 hc.2.1
  have hbig : ∀ len prot, w.posix → w.shadow_codes →
      ¬ is_error (umm_map_big cfg w len prot (run cfg w ops Sys.init)).1 →
      cfg.BIG_PGSIZE ∣ (umm_map_big cfg w len prot (run cfg w ops Sys.init)).1 := by
    intro len prot hw hsh hok
    rw [umm_map_big_success cfg w len prot _ hw hsh hok]
    exact dvd_sub64 _ _ _ hc.2.1 (big_full_len_mod cfg _ len hc)
  refine ⟨hs, ?_, fun hw hsh len prot => hbig len prot hw hsh, ?_⟩
  · intro hw hsh len prot flags fd offset hok
    by_cases hb : cfg.BIG_PGSIZE ≤ len ∧ flags &&& MAP_ANONYMOUS ≠ 0
    · rw [umm_mmap_big_eq cfg w len prot flags fd offset _ hb.1 hb.2] at hok ⊢
      exact Nat.dvd_trans hc.1 (hbig len prot hw hsh hok)
    · rw [(umm_mmap_small_success cfg w len prot flags fd offset _ hw hsh hb hok).2]
      exact dvd_sub64_of_dvd _ _ _ hpu (dvd_map_pos cfg _ hc hs.2) (dvd_page_round cfg len)
  · intro top hok
    rw [umm_alloc_stack_eq] at hok ⊢
    split_ifs at hok ⊢ with h1 h2
    · exact absurd hok (show (-ENOMEM : Int) ≠ 0 by decide)
    · exact absurd hok h2
    · exact Nat.dvd_sub_mod _

/-- Witness for C13: the constants of the 8 MiB configuration are aligned; the sequence is a
heap request, an ordinary mapping and a stack allocation. -/
theorem alignment_invariant_witness :
    (roomy.page_aligned) ∧
    (aligned roomy (run roomy World.accept [Op.brk 1073751824, Op.mmap 0 4096 3 34 (-1) 0, Op.alloc_stack 0] Sys.init) ∧
        (World.accept.posix → World.accept.shadow_codes → ∀ len prot flags fd offset,
          ¬ is_error (umm_mmap roomy World.accept 0 len prot flags fd offset (run roomy World.accept [Op.brk 1073751824, Op.mmap 0 4096 3 34 (-1) 0, Op.alloc_stack 0] Sys.init)).1 →
          roomy.PGSIZE ∣ (umm_mmap roomy World.accept 0 len prot flags fd offset (run roomy World.accept [Op.brk 1073751824, Op.mmap 0 4096 3 34 (-1) 0, Op.alloc_stack 0] Sys.init)).1) ∧
        (World.accept.posix → World.accept.shadow_codes → ∀ len prot,
          ¬ is_error (umm_map_big roomy World.accept len prot (run roomy World.accept [Op.brk 1073751824, Op.mmap 0 4096 3 34 (-1) 0, Op.alloc_stack 0] Sys.init)).1 →
          roomy.BIG_PGSIZE ∣ (umm_map_big roomy World.accept len prot (run roomy World.accept [Op.brk 1073751824, Op.mmap 0 4096 3 34 (-1) 0, Op.alloc_stack 0] Sys.init)).1) ∧
        (∀ top, (umm_alloc_stack roomy World.accept top (run roomy World.accept [Op.brk 1073751824, Op.mmap 0 4096 3 34 (-1) 0, Op.alloc_stack 0] Sys.init)).1 = 0 →
          roomy.PGSIZE ∣ (umm_alloc_stack roomy World.accept top (run roomy World.accept [Op.brk 1073751824, Op.mmap 0 4096 3 34 (-1) 0, Op.alloc_stack 0] Sys.init)).2.1)) :=
  ⟨roomy_page_aligned,
    alignment_invariant roomy World.accept
      [Op.brk 1073751824, Op.mmap 0 4096 3 34 (-1) 0, Op.alloc_stack 0] roomy_page_aligned⟩

/-- C14 (permission translator), for permission constants that are five
distinct single bits (`PERM_U = 2^u`, `PERM_R = 2^r`, `PERM_W = 2^wb`,
`PERM_X = 2^x`, `PERM_BIG = 2^g`).  For every `prot`, `prot_to_perm(prot)`
has the `PERM_U` bit set, the `PERM_R` bit iff `prot & PROT_READ`, the
`PERM_W` bit iff `prot & PROT_WRITE`, the `PERM_X` bit iff
`prot & PROT_EXEC`, and no other bit; it is a total function whose value
depends only on those three bits of `prot`.  When the host `mmap` has placed
the mapping, the permission `umm_mmap_anom` passes to `dune_vm_map_phys` is
that value with the `PERM_BIG` bit set exactly when `big` is set, the other
bits unchanged. -/
theorem prot_to_perm_spec (cfg : Config) (u r wb x g : Nat)
    (hU : cfg.PERM_U = 2 ^ u) (hR : cfg.PERM_R = 2 ^ r) (hW : cfg.PERM_W = 2 ^ wb)
    (hX : cfg.PERM_X = 2 ^ x) (hB : cfg.PERM_BIG = 2 ^ g)
    (hd : [u, r, wb, x, g].Nodup) (prot : Nat) :
    (prot_to_perm cfg prot).testBit u = true ∧
      ((prot_to_perm cfg prot).testBit r = true ↔ prot &&& PROT_READ ≠ 0) ∧
      ((prot_to_perm cfg prot).testBit wb = true ↔ prot &&& PROT_WRITE ≠ 0) ∧
      ((prot_to_perm cfg prot).testBit x = true ↔ prot &&& PROT_EXEC ≠ 0) ∧
      (∀ i, i ≠ u → i ≠ r → i ≠ wb → i ≠ x → (prot_to_perm cfg prot).testBit i = false) ∧
      prot_to_perm cfg (prot &&& (PROT_READ ||| PROT_WRITE ||| PROT_EXEC))
        = prot_to_perm cfg prot ∧
      (∀ (w : World) (addr len : Nat) (big : Bool) (s : Sys),
        w.ret s.log (anom_host_call addr len prot big) = (addr : Int) →
        ∃ perm rest,
          (umm_mmap_anom cfg w addr len prot big s).2.log
              = s.log ++ [anom_host_call addr len prot big,
                  Call.dune_vm_map_phys addr len (w.dune_va_to_pa addr) perm] ++ rest ∧
            perm = (if big then prot_to_perm cfg prot ||| cfg.PERM_BIG
              else prot_to_perm cfg prot) ∧
            perm.testBit g = big ∧
            ∀ i, i ≠ g → perm.testBit i = (prot_to_perm cfg prot).testBit i) := by
  have hb := prot_to_perm_testBit cfg u r wb x hU hR hW hX prot
  simp only [List.nodup_cons, List.mem_cons, List.mem_singleton, not_or, List.not_mem_nil,
    not_false_eq_true, List.nodup_nil, and_true] at hd
  obtain ⟨⟨h1, h2, h3, h4⟩, ⟨h5, h6, h7⟩, ⟨h8, h9⟩, h10⟩ := hd
  refine ⟨?_, ?_, ?_, ?_, ?_, prot_to_perm_low_bits cfg prot, ?_⟩
  · rw [hb]
    simp
  · rw [hb, prot_read_iff]
    simp [h1, Ne.symm h5, Ne.symm h6]
  · rw [hb, prot_write_iff]
    simp [h2, h5, Ne.symm h8]
  · rw [hb, prot_exec_iff]
    simp [h3, h6, h8]
  · intro i hi1 hi2 hi3 hi4
    rw [hb]
    simp [Ne.symm hi1, Ne.symm hi2, Ne.symm hi3, Ne.symm hi4]
  · intro w addr len big s hhost
    have hg : (prot_to_perm cfg prot).testBit g = false := by
      rw [hb]
      simp [h4, h7, h9, h10]
    refine ⟨if big then prot_to_perm cfg prot ||| cfg.PERM_BIG else prot_to_perm cfg prot,
      ?_, ?_, rfl, ?_, ?_⟩
    · exact if w.ret (s.log ++ [anom_host_call addr len prot big])
          (anom_shadow_call cfg w addr len prot big) = 0 then [] else [Call.munmap addr len]
    · by_cases h2 : w.ret (s.log ++ [anom_host_call addr len prot big])
          (anom_shadow_call cfg w addr len prot big) = 0
      · rw [umm_mmap_anom_ok cfg w addr len prot big s hhost h2, if_pos h2]
        simp [Sys.push, anom_shadow_call]
      · rw [umm_mmap_anom_shadow_fail cfg w addr len prot big s hhost h2, if_neg h2]
        simp [Sys.push, anom_shadow_call]
    · cases big
      · simp [hg]
      · simp [hB, Nat.testBit_or, Nat.testBit_two_pow]
    · intro i hi
      cases big
      · simp
      · simp [hB, Nat.testBit_or, Nat.testBit_two_pow, Ne.symm hi]

/-- Witness for C14: the permission constants of the scenario (`PERM_R = 1`, `PERM_W = 2`,
`PERM_X = 4`, `PERM_U = 8`, `PERM_BIG = 256`) and `prot = PROT_READ | PROT_WRITE`. -/
theorem prot_to_perm_spec_witness :
    (scenario.PERM_U = 2 ^ 3) ∧
    (scenario.PERM_R = 2 ^ 0) ∧
    (scenario.PERM_W = 2 ^ 1) ∧
    (scenario.PERM_X = 2 ^ 2) ∧
    (scenario.PERM_BIG = 2 ^ 8) ∧
    ([3, 0, 1, 2, 8].Nodup) ∧
    ((prot_to_perm scenario 3).testBit 3 = true ∧
        ((prot_to_perm scenario 3).testBit 0 = true ↔ 3 &&& PROT_READ ≠ 0) ∧
        ((prot_to_perm scenario 3).testBit 1 = true ↔ 3 &&& PROT_WRITE ≠ 0) ∧
        ((prot_to_perm scenario 3).testBit 2 = true ↔ 3 &&& PROT_EXEC ≠ 0) ∧
        (∀ i, i ≠ 3 → i ≠ 0 → i ≠ 1 → i ≠ 2 → (prot_to_perm scenario 3).testBit i = false) ∧
        prot_to_perm scenario (3 &&& (PROT_READ ||| PROT_WRITE ||| PROT_EXEC))
          = prot_to_perm scenario 3 ∧
        (∀ (w : World) (addr len : Nat) (big : Bool) (s : Sys),
          w.ret s.log (anom_host_call addr len 3 big) = ((addr : Nat) : Int) →
          ∃ perm rest,
            (umm_mmap_anom scenario w addr len 3 big s).2.log
                = s.log ++ [anom_host_call addr len 3 big,
                    Call.dune_vm_map_phys addr len (w.dune_va_to_pa addr) perm] ++ rest ∧
              perm = (if big then prot_to_perm scenario 3 ||| scenario.PERM_BIG
                else prot_to_perm scenario 3) ∧
              perm.testBit 8 = big ∧
              ∀ i, i ≠ 8 → perm.testBit i = (prot_to_perm scenario 3).testBit i)) :=
  ⟨by decide, by decide, by decide, by decide, by decide, by decide,
    prot_to_perm_spec scenario 3 0 1 2 8 (by decide) (by decide) (by decide) (by decide) (by decide)
      (by decide) 3⟩

/-- C15 (change protection).  For every range that `mem_ref_is_safe`
accepts, `umm_mprotect` first calls the host `mprotect(addr, len, prot)`
(`prot` converted to `int`).  If that call fails, `umm_mprotect` returns
`-errno` and has made no other call.  If it succeeds, `dune_vm_mprotect` is
then called once, on the same `(addr, len)` with permission
`prot_to_perm(prot)`; `umm_mprotect` returns 0 exactly when that shadow call
returned 0, and otherwise the assertion aborts the process. -/
theorem mprotect_protocol (cfg : Config) (w : World) (addr len prot : Nat) (s : Sys)
    (hsafe : cfg.mem_ref_is_safe addr len = true) :
    (w.ret s.log (Call.mprotect addr len (prot % 4294967296)) ≠ 0 →
        (umm_mprotect cfg w addr len prot s).1
            = some (- w.errno s.log (Call.mprotect addr len (prot % 4294967296))) ∧
          (umm_mprotect cfg w addr len prot s).2.log
            = s.log ++ [Call.mprotect addr len (prot % 4294967296)]) ∧
      (w.ret s.log (Call.mprotect addr len (prot % 4294967296)) = 0 →
        (umm_mprotect cfg w addr len prot s).2.log
            = s.log ++ [Call.mprotect addr len (prot % 4294967296),
                Call.dune_vm_mprotect addr len (prot_to_perm cfg prot)] ∧
          ((umm_mprotect cfg w addr len prot s).1 = some 0 ↔
            w.ret (s.log ++ [Call.mprotect addr len (prot % 4294967296)])
              (Call.dune_vm_mprotect addr len (prot_to_perm cfg prot)) = 0) ∧
          (w.ret (s.log ++ [Call.mprotect addr len (prot % 4294967296)])
              (Call.dune_vm_mprotect addr len (prot_to_perm cfg prot)) ≠ 0 →
            (umm_mprotect cfg w addr len prot s).1 = none)) ∧
      ((umm_mprotect cfg w addr len prot s).2.brk_len = s.brk_len ∧
        (umm_mprotect cfg w addr len prot s).2.mmap_len = s.mmap_len) := by
  refine ⟨?_, ?_, umm_mprotect_counters cfg w addr len prot s⟩
  · intro h
    simp [umm_mprotect, hsafe, h, Sys.push]
  · intro h
    by_cases h2 : w.ret (s.log ++ [Call.mprotect addr len (prot % 4294967296)])
        (Call.dune_vm_mprotect addr len (prot_to_perm cfg prot)) = 0
    · simp [umm_mprotect, hsafe, h, h2, Sys.push, prot_to_perm_int]
    · simp [umm_mprotect, hsafe, h, h2, Sys.push, prot_to_perm_int]

/-- Witness for C15: the first page of the heap in the scenario, with a shadow page table
that refuses every change. -/
theorem mprotect_protocol_witness :
    (scenario.mem_ref_is_safe 1073741824 4096 = true) ∧
    ((World.shadow_full.ret Sys.init.log (Call.mprotect 1073741824 4096 (1 % 4294967296)) ≠ 0 →
          (umm_mprotect scenario World.shadow_full 1073741824 4096 1 Sys.init).1
              = some (- World.shadow_full.errno Sys.init.log (Call.mprotect 1073741824 4096 (1 % 4294967296))) ∧
            (umm_mprotect scenario World.shadow_full 1073741824 4096 1 Sys.init).2.log
              = Sys.init.log ++ [Call.mprotect 1073741824 4096 (1 % 4294967296)]) ∧
        (World.shadow_full.ret Sys.init.log (Call.mprotect 1073741824 4096 (1 % 4294967296)) = 0 →
          (umm_mprotect scenario World.shadow_full 1073741824 4096 1 Sys.init).2.log
              = Sys.init.log ++ [Call.mprotect 1073741824 4096 (1 % 4294967296),
                  Call.dune_vm_mprotect 1073741824 4096 (prot_to_perm scenario 1)] ∧
            ((umm_mprotect scenario World.shadow_full 1073741824 4096 1 Sys.init).1 = some 0 ↔
              World.shadow_full.ret (Sys.init.log ++ [Call.mprotect 1073741824 4096 (1 % 4294967296)])
                (Call.dune_vm_mprotect 1073741824 4096 (prot_to_perm scenario 1)) = 0) ∧
            (World.shadow_full.ret (Sys.init.log ++ [Call.mprotect 1073741824 4096 (1 % 4294967296)])
                (Call.dune_vm_mprotect 1073741824 4096 (prot_to_perm scenario 1)) ≠ 0 →
              (umm_mprotect scenario World.shadow_full 1073741824 4096 1 Sys.init).1 = none)) ∧
        ((umm_mprotect scenario World.shadow_full 1073741824 4096 1 Sys.init).2.brk_len = Sys.init.brk_len ∧
          (umm_mprotect scenario World.shadow_full 1073741824 4096 1 Sys.init).2.mmap_len = Sys.init.mmap_len)) :=
  ⟨by decide,
    mprotect_protocol scenario World.shadow_full 1073741824 4096 1 Sys.init (by decide)⟩

/-- C16 (counter ownership).  For every state, every input and every
environment: `umm_brk` leaves `mmap_len` unchanged; `umm_mmap`, `umm_map_big`
and `umm_alloc_stack` leave `brk_len` unchanged; `umm_munmap`,
`umm_mprotect` and `umm_mmap` with a non-null address leave both counters
unchanged, so nothing that is unmapped is given back to `mmap_len`. -/
theorem counter_ownership (cfg : Config) (w : World) (s : Sys) :
    (∀ b, (umm_brk cfg w b s).2.mmap_len = s.mmap_len) ∧
      (∀ addr len prot flags fd offset,
        (umm_mmap cfg w addr len prot flags fd offset s).2.brk_len = s.brk_len) ∧
      (∀ len prot, (umm_map_big cfg w len prot s).2.brk_len = s.brk_len) ∧
      (∀ top, (umm_alloc_stack cfg w top s).2.2.brk_len = s.brk_len) ∧
      (∀ addr len, (umm_munmap cfg w addr len s).2.brk_len = s.brk_len ∧
        (umm_munmap cfg w addr len s).2.mmap_len = s.mmap_len) ∧
      (∀ addr len prot, (umm_mprotect cfg w addr len prot s).2.brk_len = s.brk_len ∧
        (umm_mprotect cfg w addr len prot s).2.mmap_len = s.mmap_len) ∧
      (∀ addr len prot flags fd offset, addr ≠ 0 →
        (umm_mmap cfg w addr len prot flags fd offset s).2.brk_len = s.brk_len ∧
          (umm_mmap cfg w addr len prot flags fd offset s).2.mmap_len = s.mmap_len) := by
  refine ⟨fun b => (umm_brk_counters cfg w b s).2,
    fun addr len prot flags fd offset =>
      (umm_mmap_counters cfg w addr len prot flags fd offset s).1,
    fun len prot => (umm_map_big_counters cfg w len prot s).1,
    fun top => (umm_alloc_stack_counters cfg w top s).1,
    fun addr len => umm_munmap_counters cfg w addr len s,
    fun addr len prot => umm_mprotect_counters cfg w addr len prot s, ?_⟩
  intro addr len prot flags fd offset ha
  have h := umm_mmap_counters cfg w addr len prot flags fd offset s
  refine ⟨h.1, ?_⟩
  rcases h.2 with h2 | ⟨h0, _⟩
  · exact h2
  · exact absurd h0 ha

/-- C17 (heap boundary below base): for every non-zero boundary
`b < mmap_base`, `umm_brk(b)` returns `-EINVAL` and the state it was given:
no host or shadow call is logged and both counters keep their values. -/
theorem brk_below_base (cfg : Config) (w : World) (b : Nat) (s : Sys)
    (hb : b ≠ 0) (hlt : b < cfg.mmap_base) :
    (umm_brk cfg w b s).1 = to_ulong (-EINVAL) ∧ is_error (umm_brk cfg w b s).1 ∧
      (umm_brk cfg w b s).2 = s := by
  rw [umm_brk_below cfg w b s hb hlt]
  exact ⟨rfl, (show is_error (to_ulong (-EINVAL)) by decide), rfl⟩

/-- Witness for C17: the boundary `base - 1` of the scenario. -/
theorem brk_below_base_witness :
    ((1073741823 : Nat) ≠ 0) ∧
    (1073741823 < scenario.mmap_base) ∧
    ((umm_brk scenario World.accept 1073741823 Sys.init).1 = to_ulong (-EINVAL) ∧ is_error (umm_brk scenario World.accept 1073741823 Sys.init).1 ∧
        (umm_brk scenario World.accept 1073741823 Sys.init).2 = Sys.init) :=
  ⟨by decide, by decide,
    brk_below_base scenario World.accept 1073741823 Sys.init (by decide) (by decide)⟩

/-- C19 as stated fails.  With a region limit of 8 MiB, after one ordinary
4 KiB mapping the top of the general region is 4 KiB below a huge-page
boundary; a successful `umm_map_big` of 2 MiB then raises `mmap_len` from
4096 to 4194304, that is by 4190208 bytes, not by 2097152, the length rounded
up to `BIG_PGSIZE`. -/
theorem map_big_adds_more_than_rounded_len :
    (umm_mmap roomy World.accept 0 4096 3 34 (-1) 0 Sys.init).2.mmap_len = 4096 ∧
      ¬ is_error (umm_map_big roomy World.accept 2097152 3
        (umm_mmap roomy World.accept 0 4096 3 34 (-1) 0 Sys.init).2).1 ∧
      (umm_map_big roomy World.accept 2097152 3
        (umm_mmap roomy World.accept 0 4096 3 34 (-1) 0 Sys.init).2).2.mmap_len = 4194304 ∧
      big_round roomy 2097152 = 2097152 ∧
      (umm_map_big roomy World.accept 2097152 3
        (umm_mmap roomy World.accept 0 4096 3 34 (-1) 0 Sys.init).2).2.mmap_len
        ≠ (umm_mmap roomy World.accept 0 4096 3 34 (-1) 0 Sys.init).2.mmap_len
          + big_round roomy 2097152 := by
  decide

/-- C19, amended: with a conforming host and shadow page table, every
successful `umm_map_big(len, prot)` adds to `mmap_len` (modulo `2^64`) the
local `full_len`, which is `BIG_PGADDR(len + BIG_PGSIZE - 1)` plus
`BIG_PGOFF` of the top of the general region before the call.  When nothing
wraps, `mmap_len` increases by exactly `len` rounded up to the next multiple
of `BIG_PGSIZE` plus that offset, hence by exactly the rounded length when the
top was a multiple of `BIG_PGSIZE`. -/
theorem map_big_accounting (cfg : Config) (w : World) (len prot : Nat) (s : Sys)
    (hw : w.posix) (hsh : w.shadow_codes)
    (hok : ¬ is_error (umm_map_big cfg w len prot s).1) :
    (umm_map_big cfg w len prot s).2.mmap_len
        = add64 s.mmap_len
            (add64 (big_round cfg len) (BIG_PGOFF cfg (umm_get_map_pos cfg s))) ∧
      (s.mmap_len + big_round cfg len + BIG_PGOFF cfg (umm_get_map_pos cfg s) < U64 →
        (umm_map_big cfg w len prot s).2.mmap_len
            = s.mmap_len + big_round cfg len + BIG_PGOFF cfg (umm_get_map_pos cfg s) ∧
          (BIG_PGOFF cfg (umm_get_map_pos cfg s) = 0 →
            (umm_map_big cfg w len prot s).2.mmap_len = s.mmap_len + big_round cfg len)) ∧
      (0 < cfg.BIG_PGSIZE → len + cfg.BIG_PGSIZE ≤ U64 →
        cfg.BIG_PGSIZE ∣ big_round cfg len ∧ len ≤ big_round cfg len ∧
          big_round cfg len < len + cfg.BIG_PGSIZE) := by
  have e := umm_map_big_success cfg w len prot s hw hsh hok
  have h1 : (umm_map_big cfg w len prot s).2.mmap_len
      = add64 s.mmap_len
          (add64 (big_round cfg len) (BIG_PGOFF cfg (umm_get_map_pos cfg s))) := by
    rw [e]
    unfold big_full_len
    simp only
  refine ⟨h1, fun hnw => ?_, fun hpos hlen => big_round_spec cfg len hpos hlen⟩
  have h2 : add64 s.mmap_len
      (add64 (big_round cfg len) (BIG_PGOFF cfg (umm_get_map_pos cfg s)))
      = s.mmap_len + big_round cfg len + BIG_PGOFF cfg (umm_get_map_pos cfg s) := by
    rw [add64_eq_add (big_round cfg len) _ (by omega), add64_eq_add _ _ (by omega)]
    omega
  rw [h1, h2]
  refine ⟨rfl, fun h0 => ?_⟩
  omega

/-- Witness for the amended C19: a 2 MiB huge-page request after one ordinary 4 KiB mapping,
region limit 8 MiB, every host and shadow call succeeding. -/
theorem map_big_accounting_witness :
    (World.accept.posix) ∧
    (World.accept.shadow_codes) ∧
    (¬ is_error (umm_map_big roomy World.accept 2097152 3 (umm_mmap roomy World.accept 0 4096 3 34 (-1) 0 Sys.init).2).1) ∧
    ((umm_map_big roomy World.accept 2097152 3 (umm_mmap roomy World.accept 0 4096 3 34 (-1) 0 Sys.init).2).2.mmap_len
          = add64 (umm_mmap roomy World.accept 0 4096 3 34 (-1) 0 Sys.init).2.mmap_len
              (add64 (big_round roomy 2097152) (BIG_PGOFF roomy (umm_get_map_pos roomy (umm_mmap roomy World.accept 0 4096 3 34 (-1) 0 Sys.init).2))) ∧
        ((umm_mmap roomy World.accept 0 4096 3 34 (-1) 0 Sys.init).2.mmap_len + big_round roomy 2097152 + BIG_PGOFF roomy (umm_get_map_pos roomy (umm_mmap roomy World.accept 0 4096 3 34 (-1) 0 Sys.init).2) < U64 →
          (umm_map_big roomy World.accept 2097152 3 (umm_mmap roomy World.accept 0 4096 3 34 (-1) 0 Sys.init).2).2.mmap_len
              = (umm_mmap roomy World.accept 0 4096 3 34 (-1) 0 Sys.init).2.mmap_len + big_round roomy 2097152 + BIG_PGOFF roomy (umm_get_map_pos roomy (umm_mmap roomy World.accept 0 4096 3 34 (-1) 0 Sys.init).2) ∧
            (BIG_PGOFF roomy (umm_get_map_pos roomy (umm_mmap roomy World.accept 0 4096 3 34 (-1) 0 Sys.init).2) = 0 →
              (umm_map_big roomy World.accept 2097152 3 (umm_mmap roomy World.accept 0 4096 3 34 (-1) 0 Sys.init).2).2.mmap_len = (umm_mmap roomy World.accept 0 4096 3 34 (-1) 0 Sys.init).2.mmap_len + big_round roomy 2097152)) ∧
        (0 < roomy.BIG_PGSIZE → 2097152 + roomy.BIG_PGSIZE ≤ U64 →
          roomy.BIG_PGSIZE ∣ big_round roomy 2097152 ∧ 2097152 ≤ big_round roomy 2097152 ∧
            big_round roomy 2097152 < 2097152 + roomy.BIG_PGSIZE)) :=
  ⟨World.accept_posix, World.accept_shadow_codes, by decide,
    map_big_accounting roomy World.accept 2097152 3
      (umm_mmap roomy World.accept 0 4096 3 34 (-1) 0 Sys.init).2
      World.accept_posix World.accept_shadow_codes (by decide)⟩

/-- C20, evaluated on the code.  The first half of the claim holds for every
input: when `umm_munmap(addr, len)` returns 0 (the host leaving a positive
error number on failure), `dune_vm_unmap` has been called exactly once, with
the arguments of the host `munmap` that succeeded, `(addr, len)` or, after
the retry, `(addr, BIG_PGADDR(len + BIG_PGSIZE - 1))`.  The second half
fails.  A guest maps one 2 MiB huge page (it lands at `base + 6 MiB`) and
calls `umm_munmap` on its first 4 KiB: `mem_ref_is_safe` accepts
`(addr, 4096)`, the host refuses that length, and the retry passes
`(addr, 2097152)` to `munmap` and to `dune_vm_unmap`, a range that is not
contained in `[addr, addr + 4096)`.  For the last page of the authorized
region the range of the retry is one the validator rejects. -/
theorem munmap_retry_exceeds_validated_range :
    (∀ (cfg : Config) (w : World) (addr len : Nat) (s : Sys), w.posix →
        (umm_munmap cfg w addr len s).1 = 0 →
        ((umm_munmap cfg w addr len s).2.log
              = s.log ++ [Call.munmap addr len, Call.dune_vm_unmap addr len] ∧
            w.ret s.log (Call.munmap addr len) = 0) ∨
          ((umm_munmap cfg w addr len s).2.log
              = s.log ++ [Call.munmap addr len, Call.munmap addr (big_round cfg len),
                  Call.dune_vm_unmap addr (big_round cfg len)] ∧
            w.ret s.log (Call.munmap addr len) ≠ 0 ∧
            w.ret (s.log ++ [Call.munmap addr len])
              (Call.munmap addr (big_round cfg len)) = 0)) ∧
      (umm_mmap roomy World.hugetlb 0 2097152 3 34 (-1) 0 Sys.init).1 = 1080033280 ∧
      roomy.mem_ref_is_safe 1080033280 4096 = true ∧
      umm_munmap roomy World.hugetlb 1080033280 4096
          (umm_mmap roomy World.hugetlb 0 2097152 3 34 (-1) 0 Sys.init).2
        = (0, ⟨0, 2097152,
            (umm_mmap roomy World.hugetlb 0 2097152 3 34 (-1) 0 Sys.init).2.log ++
              [Call.munmap 1080033280 4096, Call.munmap 1080033280 2097152,
                Call.dune_vm_unmap 1080033280 2097152]⟩) ∧
      ¬ (1080033280 + 2097152 ≤ 1080033280 + 4096) ∧
      roomy.mem_ref_is_safe 1082126336 4096 = true ∧
      umm_munmap roomy World.hugetlb 1082126336 4096 Sys.init
        = (0, ⟨0, 0, [Call.munmap 1082126336 4096, Call.munmap 1082126336 2097152,
            Call.dune_vm_unmap 1082126336 2097152]⟩) ∧
      roomy.mem_ref_is_safe 1082126336 2097152 = false := by
  refine ⟨?_, by decide, by decide, by decide, by decide, by decide, by decide, by decide⟩
  intro cfg w addr len s hw h0
  cases hsafe : cfg.mem_ref_is_safe addr len with
  | false =>
    rw [umm_munmap_rejected cfg w addr len s hsafe] at h0
    exact absurd h0 (show EACCES ≠ 0 by decide)
  | true =>
    by_cases h1 : w.ret s.log (Call.munmap addr len) = 0
    · rw [umm_munmap_first_ok cfg w addr len s hsafe h1]
      exact Or.inl ⟨rfl, h1⟩
    · by_cases h2 : w.ret (s.log ++ [Call.munmap addr len])
          (Call.munmap addr (big_round cfg len)) = 0
      · rw [umm_munmap_retry_ok cfg w addr len s hsafe h1 h2]
        exact Or.inr ⟨rfl, h1, h2⟩
      · rw [umm_munmap_retry_fail cfg w addr len s hsafe h1 h2] at h0
        have := (hw (s.log ++ [Call.munmap addr len])
          (Call.munmap addr (big_round cfg len))).1
        simp only at h0
        omega

/-- C18 (heap grow and shrink ranges), with a conforming host and shadow
page table and a positive huge page size.  Let `L` be the rounded new length
of a successful `umm_brk(b)`, `b` non-zero.  If `L > brk_len`, the calls made
are exactly those of one establish-anonymous: the host `mmap` and the shadow
`dune_vm_map_phys`, at `mmap_base + brk_len` with length `L - brk_len` and
`PROT_READ | PROT_WRITE` (huge-page backed, `USE_BIG_MEM` being 1).  If
`L < brk_len`, the calls made are exactly the host `munmap` and the shadow
`dune_vm_unmap`, both at `mmap_base + L` with length `brk_len - L`.  If
`L = brk_len`, the state is returned unchanged.  When nothing wraps, these
ranges are `[mmap_base + brk_len, mmap_base + L)` and
`[mmap_base + L, mmap_base + brk_len)`.  Consequently, after any sequence of
successful `umm_brk` calls from the initial state, the union of the ranges
mapped minus the ranges unmapped, in the order of the log, is
`[mmap_base, mmap_base + brk_len)`. -/
theorem brk_ranges (cfg : Config) (w : World)
    (hw : w.posix) (hsh : w.shadow_codes) (hbig : 0 < cfg.BIG_PGSIZE)
    (hbase : cfg.mmap_base ≤ U64) :
    (∀ b s, b ≠ 0 → ¬ is_error (umm_brk cfg w b s).1 →
        (s.brk_len < big_round cfg (b - cfg.mmap_base) →
          (umm_brk cfg w b s).2.log =
            s.log ++ [Call.mmap (add64 cfg.mmap_base s.brk_len)
                (big_round cfg (b - cfg.mmap_base) - s.brk_len) (PROT_READ ||| PROT_WRITE)
                (MAP_FIXED ||| MAP_PRIVATE ||| MAP_ANONYMOUS ||| MAP_HUGETLB) (-1) 0,
              Call.dune_vm_map_phys (add64 cfg.mmap_base s.brk_len)
                (big_round cfg (b - cfg.mmap_base) - s.brk_len)
                (w.dune_va_to_pa (add64 cfg.mmap_base s.brk_len))
                (prot_to_perm cfg (PROT_READ ||| PROT_WRITE) ||| cfg.PERM_BIG)]) ∧
        (big_round cfg (b - cfg.mmap_base) < s.brk_len →
          (umm_brk cfg w b s).2.log =
            s.log ++ [Call.munmap (add64 cfg.mmap_base (big_round cfg (b - cfg.mmap_base)))
                (s.brk_len - big_round cfg (b - cfg.mmap_base)),
              Call.dune_vm_unmap (add64 cfg.mmap_base (big_round cfg (b - cfg.mmap_base)))
                (s.brk_len - big_round cfg (b - cfg.mmap_base))]) ∧
        (big_round cfg (b - cfg.mmap_base) = s.brk_len → (umm_brk cfg w b s).2 = s) ∧
        (umm_brk cfg w b s).2.brk_len = big_round cfg (b - cfg.mmap_base) ∧
        (b + cfg.BIG_PGSIZE ≤ U64 → cfg.mmap_base + s.brk_len < U64 →
          add64 cfg.mmap_base s.brk_len = cfg.mmap_base + s.brk_len ∧
          add64 cfg.mmap_base (big_round cfg (b - cfg.mmap_base))
            = cfg.mmap_base + big_round cfg (b - cfg.mmap_base))) ∧
      (∀ bs, all_brk_ok cfg w bs Sys.init →
        ∀ x, covered (run cfg w (bs.map Op.brk) Sys.init).log x
          = decide (cfg.mmap_base ≤ x ∧
              x < cfg.mmap_base + (run cfg w (bs.map Op.brk) Sys.init).brk_len)) := by
  refine ⟨?_, ?_⟩
  · intro b s hb hok
    have hsucc := umm_brk_success cfg w b s hw hsh hb hok
    have hcases := umm_brk_success_cases cfg w b s hw hsh hb hok
    refine ⟨fun hl => ?_, fun hl => ?_, fun hl => ?_, hsucc.2.2.2.1, fun hfit hwrap => ?_⟩
    · rw [hcases.1 hl]
      simp [anom_host_call, anom_shadow_call]
    · rw [hcases.2.1 hl]
    · rw [hcases.2.2 hl]
    · have hr := big_round_spec cfg (b - cfg.mmap_base) hbig (by omega)
      have hge := hsucc.1
      have hlt : cfg.mmap_base + big_round cfg (b - cfg.mmap_base) < U64 := by omega
      exact ⟨add64_eq_add _ _ hwrap, add64_eq_add _ _ hlt⟩
  · intro bs hall
    have h0 : heap_exact cfg Sys.init := by
      refine ⟨hbase, fun x => ?_⟩
      show false = decide (cfg.mmap_base ≤ x ∧ x < cfg.mmap_base + 0)
      simp
    exact (heap_exact_run cfg w hw hsh hbig bs Sys.init h0 hall).2

/-- Witness for C18: the 8 MiB configuration with every host and shadow call succeeding. -/
theorem brk_ranges_witness :
    (World.accept.posix) ∧
    (World.accept.shadow_codes) ∧
    (0 < roomy.BIG_PGSIZE) ∧
    (roomy.mmap_base ≤ U64) ∧
    ((∀ b s, b ≠ 0 → ¬ is_error (umm_brk roomy World.accept b s).1 →
          (s.brk_len < big_round roomy (b - roomy.mmap_base) →
            (umm_brk roomy World.accept b s).2.log =
              s.log ++ [Call.mmap (add64 roomy.mmap_base s.brk_len)
                  (big_round roomy (b - roomy.mmap_base) - s.brk_len) (PROT_READ ||| PROT_WRITE)
                  (MAP_FIXED ||| MAP_PRIVATE ||| MAP_ANONYMOUS ||| MAP_HUGETLB) (-1) 0,
                Call.dune_vm_map_phys (add64 roomy.mmap_base s.brk_len)
                  (big_round roomy (b - roomy.mmap_base) - s.brk_len)
                  (World.accept.dune_va_to_pa (add64 roomy.mmap_base s.brk_len))
                  (prot_to_perm roomy (PROT_READ ||| PROT_WRITE) ||| roomy.PERM_BIG)]) ∧
          (big_round roomy (b - roomy.mmap_base) < s.brk_len →
            (umm_brk roomy World.accept b s).2.log =
              s.log ++ [Call.munmap (add64 roomy.mmap_base (big_round roomy (b - roomy.mmap_base)))
                  (s.brk_len - big_round roomy (b - roomy.mmap_base)),
                Call.dune_vm_unmap (add64 roomy.mmap_base (big_round roomy (b - roomy.mmap_base)))
                  (s.brk_len - big_round roomy (b - roomy.mmap_base))]) ∧
          (big_round roomy (b - roomy.mmap_base) = s.brk_len → (umm_brk roomy World.accept b s).2 = s) ∧
          (umm_brk roomy World.accept b s).2.brk_len = big_round roomy (b - roomy.mmap_base) ∧
          (b + roomy.BIG_PGSIZE ≤ U64 → roomy.mmap_base + s.brk_len < U64 →
            add64 roomy.mmap_base s.brk_len = roomy.mmap_base + s.brk_len ∧
            add64 roomy.mmap_base (big_round roomy (b - roomy.mmap_base))
              = roomy.mmap_base + big_round roomy (b - roomy.mmap_base))) ∧
        (∀ bs, all_brk_ok roomy World.accept bs Sys.init →
          ∀ x, covered (run roomy World.accept (bs.map Op.brk) Sys.init).log x
            = decide (roomy.mmap_base ≤ x ∧
                x < roomy.mmap_base + (run roomy World.accept (bs.map Op.brk) Sys.init).brk_len))) :=
  ⟨World.accept_posix, World.accept_shadow_codes, by decide, by decide,
    brk_ranges roomy World.accept World.accept_posix World.accept_shadow_codes
      (by decide) (by decide)⟩

end Umm
